import Mathlib

/-!
gmenu2x: colour parsing, clip rectangles, drawing primitives, text, surfaces and
the layer loop.

A shallow embedding of `src/surface.cpp` (RGBAColor, Surface, OffscreenSurface,
OutputSurface), `src/font.cpp` (Font::writeLine), `src/battery.cpp`
(Battery::getBatteryLevel) and of the main loop, the choice of the resolution,
the skin colours and the scroll bar of `src/gmenu2x.cpp`, with the properties of
the rendering core proved about it.

Conventions of the embedding:
* a `std::string` is the list of its `char`s;
* a C++ `int` is an `Int`, and every arithmetic operation on it is reduced
  with `wrapInt` into the 32-bit range; conversions to `Sint16`, `Uint16`,
  `uint8_t` and `unsigned int` are the explicit reductions `toSint16`,
  `toUint16`, `toUint8` and `toUint32`; the division of `int`s is `Int.tdiv`;
* a C++ exception is the `Except.error` result of the function that throws it;
* the SDL renderer is a record of the state the program can observe, together
  with the list of draw commands issued so far;
* what SDL, SDL_ttf, the image decoder, the input manager and the sysfs files
  answer is a parameter of the function that asks.
-/

namespace GMenu2X

/-! ## Strings and number parsing (the parts of the C++ library that are used) -/

/-- The two exceptions that `std::string::substr` and `std::stoi` throw. -/
inductive Exn where
  | invalid_argument
  | out_of_range
  deriving DecidableEq, Repr

deriving instance DecidableEq for Except

/-- The function `std::string::substr(pos, n)`: throws `out_of_range` when `pos`
is larger than the size, otherwise the at most `n` characters from `pos`. -/
def substr (s : List Char) (pos n : Nat) : Except Exn (List Char) :=
  if pos > s.length then .error Exn.out_of_range
  else .ok ((s.drop pos).take n)

/-- The predicate `isspace` of the C locale. -/
def isspace (c : Char) : Bool :=
  c = ' ' || c = '\t' || c = '\n' || c = '\x0b' || c = '\x0c' || c = '\r'

/-- The value of a character as a digit (bases up to 36), if it is one. -/
def digitVal (c : Char) : Option Nat :=
  if '0' ≤ c ∧ c ≤ '9' then some (c.toNat - 48)
  else if 'a' ≤ c ∧ c ≤ 'z' then some (c.toNat - 97 + 10)
  else if 'A' ≤ c ∧ c ≤ 'Z' then some (c.toNat - 65 + 10)
  else none

/-- Whether `c` is a digit of the given base. -/
def isDigitOf (base : Nat) (c : Char) : Bool :=
  match digitVal c with
  | some d => decide (d < base)
  | none => false

/-- Skips the leading white space, as `strtol` does first. -/
def skipSpace : List Char → List Char
  | [] => []
  | c :: cs => if isspace c then skipSpace cs else c :: cs

/-- Reads the longest run of digits of the base, accumulating the value from
`acc`; returns the value and the number of digits read. -/
def readDigits (base : Nat) : List Char → Nat → Nat → Nat × Nat
  | [], acc, cnt => (acc, cnt)
  | c :: cs, acc, cnt =>
    match digitVal c with
    | some d => if d < base then readDigits base cs (acc * base + d) (cnt + 1) else (acc, cnt)
    | none => (acc, cnt)

/-- Removes the optional `0x` / `0X` prefix of a base-16 number. The prefix is
part of the number only when a hexadecimal digit follows it; otherwise the
number is the `0` alone. -/
def skipHexPrefix (base : Nat) : List Char → List Char
  | '0' :: x :: d :: rest =>
    if base = 16 ∧ (x = 'x' ∨ x = 'X') ∧ isDigitOf 16 d then d :: rest
    else '0' :: x :: d :: rest
  | s => s

/-- Splits off the optional sign of a number: whether it is negative, and the
rest. -/
def splitSign : List Char → Bool × List Char
  | '-' :: rest => (true, rest)
  | '+' :: rest => (false, rest)
  | s => (false, s)

/-- The function `std::stoi(str, nullptr, base)` for a base from 2 to 36: white
space, an optional sign, for base 16 an optional `0x`, then the longest run of
digits. It throws `invalid_argument` when there is no digit to convert and
`out_of_range` when the value does not fit in an `int`. -/
def stoi (str : List Char) (base : Nat) : Except Exn Int :=
  let p := splitSign (skipSpace str)
  let d := readDigits base (skipHexPrefix base p.2) 0 0
  if d.2 = 0 then .error Exn.invalid_argument
  else
    let n : Int := if p.1 then - (d.1 : Int) else (d.1 : Int)
    if n < -2147483648 ∨ 2147483647 < n then .error Exn.out_of_range
    else .ok n

/-- Modelled from the spec: `compat::clamp` of `compat-algorithm.h`, which is
not among the sources; "each 2-digit group is clamped into [0,255] after
parsing", that is `std::clamp(v, lo, hi)`. -/
def clamp (v lo hi : Int) : Int :=
  if v < lo then lo else if hi < v then hi else v

/-- Conversion of an `int` to `uint8_t`. -/
def toUint8 (v : Int) : Nat := (v % 256).toNat

/-! ## RGBAColor -/

/-- The struct `RGBAColor`; its four fields are `uint8_t`. -/
structure RGBAColor where
  r : Nat
  g : Nat
  b : Nat
  a : Nat
  deriving DecidableEq, Repr

/-- The four channels are values of `uint8_t`. -/
def RGBAColor.valid (c : RGBAColor) : Prop :=
  c.r < 256 ∧ c.g < 256 ∧ c.b < 256 ∧ c.a < 256

instance (c : RGBAColor) : Decidable c.valid := by
  unfold RGBAColor.valid; infer_instance

/-- One initialiser of `RGBAColor::fromString`:
`uint8_t(compat::clamp(std::stoi(strColor.substr(pos, 2), nullptr, 16), 0, 255))`. -/
def RGBAColor.channel (strColor : List Char) (pos : Nat) : Except Exn Nat := do
  let group ← substr strColor pos 2
  let v ← stoi group 16
  pure (toUint8 (clamp v 0 255))

/-- The function `RGBAColor::fromString`. The four initialisers of the braced
list are evaluated in order, so the exception thrown is that of the first
failing group. -/
def RGBAColor.fromString (strColor : List Char) : Except Exn RGBAColor := do
  let r ← RGBAColor.channel strColor 0
  let g ← RGBAColor.channel strColor 2
  let b ← RGBAColor.channel strColor 4
  let a ← RGBAColor.channel strColor 6
  pure { r := r, g := g, b := b, a := a }

/-- The digits of `n` in base 16 with lower-case letters, as an `ostream` in
`hex` mode without `uppercase` and `showbase` writes an unsigned number. -/
def hexDigits (n : Nat) : List Char := Nat.toDigits 16 n

/-- One `os << setw(width) << n` with fill character `fill` and `right`
adjustment: the text is padded on the left up to the width. -/
def putPadded (width : Nat) (fill : Char) (text : List Char) : List Char :=
  List.replicate (width - text.length) fill ++ text

/-- The characters that `operator<<(ostream&, RGBAColor const&)` writes: the four
channels as `uint32_t`, each with `setw(2)`, fill `'0'`, `hex` and `right`. -/
def RGBAColor.write (color : RGBAColor) : List Char :=
  putPadded 2 '0' (hexDigits color.r) ++ putPadded 2 '0' (hexDigits color.g) ++
  putPadded 2 '0' (hexDigits color.b) ++ putPadded 2 '0' (hexDigits color.a)

/-- Whether the first character is a digit of the base. -/
def headIsDigit (base : Nat) : List Char → Bool
  | [] => false
  | c :: _ => isDigitOf base c

/-- A group of characters begins a hexadecimal number: after white space and an
optional sign comes a hexadecimal digit. -/
def startsNumber (group : List Char) : Bool :=
  headIsDigit 16 (splitSign (skipSpace group)).2

/-- The 2-character group of a string at a position (empty past the end). -/
def groupAt (s : List Char) (pos : Nat) : List Char := (s.drop pos).take 2

/-! ## Machine integers and rectangles -/

/-- The result of an `int` operation, reduced into the 32-bit two's complement
range. -/
def wrapInt (n : Int) : Int := (n + 2147483648) % 4294967296 - 2147483648

/-- Conversion of an `int` to `Sint16`. -/
def toSint16 (n : Int) : Int := (n + 32768) % 65536 - 32768

/-- Conversion of an `int` to `Uint16`. -/
def toUint16 (n : Int) : Int := n % 65536

/-- The struct `SDL_Rect` of SDL 2: four `int` fields. -/
structure SDL_Rect where
  x : Int
  y : Int
  w : Int
  h : Int
  deriving DecidableEq, Repr

/-- The pixel `(px, py)` belongs to the rectangle. -/
def SDL_Rect.covers (r : SDL_Rect) (px py : Int) : Prop :=
  r.x ≤ px ∧ px < r.x + r.w ∧ r.y ≤ py ∧ py < r.y + r.h

/-- The edges of `r` are within the edges of `outer`. -/
def SDL_Rect.within (r outer : SDL_Rect) : Prop :=
  outer.x ≤ r.x ∧ r.x + r.w ≤ outer.x + outer.w ∧
  outer.y ≤ r.y ∧ r.y + r.h ≤ outer.y + outer.h

/-- The rectangle has a pixel. -/
def SDL_Rect.nonEmpty (r : SDL_Rect) : Prop := 0 < r.w ∧ 0 < r.h

/-- The coordinates are small enough for every sum and difference of two of
them to be an `int`. -/
def SDL_Rect.small (r : SDL_Rect) : Prop :=
  -1073741824 ≤ r.x ∧ r.x < 1073741824 ∧ -1073741824 ≤ r.y ∧ r.y < 1073741824 ∧
  r.w < 1073741824 ∧ r.h < 1073741824

/-- The fields of the rectangle are values of `int` and so are its far edges
`x + w` and `y + h`, the sums that `Surface::applyClipRect` forms. -/
def SDL_Rect.edgesFit (r : SDL_Rect) : Prop :=
  -2147483648 ≤ r.x ∧ -2147483648 ≤ r.y ∧ r.w ≤ 2147483647 ∧ r.h ≤ 2147483647 ∧
  r.x + r.w ≤ 2147483647 ∧ r.y + r.h ≤ 2147483647

/-- The corners of the rectangle are coordinates of 16 bits, the range of the
`Sint16` locals of `Surface::rectangle`. -/
def SDL_Rect.fits16 (r : SDL_Rect) : Prop :=
  -32768 ≤ r.x ∧ -32768 ≤ r.y ∧ r.x + r.w ≤ 32768 ∧ r.y + r.h ≤ 32768

instance (r : SDL_Rect) (px py : Int) : Decidable (r.covers px py) := by
  unfold SDL_Rect.covers; infer_instance

instance (r outer : SDL_Rect) : Decidable (r.within outer) := by
  unfold SDL_Rect.within; infer_instance

instance (r : SDL_Rect) : Decidable r.nonEmpty := by
  unfold SDL_Rect.nonEmpty; infer_instance

instance (r : SDL_Rect) : Decidable r.small := by
  unfold SDL_Rect.small; infer_instance

instance (r : SDL_Rect) : Decidable r.edgesFit := by
  unfold SDL_Rect.edgesFit; infer_instance

instance (r : SDL_Rect) : Decidable r.fits16 := by
  unfold SDL_Rect.fits16; infer_instance

/-! ## The renderer -/

/-- The blend modes the program uses. -/
inductive BlendMode where
  | SDL_BLENDMODE_NONE
  | SDL_BLENDMODE_BLEND
  deriving DecidableEq, Repr

/-- An `SDL_Texture`: its identity and its alpha modulation. -/
structure Texture where
  id : Nat
  alphaMod : Nat
  deriving DecidableEq, Repr

/-- A draw command issued to the renderer, with the render target (`none` is
the window) it was issued against. -/
inductive DrawCmd where
  | fillRect (target : Option Nat) (rect : SDL_Rect) (color : RGBAColor) (blend : BlendMode)
  | copy (target : Option Nat) (texture : Texture) (src dst : Option SDL_Rect)
  | clear (target : Option Nat) (color : RGBAColor)
  | present
  deriving DecidableEq, Repr

/-- The state of the `SDL_Renderer` that the program reads or writes, and the
draw commands issued so far (oldest first). -/
structure Renderer where
  drawColor : RGBAColor
  drawBlendMode : BlendMode
  clipRect : Option SDL_Rect
  target : Option Nat
  commands : List DrawCmd
  deriving DecidableEq, Repr

/-- The call `SDL_SetRenderDrawColor`. -/
def SDL_SetRenderDrawColor (st : Renderer) (r g b a : Nat) : Renderer :=
  { st with drawColor := ⟨r, g, b, a⟩ }

/-- The call `SDL_SetRenderDrawBlendMode`. -/
def SDL_SetRenderDrawBlendMode (st : Renderer) (mode : BlendMode) : Renderer :=
  { st with drawBlendMode := mode }

/-- The call `SDL_RenderFillRect` with a rectangle. -/
def SDL_RenderFillRect (st : Renderer) (rect : SDL_Rect) : Renderer :=
  { st with commands := st.commands ++
      [DrawCmd.fillRect st.target rect st.drawColor st.drawBlendMode] }

/-- The call `SDL_RenderSetClipRect`; `none` is the null pointer, which disables
clipping. -/
def SDL_RenderSetClipRect (st : Renderer) (rect : Option SDL_Rect) : Renderer :=
  { st with clipRect := rect }

/-- The call `SDL_RenderGetClipRect`: the clip rectangle, or the empty rectangle
when clipping is disabled. -/
def SDL_RenderGetClipRect (st : Renderer) : SDL_Rect :=
  match st.clipRect with
  | some r => r
  | none => ⟨0, 0, 0, 0⟩

/-- The call `SDL_SetTextureAlphaMod`; the alpha is a `Uint8`, and the call
fails without effect on a null texture. -/
def SDL_SetTextureAlphaMod (texture : Option Texture) (alpha : Int) : Option Texture :=
  match texture with
  | some t => some { t with alphaMod := toUint8 alpha }
  | none => none

/-- The call `SDL_RenderCopy`; it fails without drawing on a null texture. -/
def SDL_RenderCopy (st : Renderer) (texture : Option Texture) (src dst : Option SDL_Rect) :
    Renderer :=
  match texture with
  | some t => { st with commands := st.commands ++ [DrawCmd.copy st.target t src dst] }
  | none => st

/-! ## Surface -/

/-- The class `Surface`: its texture and its size. The renderer, which all
surfaces share, is passed to the operations. -/
structure Surface where
  texture : Option Texture
  w : Int
  h : Int
  deriving DecidableEq, Repr

/-- The function `Surface::blit(SDL_Texture *destination, ...)`: the surface
(whose texture carries the alpha modulation) and the renderer after the call. -/
def Surface.blit (self : Surface) (st : Renderer) (destination : Option Texture)
    (x y w h a : Int) : Surface × Renderer :=
  if destination = none ∨ a = 0 then (self, st)
  else
    let src : SDL_Rect :=
      ⟨0, 0, toUint16 (if w ≠ 0 then w else self.w), toUint16 (if h ≠ 0 then h else self.h)⟩
    let dest : SDL_Rect := ⟨x, y, src.w, src.h⟩
    let texture := if a ≠ -1 then SDL_SetTextureAlphaMod self.texture a else self.texture
    let st := SDL_RenderCopy st texture (some src) (some dest)
    let texture := if a ≠ -1 then SDL_SetTextureAlphaMod texture 255 else texture
    ({ self with texture := texture }, st)

/-- A texture as SDL creates it: the alpha modulation of a new texture is 255. -/
def newTexture (id : Nat) : Texture := ⟨id, 255⟩

/-- The arguments of one call of `Surface::blit`. -/
structure BlitCall where
  destination : Option Texture
  x : Int
  y : Int
  w : Int
  h : Int
  a : Int
  deriving DecidableEq, Repr

/-- A sequence of calls of `Surface::blit` on one source, one after the other. -/
def Surface.blitAll (self : Surface) (st : Renderer) : List BlitCall → Surface × Renderer
  | [] => (self, st)
  | c :: cs =>
    Surface.blitAll (Surface.blit self st c.destination c.x c.y c.w c.h c.a).1
      (Surface.blit self st c.destination c.x c.y c.w c.h c.a).2 cs

/-- The function `Surface::applyClipRect`: the rectangle after clipping against
the clip rectangle of the renderer. -/
def Surface.applyClipRect (st : Renderer) (rect : SDL_Rect) : SDL_Rect :=
  let clip := SDL_RenderGetClipRect st
  -- Clip along X-axis.
  let rect : SDL_Rect :=
    if rect.x < clip.x then
      { rect with w := max (wrapInt (wrapInt (rect.x + rect.w) - clip.x)) 0, x := clip.x }
    else rect
  let rect : SDL_Rect :=
    if wrapInt (rect.x + rect.w) > wrapInt (clip.x + clip.w) then
      { rect with w := max (wrapInt (wrapInt (clip.x + clip.w) - rect.x)) 0 }
    else rect
  -- Clip along Y-axis.
  let rect : SDL_Rect :=
    if rect.y < clip.y then
      { rect with h := max (wrapInt (wrapInt (rect.y + rect.h) - clip.y)) 0, y := clip.y }
    else rect
  let rect : SDL_Rect :=
    if wrapInt (rect.y + rect.h) > wrapInt (clip.y + clip.h) then
      { rect with h := max (wrapInt (wrapInt (clip.y + clip.h) - rect.y)) 0 }
    else rect
  rect

/-- The function `Surface::fillRectAlpha`. -/
def Surface.fillRectAlpha (st : Renderer) (rect : SDL_Rect) (c : RGBAColor) : Renderer :=
  let rect := Surface.applyClipRect st rect
  if rect.w = 0 ∨ rect.h = 0 then st
  else
    let st := SDL_SetRenderDrawBlendMode st BlendMode.SDL_BLENDMODE_BLEND
    let st := SDL_SetRenderDrawColor st c.r c.g c.b c.a
    SDL_RenderFillRect st rect

/-- The function `Surface::box(SDL_Rect re, RGBAColor c)`. -/
def Surface.box (st : Renderer) (re : SDL_Rect) (c : RGBAColor) : Renderer :=
  if c.a = 255 then
    SDL_RenderFillRect (SDL_SetRenderDrawColor st c.r c.g c.b c.a) re
  else if c.a ≠ 0 then
    Surface.fillRectAlpha st re c
  else st

/-- The function `Surface::rectangle(SDL_Rect re, RGBAColor c)`, over the
function `box` it calls and the state `σ` that `box` acts on. -/
def Surface.rectangleWith {σ : Type} (box : σ → SDL_Rect → RGBAColor → σ)
    (st : σ) (re : SDL_Rect) (c : RGBAColor) : σ :=
  -- Top.
  let st := if re.h ≥ 1 then box st ⟨re.x, re.y, re.w, 1⟩ c else st
  if re.h ≥ 2 then
    let ey := toSint16 (wrapInt (wrapInt (re.y + re.h) - 1))
    -- Bottom.
    let st := box st ⟨re.x, ey, re.w, 1⟩ c
    let ex := toSint16 (wrapInt (wrapInt (re.x + re.w) - 1))
    let sy := toSint16 (wrapInt (re.y + 1))
    let sh := toUint16 (wrapInt (re.h - 2))
    -- Left.
    let st := if re.w ≥ 1 then box st ⟨re.x, sy, 1, sh⟩ c else st
    -- Right.
    if re.w ≥ 2 then box st ⟨ex, sy, 1, sh⟩ c else st
  else st

/-- The function `Surface::rectangle` acting on the renderer through
`Surface::box`. -/
def Surface.rectangle (st : Renderer) (re : SDL_Rect) (c : RGBAColor) : Renderer :=
  Surface.rectangleWith Surface.box st re c

/-- The calls of `box` that `Surface::rectangle` makes, in order: `box` is taken
to be the function that records its arguments. -/
def Surface.rectangleCalls (re : SDL_Rect) (c : RGBAColor) : List (SDL_Rect × RGBAColor) :=
  Surface.rectangleWith (fun calls r col => calls ++ [(r, col)]) [] re c

/-- The rectangles of the calls of `box` that `Surface::rectangle` makes. -/
def Surface.rectangleStrips (re : SDL_Rect) : List SDL_Rect :=
  (Surface.rectangleCalls re ⟨0, 0, 0, 255⟩).map Prod.fst

/-- One axis of `Surface::applyClipRect`: the start and the extent of the
candidate `(rx, rw)` after clipping against the clip `(cx, cw)`. -/
def clipAxis (rx rw cx cw : Int) : Int × Int :=
  let rw1 := if rx < cx then max (wrapInt (wrapInt (rx + rw) - cx)) 0 else rw
  let rx1 := if rx < cx then cx else rx
  let rw2 :=
    if wrapInt (rx1 + rw1) > wrapInt (cx + cw) then max (wrapInt (wrapInt (cx + cw) - rx1)) 0
    else rw1
  (rx1, rw2)

/-- The fills that the specification lists for the outline of the rectangle
`(x, y, w, h)`, in its order: the top row iff `h >= 1`, the bottom row iff
`h >= 2`, the left column iff `h >= 2` and `w >= 1`, the right column iff
`h >= 2` and `w >= 2`. -/
def specOutlineFills (re : SDL_Rect) : List SDL_Rect :=
  (if re.h ≥ 1 then [(⟨re.x, re.y, re.w, 1⟩ : SDL_Rect)] else []) ++
  (if re.h ≥ 2 then [(⟨re.x, re.y + re.h - 1, re.w, 1⟩ : SDL_Rect)] else []) ++
  (if re.h ≥ 2 ∧ re.w ≥ 1 then [(⟨re.x, re.y + 1, 1, re.h - 2⟩ : SDL_Rect)] else []) ++
  (if re.h ≥ 2 ∧ re.w ≥ 2 then [(⟨re.x + re.w - 1, re.y + 1, 1, re.h - 2⟩ : SDL_Rect)] else [])

/-- No pixel belongs to both rectangles. -/
def SDL_Rect.disjoint (a b : SDL_Rect) : Prop :=
  ∀ px py, ¬ (a.covers px py ∧ b.covers px py)

/-! ## Layers and the main loop -/

/-- Modelled from the spec: the enum `Layer::Status` of `layer.h`, which is not
among the sources; "status ∈ {ACTIVE, DISMISSED}". -/
inductive Status where
  | ACTIVE
  | DISMISSED
  deriving DecidableEq, Repr

/-- Modelled from the spec: the enum `InputManager::Button` of `inputmanager.h`,
which is not among the sources. The main loop tells `QUIT`, the "process-quit
signal", from every other button. -/
inductive Button where
  | QUIT
  | other (code : Nat)
  deriving DecidableEq, Repr

/-- Modelled from the spec: the class `Layer` of `layer.h`, which is not among
the sources, by what the main loop observes of a layer in one frame: the
answers of `getStatus()`, `runAnimations()` and `handleButtonPress(button)`.
The name tells the layers apart. -/
structure Layer where
  name : Nat
  getStatus : Status
  runAnimations : Bool
  handleButtonPress : Button → Bool

/-- The loop of `GMenu2X::mainLoop` that removes the dismissed layers: `it` is
the iterator, as an index into the vector; `erase` removes the element at the
iterator and leaves the iterator on the next one. The result is `none` when the
fuel runs out before the iterator reaches the end. -/
def pruneLoop : Nat → List Layer → Nat → Option (List Layer)
  | 0, _, _ => none
  | fuel + 1, layers, it =>
    match layers.get? it with
    | none => some layers
    | some l =>
      if l.getStatus = Status.DISMISSED then pruneLoop fuel (layers.eraseIdx it) it
      else pruneLoop fuel layers (it + 1)

/-- The prune step of a frame: the loop from `layers.begin()`, with fuel for one
iteration per layer and the final test. -/
def prune (layers : List Layer) : Option (List Layer) :=
  pruneLoop (layers.length + 1) layers 0

/-- The loop of `GMenu2X::mainLoop` over the layers from `rbegin()` to `rend()`:
the layers whose `handleButtonPress` is called, in the order of the calls. The
argument is the sequence the reverse iterator runs through. -/
def dispatchLoop (button : Button) : List Layer → List Layer
  | [] => []
  | l :: rest =>
    if l.handleButtonPress button then [l]
    else l :: dispatchLoop button rest

/-- The handling of a received event in `GMenu2X::mainLoop`: whether the main
loop is left (`break` on `QUIT`), and the layers whose `handleButtonPress` is
called, in the order of the calls. -/
def dispatch (layers : List Layer) (button : Button) : Bool × List Layer :=
  if button = Button.QUIT then (true, [])
  else (false, dispatchLoop button layers.reverse)


/-- The loop `for (auto layer : layers) animating |= layer->runAnimations();`
from `animating = false`: the flag, and the layers whose `runAnimations` is
called, in the order of the calls. -/
def runAnimationsLoop : List Layer → Bool → List Layer → Bool × List Layer
  | [], animating, called => (animating, called)
  | l :: rest, animating, called =>
    runAnimationsLoop rest (animating || l.runAnimations) (called ++ [l])

/-- The loop `do { gotEvent = input.getButton(&button, wait); } while (wait &&
!gotEvent);` over the answers of the successive calls of `getButton` (`none`
for `false`): the event received, if any, and the number of calls made. The
result is `none` when the answers run out before the loop ends. -/
def awaitInput (wait : Bool) : List (Option Button) → Option (Option Button × Nat)
  | [] => none
  | some button :: _ => some (some button, 1)
  | none :: rest =>
    if wait then
      match awaitInput wait rest with
      | some r => some (r.1, r.2 + 1)
      | none => none
    else some (none, 1)

/-- What one iteration of the loop of `GMenu2X::mainLoop` did. -/
structure Frame where
  /-- The layers left by the prune step. -/
  layers : List Layer
  /-- The layers whose `runAnimations` was called, in order. -/
  animated : List Layer
  animating : Bool
  /-- The layers whose `paint` was called, in order. -/
  painted : List Layer
  /-- The calls of `input.getButton`, and whether they were made with `wait`. -/
  getButtonCalls : Nat
  wait : Bool
  event : Option Button
  /-- The layers whose `handleButtonPress` was called, in order. -/
  handled : List Layer
  /-- The iteration ended in a `break`. -/
  leaves : Bool

/-- One iteration of the loop of `GMenu2X::mainLoop`, given the value of
`toLaunch` after painting and the answers of the calls of `getButton`. -/
def mainLoopFrame (layers : List Layer) (toLaunch : Bool)
    (answers : List (Option Button)) : Option Frame :=
  -- Remove dismissed layers from the stack.
  match prune layers with
  | none => none
  | some layers =>
    -- Run animations.
    let anim := runAnimationsLoop layers false []
    -- Paint layers.
    let painted := layers
    -- Exit main loop once we have something to launch.
    if toLaunch then
      some ⟨layers, anim.2, anim.1, painted, 0, !anim.1, none, [], true⟩
    else
      -- Handle other input events.
      let wait := !anim.1
      match awaitInput wait answers with
      | none => none
      | some (none, calls) =>
        some ⟨layers, anim.2, anim.1, painted, calls, wait, none, [], false⟩
      | some (some button, calls) =>
        some ⟨layers, anim.2, anim.1, painted, calls, wait, some button,
          (dispatch layers button).2, (dispatch layers button).1⟩

/-- The loop of `GMenu2X::mainLoop` over the inputs of successive iterations:
the iterations made, up to and including the one that ends in a `break`. -/
def mainLoop : List Layer → List (Bool × List (Option Button)) → Option (List Frame)
  | _, [] => some []
  | layers, inp :: rest =>
    match mainLoopFrame layers inp.1 inp.2 with
    | none => none
    | some f =>
      if f.leaves then some [f]
      else
        match mainLoop f.layers rest with
        | none => none
        | some fs => some (f :: fs)

/-! ## Render targets, the output surface and off-screen surfaces -/

/-- Conversion of an `int` to `unsigned int`. -/
def toUint32 (n : Int) : Int := n % 4294967296

/-- The call `SDL_GetRenderTarget`: the identity of the texture that is the
current target, `none` for the window. -/
def SDL_GetRenderTarget (st : Renderer) : Option Nat := st.target

/-- The call `SDL_SetRenderTarget`; `none` is the null pointer, which binds the
window. -/
def SDL_SetRenderTarget (st : Renderer) (texture : Option Nat) : Renderer :=
  { st with target := texture }

/-- The call `SDL_RenderClear`. -/
def SDL_RenderClear (st : Renderer) : Renderer :=
  { st with commands := st.commands ++ [DrawCmd.clear st.target st.drawColor] }

/-- The call `SDL_RenderPresent`. -/
def SDL_RenderPresent (st : Renderer) : Renderer :=
  { st with commands := st.commands ++ [DrawCmd.present] }

/-- The call `SDL_CreateTexture` for a size: SDL refuses a width or height that
is not positive, and otherwise `created` is what it returns (`none` for a
failure). -/
def SDL_CreateTexture (created : Option Texture) (w h : Int) : Option Texture :=
  if w ≤ 0 ∨ h ≤ 0 then none else created

/-- What SDL answers to the calls of `OutputSurface::open`: whether the window
is created, the renderer of each of the two `SDL_CreateRenderer` calls if it is
created, and the back-buffer texture. -/
structure OpenEnv where
  window : Bool
  accelerated : Option Renderer
  software : Option Renderer
  texture : Option Texture

/-- The function `OutputSurface::open`: the surface and its renderer, or `none`
for `nullptr`. -/
def OutputSurface.open (env : OpenEnv) (width height : Int) : Option (Surface × Renderer) :=
  if ¬ env.window then none
  else
    let renderer :=
      match env.accelerated with
      | some r => some r
      | none => env.software
    match renderer with
    | none => none
    | some st =>
      match SDL_CreateTexture env.texture width height with
      | none => none
      | some texture =>
        let st := SDL_SetRenderTarget st (some texture.id)
        some (⟨some texture, width, height⟩, st)

/-- The function `OutputSurface::flip`. -/
def OutputSurface.flip (self : Surface) (st : Renderer) : Renderer :=
  let st := SDL_SetRenderTarget st none
  let st := SDL_RenderClear st
  let st := SDL_RenderCopy st self.texture none none
  let st := SDL_RenderPresent st
  SDL_SetRenderTarget st (self.texture.map Texture.id)

/-- The function `OffscreenSurface::emptySurface`; `created` is what the call of
`SDL_CreateTexture` returns. The result is the surface, or `none` for the empty
pointer, and the renderer after the call. -/
def OffscreenSurface.emptySurface (created : Option Texture) (st : Renderer)
    (width height : Int) : Option Surface × Renderer :=
  match SDL_CreateTexture created width height with
  | none => (none, st)
  | some texture =>
    let currentTexture := SDL_GetRenderTarget st
    let st := SDL_SetRenderTarget st (some texture.id)
    let st := SDL_SetRenderDrawColor st 0 0 0 255
    let st := SDL_RenderClear st
    let st := SDL_SetRenderTarget st currentTexture
    (some ⟨some texture, width, height⟩, st)

/-- What the collaborators answer to the calls of `OffscreenSurface::loadImage`:
the size of the surface that `loadPNG` decodes, the texture that
`SDL_CreateTextureFromSurface` uploads, and the texture that `SDL_CreateTexture`
returns for the stretched copy; each `none` for a failure. -/
structure ImageEnv where
  raw : Option (Int × Int)
  texture : Option Texture
  stretched : Option Texture

/-- The function `OffscreenSurface::loadImage`; `width` and `height` are
`unsigned int`. The result is the surface, or `none` for the empty pointer, and
the renderer after the call. -/
def OffscreenSurface.loadImage (env : ImageEnv) (st : Renderer) (width height : Nat) :
    Option Surface × Renderer :=
  match env.raw with
  | none => (none, st)
  | some (texW, texH) =>
    match env.texture with
    | none => (none, st)
    | some texture =>
      if (width ≠ 0 ∧ toUint32 texW ≠ width) ∨ (height ≠ 0 ∧ toUint32 texH ≠ height) then
        let sw := wrapInt (if width ≠ 0 then (width : Int) else toUint32 texW)
        let sh := wrapInt (if height ≠ 0 then (height : Int) else toUint32 texH)
        match SDL_CreateTexture env.stretched sw sh with
        | some stretched =>
          let currentTexture := SDL_GetRenderTarget st
          let st := SDL_SetRenderTarget st (some stretched.id)
          let st := SDL_RenderCopy st (some texture) none none
          let st := SDL_SetRenderTarget st currentTexture
          (some ⟨some stretched, sw, sh⟩, st)
        | none => (some ⟨some texture, texW, texH⟩, st)
      else (some ⟨some texture, texW, texH⟩, st)

/-- The struct `SDL_DisplayMode`, of which the width and height are read. -/
structure SDL_DisplayMode where
  w : Int
  h : Int
  deriving DecidableEq, Repr

/-- The function `OutputSurface::resolutionSupported`; `closest` is the mode that
`SDL_GetClosestDisplayMode` finds, `none` for the null pointer. -/
def OutputSurface.resolutionSupported (closest : Option SDL_DisplayMode)
    (width height : Int) : Bool :=
  match closest with
  | none => false
  | some mode =>
    if mode.w < width ∨ mode.h < height then false
    else if mode.w > width ∧ mode.h > height then false
    else true

/-- The function `Surface::blitCenter`. -/
def Surface.blitCenter (self : Surface) (st : Renderer) (destination : Option Texture)
    (x y w h a : Int) : Surface × Renderer :=
  let ow := Int.tdiv self.w 2
  let ow := if w ≠ 0 then min ow (Int.tdiv w 2) else ow
  let oh := Int.tdiv self.h 2
  let oh := if h ≠ 0 then min oh (Int.tdiv h 2) else oh
  Surface.blit self st destination (wrapInt (x - ow)) (wrapInt (y - oh)) w h a

/-- The function `Surface::blitRight`. -/
def Surface.blitRight (self : Surface) (st : Renderer) (destination : Option Texture)
    (x y w h a : Int) : Surface × Renderer :=
  let w := if w = 0 then self.w else w
  Surface.blit self st destination (wrapInt (x - min self.w w)) y w h a

/-! ## Font -/

/-- The enum `Font::HAlign`. -/
inductive HAlign where
  | HAlignLeft
  | HAlignCenter
  | HAlignRight
  deriving DecidableEq, Repr

/-- The enum `Font::VAlign`. -/
inductive VAlign where
  | VAlignTop
  | VAlignMiddle
  | VAlignBottom
  deriving DecidableEq, Repr

/-- The class `Font`, of which `writeLine` reads the line spacing. -/
structure Font where
  lineSpacing : Int
  deriving DecidableEq, Repr

/-- What the libraries answer to the calls of one `Font::writeLine`: the size
`(w, h)` of the surface of the first and of the second
`TTF_RenderUNICODE_Blended`, and the texture of the first and of the second
`SDL_CreateTextureFromSurface`; each `none` for a failure. -/
structure TextEnv where
  black : Option (Int × Int)
  blackTexture : Option Texture
  white : Option (Int × Int)
  whiteTexture : Option Texture
  deriving DecidableEq, Repr

/-- The outcome of `Font::writeLine`: the value returned, the renderer after the
call, and the colours of the calls of `TTF_RenderUNICODE_Blended` made. -/
structure TextResult where
  ret : Int
  st : Renderer
  rendered : List RGBAColor
  deriving DecidableEq, Repr

/-- The function `Font::writeLine`; the text is the sequence of its 16-bit
units before the terminating zero. The height of the rectangle is the height of
the first rasterization, which the function reads after the surface is freed. -/
def Font.writeLine (font : Font) (env : TextEnv) (surface : Surface) (st : Renderer)
    (text : List Nat) (x y : Int) (halign : HAlign) (valign : VAlign) : TextResult :=
  if text = [] then
    -- SDL_ttf will return a nullptr when rendering the empty string.
    ⟨0, st, []⟩
  else
    let y :=
      match valign with
      | VAlign.VAlignTop => y
      | VAlign.VAlignMiddle => wrapInt (y - Int.tdiv font.lineSpacing 2)
      | VAlign.VAlignBottom => wrapInt (y - font.lineSpacing)
    let color : RGBAColor := ⟨0, 0, 0, 0⟩
    match env.black with
    | none => ⟨0, st, [color]⟩
    | some (sw, sh) =>
      let width := sw
      match env.blackTexture with
      | none => ⟨width, st, [color]⟩
      | some texture =>
        let x :=
          match halign with
          | HAlign.HAlignLeft => x
          | HAlign.HAlignCenter => wrapInt (x - Int.tdiv width 2)
          | HAlign.HAlignRight => wrapInt (x - width)
        let rect : SDL_Rect :=
          ⟨toSint16 x, toSint16 (wrapInt (y - 1)), toUint16 width, toUint16 sh⟩
        let currentTexture := SDL_GetRenderTarget st
        let st := SDL_SetRenderTarget st (surface.texture.map Texture.id)
        let st := SDL_RenderCopy st (some texture) none (some rect)
        let rect := { rect with x := x, y := wrapInt (y + 1) }
        let st := SDL_RenderCopy st (some texture) none (some rect)
        let rect := { rect with x := wrapInt (x - 1), y := y }
        let st := SDL_RenderCopy st (some texture) none (some rect)
        let rect := { rect with x := wrapInt (x + 1), y := y }
        let st := SDL_RenderCopy st (some texture) none (some rect)
        let rect := { rect with x := x, y := y }
        let white : RGBAColor := ⟨255, 255, 255, 0⟩
        match env.white with
        | none =>
          let st := SDL_SetRenderTarget st currentTexture
          ⟨width, st, [color, white]⟩
        | some _ =>
          match env.whiteTexture with
          | none =>
            let st := SDL_SetRenderTarget st currentTexture
            ⟨width, st, [color, white]⟩
          | some texture =>
            let st := SDL_RenderCopy st (some texture) none (some rect)
            let st := SDL_SetRenderTarget st currentTexture
            ⟨width, st, [color, white]⟩

/-- The `y` that `Font::writeLine` draws at, after its `switch (valign)`. -/
def Font.lineY (font : Font) (y : Int) (valign : VAlign) : Int :=
  match valign with
  | VAlign.VAlignTop => y
  | VAlign.VAlignMiddle => wrapInt (y - Int.tdiv font.lineSpacing 2)
  | VAlign.VAlignBottom => wrapInt (y - font.lineSpacing)

/-- The `x` that `Font::writeLine` draws at, after its `switch (halign)`, for
the measured width. -/
def Font.lineX (width x : Int) (halign : HAlign) : Int :=
  match halign with
  | HAlign.HAlignLeft => x
  | HAlign.HAlignCenter => wrapInt (x - Int.tdiv width 2)
  | HAlign.HAlignRight => wrapInt (x - width)

/-- The four copies of the black texture that `Font::writeLine` issues for the
aligned position `(x, y)` and the size `(w, h)` of the rasterization. -/
def Font.blackCopies (target : Option Nat) (t : Texture) (x y w h : Int) : List DrawCmd :=
  [DrawCmd.copy target t none
     (some ⟨toSint16 x, toSint16 (wrapInt (y - 1)), toUint16 w, toUint16 h⟩),
   DrawCmd.copy target t none (some ⟨x, wrapInt (y + 1), toUint16 w, toUint16 h⟩),
   DrawCmd.copy target t none (some ⟨wrapInt (x - 1), y, toUint16 w, toUint16 h⟩),
   DrawCmd.copy target t none (some ⟨wrapInt (x + 1), y, toUint16 w, toUint16 h⟩)]

/-- The copy of the white texture that `Font::writeLine` issues last. -/
def Font.whiteCopy (target : Option Nat) (t : Texture) (x y w h : Int) : DrawCmd :=
  DrawCmd.copy target t none (some ⟨x, y, toUint16 w, toUint16 h⟩)

/-! ## Battery -/

/-- What `Battery::getBatteryLevel` finds in the sysfs files, `none` for a file
that cannot be opened: the string read from `status`, the numbers scanned from
`online` and `capacity` (0 when the scan fails), and the numbers scanned from
the three voltage files (`none` also when the scan fails, which leaves the
variable as it was). -/
structure BatterySysfs where
  status : Option (List Char)
  online : Option Int
  capacity : Option Int
  voltage_max_design : Option Nat
  voltage_min_design : Option Nat
  voltage_now : Option Nat
  deriving DecidableEq, Repr

/-- The fault of an integer division by zero. -/
inductive Fault where
  | divisionByZero
  deriving DecidableEq, Repr

/-- The function `Battery::getBatteryLevel`, for an `unsigned long` of
`ulongBits` bits; the value returned is an `unsigned short`. -/
def Battery.getBatteryLevel (ulongBits : Nat) (fs : BatterySysfs) : Except Fault Nat :=
  if fs.status = some "Charging".toList then .ok 6
  else if fs.online = some 1 then .ok 6
  else
    match fs.capacity with
    | some battval =>
      if battval > 90 then .ok 5
      else if battval > 70 then .ok 4
      else if battval > 50 then .ok 3
      else if battval > 30 then .ok 2
      else if battval > 10 then .ok 1
      else .ok 0
    | none =>
      let m := 2 ^ ulongBits
      let voltage_max := (fs.voltage_max_design.getD 1) % m
      let voltage_min := (fs.voltage_min_design.getD 0) % m
      let voltage_now := (fs.voltage_now.getD 1) % m
      if voltage_now < voltage_min then .ok 0
      else if (voltage_max + m - voltage_min) % m = 0 then .error Fault.divisionByZero
      else
        .ok ((((voltage_now - voltage_min) * 6) % m / ((voltage_max + m - voltage_min) % m))
          % 65536)

/-- The function `Battery::update`: the path of the icon for the level. -/
def Battery.update (battlevel : Nat) : List Char :=
  if battlevel > 5 then "imgs/battery/ac.png".toList
  else "imgs/battery/".toList ++ Nat.toDigits 10 battlevel ++ ".png".toList

/-! ## Start-up, skin colours and the scroll bar (`gmenu2x.cpp`) -/

/-- The table `supported_resolutions`. -/
def supported_resolutions : List (Nat × Nat) :=
  [(1280, 720), (800, 480), (640, 480), (480, 272), (320, 240), (240, 160)]

/-- What the loop over the resolutions in the constructor of `GMenu2X` did: the
output surface `s` (with its renderer) if one was opened, the entries for which
`resolutionSupported` was called and the entries for which `open` was called,
each in order. -/
structure Selection where
  s : Option (Surface × Renderer)
  queried : List (Nat × Nat)
  opened : List (Nat × Nat)
  deriving DecidableEq, Repr

/-- The loop `for (const auto res : supported_resolutions) { if
(resolutionSupported(res.first, res.second) && (s = open(...))) break; }` over
a list of resolutions; `closest` is what `SDL_GetClosestDisplayMode` finds for
a request and `env` what SDL answers to the calls of `open` for a size. -/
def selectResolution (closest : Int → Int → Option SDL_DisplayMode)
    (env : Int → Int → OpenEnv) : List (Nat × Nat) → Selection
  | [] => ⟨none, [], []⟩
  | res :: rest =>
    if OutputSurface.resolutionSupported (closest res.1 res.2) res.1 res.2 then
      match OutputSurface.open (env res.1 res.2) res.1 res.2 with
      | some s => ⟨some s, [res], [res]⟩
      | none =>
        ⟨(selectResolution closest env rest).s,
          res :: (selectResolution closest env rest).queried,
          res :: (selectResolution closest env rest).opened⟩
    else
      ⟨(selectResolution closest env rest).s,
        res :: (selectResolution closest env rest).queried,
        (selectResolution closest env rest).opened⟩

/-- The number `NUM_COLORS` of skin colours. -/
def NUM_COLORS : Nat := 6

/-- The table `colorNames`. -/
def colorNames : List (List Char) :=
  ["topBarBg".toList, "bottomBarBg".toList, "selectionBg".toList, "messageBoxBg".toList,
   "messageBoxBorder".toList, "messageBoxSelection".toList]

/-- The loop of `stringToColor` from index `i` over the names that remain. -/
def stringToColorFrom (name : List Char) : List (List Char) → Nat → Int
  | [], _ => -1
  | n :: rest, i => if n = name then (i : Int) else stringToColorFrom name rest (i + 1)

/-- The function `stringToColor`: the index of the name in `colorNames`, or the
value `(enum color)-1`. -/
def stringToColor (name : List Char) : Int :=
  stringToColorFrom name (colorNames.take NUM_COLORS) 0

/-- The function `colorToString`: `colorNames[c]`, for an index of the table. -/
def colorToString (c : Nat) : Option (List Char) := colorNames.get? c

/-- What a line of the skin configuration makes `readSkinConfig` store: a string
under the name, a colour at an index of `skinConfColors`, the number that `atoi`
reads from the value under the name, or nothing for an empty value. -/
inductive SkinEntry where
  | str (name value : List Char)
  | color (index : Int) (c : RGBAColor)
  | int (name value : List Char)
  | nothing
  deriving DecidableEq, Repr

/-- The body of the loop of `GMenu2X::readSkinConfig` for one line, from the
trimmed name and value of the line. -/
def readSkinConfigLine (name value : List Char) : Except Exn SkinEntry :=
  if value.length > 0 then
    if value.length > 1 ∧ value.head? = some '"' ∧ value.getLast? = some '"' then
      match substr value 1 (value.length - 2) with
      | .ok v => .ok (SkinEntry.str name v)
      | .error e => .error e
    else if value.head? = some '#' then
      match substr value 1 value.length with
      | .error e => .error e
      | .ok hex =>
        match RGBAColor.fromString hex with
        | .ok c => .ok (SkinEntry.color (stringToColor name) c)
        | .error e => .error e
    else .ok (SkinEntry.int name value)
  else .ok SkinEntry.nothing

/-- The assignment `skinConfColors[index] = c` on the array of `NUM_COLORS`
colours: `none` when the index is outside the array, where the write is
undefined behaviour. -/
def storeColor (skinConfColors : List RGBAColor) (index : Int) (c : RGBAColor) :
    Option (List RGBAColor) :=
  if 0 ≤ index ∧ index < skinConfColors.length then
    some (skinConfColors.set index.toNat c)
  else none

/-- Reduction of an unsigned value to `uint32_t`. -/
def u32 (n : Nat) : Nat := n % 4294967296

/-- What `GMenu2X::drawScrollBar` draws: the rectangle passed to `rectangle`, the
locals `height` (after both adjustments), `barSize` and `barPos`, and the
rectangle passed to `box`. -/
structure ScrollBar where
  outline : SDL_Rect
  height : Nat
  barSize : Nat
  barPos : Nat
  bar : SDL_Rect
  deriving DecidableEq, Repr

/-- The function `GMenu2X::drawScrollBar`; `width` is `width()` and
`(contentTop, contentHeight)` is what `getContentArea()` returns, both
`unsigned int`. The result is `none` when nothing is drawn. The rectangles are
those that reach `Surface::rectangle` and `Surface::box` through the overloads
with `Sint16` and `Uint16` parameters. -/
def drawScrollBar (width : Int) (contentTop contentHeight : Nat)
    (pageSize totalSize pagePos : Nat) : Except Fault (Option ScrollBar) :=
  if totalSize ≤ pageSize then
    -- Everything fits on one screen, no scroll bar needed.
    .ok none
  else
    let top := u32 (contentTop + 1)
    let height := u32 (contentHeight + 4294967296 - 2)
    let outline : SDL_Rect :=
      ⟨toSint16 (width - 8), toSint16 top, toUint16 7, toUint16 height⟩
    let top := u32 (top + 2)
    let height := u32 (height + 4294967296 - 4)
    let barSize := max (u32 (height * pageSize) / totalSize) 4
    if u32 (totalSize + 4294967296 - pageSize) = 0 then .error Fault.divisionByZero
    else
      let barPos :=
        u32 (u32 (height + 4294967296 - barSize) * pagePos) /
          u32 (totalSize + 4294967296 - pageSize)
      .ok (some ⟨outline, height, barSize, barPos,
        ⟨toSint16 (width - 6), toSint16 (u32 (top + barPos)), toUint16 3, toUint16 barSize⟩⟩)

/-! ## Alignment inside a container, and the border of a rectangle -/

/-- The function `Surface::blit(Surface& destination, SDL_Rect container,
Font::HAlign halign, Font::VAlign valign)`; the destination is passed as its
texture, which is what the call of `blit` at the end hands on. -/
def Surface.blitAligned (self : Surface) (st : Renderer) (destination : Option Texture)
    (container : SDL_Rect) (halign : HAlign) (valign : VAlign) : Surface × Renderer :=
  let container : SDL_Rect :=
    match halign with
    | HAlign.HAlignLeft => container
    | HAlign.HAlignCenter =>
      { container with
        x := wrapInt (container.x +
          wrapInt (Int.tdiv container.w 2 - Int.tdiv self.w 2)) }
    | HAlign.HAlignRight =>
      { container with x := wrapInt (container.x + wrapInt (container.w - self.w)) }
  let container : SDL_Rect :=
    match valign with
    | VAlign.VAlignTop => container
    | VAlign.VAlignMiddle =>
      { container with
        y := wrapInt (container.y +
          wrapInt (Int.tdiv container.h 2 - Int.tdiv self.h 2)) }
    | VAlign.VAlignBottom =>
      { container with y := wrapInt (container.y + wrapInt (container.h - self.h)) }
  Surface.blit self st destination container.x container.y 0 0 (-1)

/-- The function `Surface::clearClipRect`. -/
def Surface.clearClipRect (st : Renderer) : Renderer :=
  SDL_RenderSetClipRect st none

/-- The pixel `(px, py)` is on the border of the rectangle: it is a pixel of the
rectangle in its first row, last row, first column or last column. -/
def SDL_Rect.onBorder (re : SDL_Rect) (px py : Int) : Prop :=
  re.covers px py ∧
    (py = re.y ∨ py = re.y + re.h - 1 ∨ px = re.x ∨ px = re.x + re.w - 1)

instance (re : SDL_Rect) (px py : Int) : Decidable (re.onBorder px py) := by
  unfold SDL_Rect.onBorder; infer_instance

/-! ## Positions named by the specification -/

/-- The left edge of a source of width `W` aligned in a container: the left edge
of the container for Left, its right edge less `W` for Right, and the offset
`w/2 - W/2` from its left edge for Center. -/
def specAlignX (container : SDL_Rect) (W : Int) (halign : HAlign) : Int :=
  match halign with
  | HAlign.HAlignLeft => container.x
  | HAlign.HAlignCenter => container.x + (container.w / 2 - W / 2)
  | HAlign.HAlignRight => container.x + container.w - W

/-- The top edge of a source of height `H` aligned in a container. -/
def specAlignY (container : SDL_Rect) (H : Int) (valign : VAlign) : Int :=
  match valign with
  | VAlign.VAlignTop => container.y
  | VAlign.VAlignMiddle => container.y + (container.h / 2 - H / 2)
  | VAlign.VAlignBottom => container.y + container.h - H


/-- The `y` at which the specification has `writeLine` draw: `y` for Top,
`y - lineSpacing/2` for Middle, `y - lineSpacing` for Bottom (the division is
that of C++, which truncates). -/
def specLineY (lineSpacing y : Int) (valign : VAlign) : Int :=
  match valign with
  | VAlign.VAlignTop => y
  | VAlign.VAlignMiddle => y - Int.tdiv lineSpacing 2
  | VAlign.VAlignBottom => y - lineSpacing

/-- The `x` at which the specification has `writeLine` draw: `x` for Left,
`x - W/2` for Center, `x - W` for Right. -/
def specLineX (W x : Int) (halign : HAlign) : Int :=
  match halign with
  | HAlign.HAlignLeft => x
  | HAlign.HAlignCenter => x - Int.tdiv W 2
  | HAlign.HAlignRight => x - W

/-! # Properties -/

set_option maxRecDepth 100000 in
/-- One channel: the two characters written for a byte have length 2 and are
read back by `stoi` as that byte. -/
theorem byte_roundtrip : ∀ n, n < 256 →
    (putPadded 2 '0' (hexDigits n)).length = 2 ∧
    stoi (putPadded 2 '0' (hexDigits n)) 16 = .ok (n : Int) := by
  decide

/-- The four groups of a string made of four 2-character pieces are the pieces. -/
theorem channel_groups (p q u v : List Char)
    (hp : p.length = 2) (hq : q.length = 2) (hu : u.length = 2) (hv : v.length = 2) :
    substr (p ++ q ++ u ++ v) 0 2 = .ok p ∧ substr (p ++ q ++ u ++ v) 2 2 = .ok q ∧
    substr (p ++ q ++ u ++ v) 4 2 = .ok u ∧ substr (p ++ q ++ u ++ v) 6 2 = .ok v := by
  obtain ⟨p1, p2, rfl⟩ := List.length_eq_two.mp hp
  obtain ⟨q1, q2, rfl⟩ := List.length_eq_two.mp hq
  obtain ⟨u1, u2, rfl⟩ := List.length_eq_two.mp hu
  obtain ⟨v1, v2, rfl⟩ := List.length_eq_two.mp hv
  exact ⟨rfl, rfl, rfl, rfl⟩

/-- A byte is not changed by the clamp into 0..255 and the conversion to
`uint8_t`. -/
theorem toUint8_clamp_byte (n : Nat) (h : n < 256) : toUint8 (clamp (n : Int) 0 255) = n := by
  unfold toUint8 clamp
  have h0 : ¬ ((n : Int) < 0) := by omega
  have h1 : ¬ ((255 : Int) < (n : Int)) := by omega
  simp only [h0, h1, if_false]
  omega

/-- C1: for every colour with r, g, b, a in 0..255, parsing with
`RGBAColor::fromString` the 8 characters that `operator<<` writes for it yields
the colour again. -/
theorem fromString_write_roundtrip (c : RGBAColor) (h : c.valid) :
    (RGBAColor.write c).length = 8 ∧ RGBAColor.fromString (RGBAColor.write c) = .ok c := by
  obtain ⟨hr, hg, hb, ha⟩ := h
  obtain ⟨lr, sr⟩ := byte_roundtrip c.r hr
  obtain ⟨lg, sg⟩ := byte_roundtrip c.g hg
  obtain ⟨lb, sb⟩ := byte_roundtrip c.b hb
  obtain ⟨la, sa⟩ := byte_roundtrip c.a ha
  obtain ⟨g0, g2, g4, g6⟩ := channel_groups _ _ _ _ lr lg lb la
  refine ⟨by simp [RGBAColor.write, lr, lg, lb, la], ?_⟩
  simp only [RGBAColor.fromString, RGBAColor.channel, RGBAColor.write, g0, g2, g4, g6,
    sr, sg, sb, sa, bind, Except.bind, pure, Except.pure,
    toUint8_clamp_byte _ hr, toUint8_clamp_byte _ hg, toUint8_clamp_byte _ hb,
    toUint8_clamp_byte _ ha]

/-- The round trip at the colour ff80000a. -/
theorem fromString_write_roundtrip_witness :
    (⟨255, 128, 0, 10⟩ : RGBAColor).valid ∧
    (RGBAColor.write ⟨255, 128, 0, 10⟩).length = 8 ∧
    RGBAColor.fromString (RGBAColor.write ⟨255, 128, 0, 10⟩) = .ok ⟨255, 128, 0, 10⟩ :=
  ⟨by decide, fromString_write_roundtrip ⟨255, 128, 0, 10⟩ (by decide)⟩

/-! ### Which strings `fromString` accepts -/

theorem skipSpace_length (s : List Char) : (skipSpace s).length ≤ s.length := by
  induction s with
  | nil => simp [skipSpace]
  | cons c cs ih =>
    unfold skipSpace
    split
    · simp only [List.length_cons]; omega
    · simp

theorem splitSign_length (s : List Char) : (splitSign s).2.length ≤ s.length := by
  unfold splitSign
  split <;> simp

theorem skipHexPrefix_length (base : Nat) (s : List Char) :
    (skipHexPrefix base s).length ≤ s.length := by
  unfold skipHexPrefix
  split
  · split <;> simp
  · simp

theorem skipHexPrefix_head (s : List Char) :
    headIsDigit 16 (skipHexPrefix 16 s) = headIsDigit 16 s := by
  unfold skipHexPrefix
  split
  · rename_i x d rest
    split
    · rename_i h
      have h0 : isDigitOf 16 '0' = true := by decide
      simp [headIsDigit, h.2.2, h0]
    · rfl
  · rfl

theorem readDigits_snd_ge (base : Nat) (cs : List Char) :
    ∀ acc cnt, cnt ≤ (readDigits base cs acc cnt).2 := by
  induction cs with
  | nil => intro acc cnt; simp [readDigits]
  | cons c cs ih =>
    intro acc cnt
    unfold readDigits
    split
    · rename_i d _
      split
      · have := ih (acc * base + d) (cnt + 1); omega
      · simp
    · simp

theorem readDigits_snd_eq_zero (base : Nat) (cs : List Char) (acc : Nat) :
    (readDigits base cs acc 0).2 = 0 ↔ headIsDigit base cs = false := by
  cases cs with
  | nil => simp [readDigits, headIsDigit]
  | cons c cs =>
    cases hd : digitVal c with
    | none => simp [readDigits, headIsDigit, isDigitOf, hd]
    | some d =>
      by_cases h : d < base
      · have := readDigits_snd_ge base cs (acc * base + d) (0 + 1)
        simp only [readDigits, headIsDigit, isDigitOf, hd, h, if_true, decide_True]
        constructor
        · intro h0; omega
        · intro h0; cases h0
      · simp [readDigits, headIsDigit, isDigitOf, hd, h]

theorem readDigits_fst_lt (cs : List Char) :
    ∀ acc cnt, (readDigits 16 cs acc cnt).1 < (acc + 1) * 16 ^ cs.length := by
  induction cs with
  | nil => intro acc cnt; simp [readDigits]
  | cons c cs ih =>
    intro acc cnt
    have hpos : 0 < 16 ^ cs.length := by positivity
    have hstep : (acc + 1) * 16 ^ (cs.length + 1) = (acc * 16 + 16) * 16 ^ cs.length := by ring
    have hsmall : acc < (acc * 16 + 16) * 16 ^ cs.length := by nlinarith
    unfold readDigits
    simp only [List.length_cons]
    rw [hstep]
    split
    · rename_i d hd
      split
      · rename_i h
        have h1 := ih (acc * 16 + d) (cnt + 1)
        have h2 : (acc * 16 + d + 1) * 16 ^ cs.length ≤ (acc * 16 + 16) * 16 ^ cs.length :=
          Nat.mul_le_mul_right _ (by omega)
        omega
      · exact hsmall
    · exact hsmall

theorem stoi_short (g : List Char) (h : g.length ≤ 2) :
    (startsNumber g = true → ∃ v, stoi g 16 = .ok v ∧ -255 ≤ v ∧ v ≤ 255) ∧
    (startsNumber g = false → stoi g 16 = .error Exn.invalid_argument) := by
  have hcnt := readDigits_snd_eq_zero 16
    (skipHexPrefix 16 (splitSign (skipSpace g)).2) 0
  rw [skipHexPrefix_head] at hcnt
  have hlen : (skipHexPrefix 16 (splitSign (skipSpace g)).2).length ≤ 2 :=
    le_trans (skipHexPrefix_length _ _)
      (le_trans (splitSign_length _) (le_trans (skipSpace_length _) h))
  have hval := readDigits_fst_lt (skipHexPrefix 16 (splitSign (skipSpace g)).2) 0 0
  have hpow : 16 ^ (skipHexPrefix 16 (splitSign (skipSpace g)).2).length ≤ 16 ^ 2 :=
    Nat.pow_le_pow_right (by decide) hlen
  constructor
  · intro hs
    have hne : ¬ (readDigits 16 (skipHexPrefix 16 (splitSign (skipSpace g)).2) 0 0).2 = 0 := by
      intro h0
      have := hcnt.mp h0
      unfold startsNumber at hs
      rw [hs] at this
      cases this
    simp only [stoi, hne, if_false]
    generalize (readDigits 16 (skipHexPrefix 16 (splitSign (skipSpace g)).2) 0 0).1 = v
      at hval
    have hv : v < 256 := by omega
    cases (splitSign (skipSpace g)).1
    · simp only [Bool.false_eq_true, if_false]
      rw [if_neg (by omega)]
      exact ⟨_, rfl, by omega, by omega⟩
    · simp only [if_true]
      rw [if_neg (by omega)]
      exact ⟨_, rfl, by omega, by omega⟩
  · intro hs
    have h0 := hcnt.mpr hs
    simp only [stoi, h0, if_true]

theorem groupAt_length (s : List Char) (pos : Nat) : (groupAt s pos).length ≤ 2 := by
  unfold groupAt
  simp only [List.length_take]
  omega

theorem toUint8_lt (v : Int) : toUint8 v < 256 := by
  unfold toUint8
  omega

theorem channel_cases (s : List Char) (pos : Nat) :
    (startsNumber (groupAt s pos) = true → ∃ n, RGBAColor.channel s pos = .ok n ∧ n < 256) ∧
    (startsNumber (groupAt s pos) = false → ∃ e, RGBAColor.channel s pos = .error e) := by
  obtain ⟨hok, herr⟩ := stoi_short (groupAt s pos) (groupAt_length s pos)
  by_cases hp : pos > s.length
  · have hnil : groupAt s pos = [] := by
      unfold groupAt
      rw [List.drop_of_length_le (by omega)]
      rfl
    constructor
    · intro hs
      rw [hnil] at hs
      cases hs
    · intro _
      exact ⟨Exn.out_of_range, by simp [RGBAColor.channel, substr, hp, bind, Except.bind]⟩
  · constructor
    · intro hs
      obtain ⟨v, hv, _, _⟩ := hok hs
      refine ⟨toUint8 (clamp v 0 255), ?_, toUint8_lt _⟩
      unfold groupAt at hv
      simp [RGBAColor.channel, substr, hp, bind, Except.bind, hv, pure, Except.pure]
    · intro hs
      have hv := herr hs
      unfold groupAt at hv
      exact ⟨Exn.invalid_argument,
        by simp [RGBAColor.channel, substr, hp, bind, Except.bind, hv]⟩

/-- C2, the code at the failing inputs: `fromString("ff80zz00")` throws
`std::invalid_argument` (from `std::stoi`, the third group has no hexadecimal
digit) and `fromString("ff80c")` throws `std::out_of_range` (from `substr`, the
fourth group starts past the end); the loop body of `readSkinConfig` passes
both exceptions on for the values `#ff80zz00` and `#ff80c`, although for a
value without `#` it stores the `atoi` number whatever the text is. So it is
not true that every string is given a colour. What the code is lenient about is
only the range of a parsed group: `-f` parses to -15 and is clamped to 0, and
`fromString("-f80ffff")` is the colour (0, 128, 255, 255). -/
theorem fromString_rejects :
    RGBAColor.fromString "ff80zz00".toList = .error Exn.invalid_argument ∧
    RGBAColor.fromString "ff80c".toList = .error Exn.out_of_range ∧
    readSkinConfigLine "selectionBg".toList "#ff80zz00".toList =
      .error Exn.invalid_argument ∧
    readSkinConfigLine "selectionBg".toList "#ff80c".toList = .error Exn.out_of_range ∧
    readSkinConfigLine "selectionBg".toList "ff80zz00".toList =
      .ok (SkinEntry.int "selectionBg".toList "ff80zz00".toList) ∧
    ¬ (∀ s : List Char, ∃ c, RGBAColor.fromString s = .ok c) ∧
    stoi "-f".toList 16 = .ok (-15) ∧
    RGBAColor.channel "-f80ffff".toList 0 = .ok 0 ∧
    RGBAColor.fromString "-f80ffff".toList = .ok ⟨0, 128, 255, 255⟩ := by
  refine ⟨by decide, by decide, by decide, by decide, by decide, ?_, by decide, by decide,
    by decide⟩
  intro h
  obtain ⟨c, hc⟩ := h "ff80zz00".toList
  have he : RGBAColor.fromString "ff80zz00".toList = .error Exn.invalid_argument := by decide
  rw [he] at hc
  cases hc

/-- The strings that `fromString` accepts: it returns a colour exactly for the
strings in which each of the four 2-character groups begins, after optional
white space and an optional sign, with a hexadecimal digit; every colour it
returns has its four channels in 0..255. For every other string it throws. -/
theorem fromString_accepts_iff (s : List Char) :
    ((∃ c, RGBAColor.fromString s = .ok c) ↔
      (startsNumber (groupAt s 0) = true ∧ startsNumber (groupAt s 2) = true ∧
       startsNumber (groupAt s 4) = true ∧ startsNumber (groupAt s 6) = true)) ∧
    ((¬ ∃ c, RGBAColor.fromString s = .ok c) → ∃ e, RGBAColor.fromString s = .error e) ∧
    (∀ c, RGBAColor.fromString s = .ok c → c.valid) := by
  obtain ⟨k0, e0⟩ := channel_cases s 0
  obtain ⟨k2, e2⟩ := channel_cases s 2
  obtain ⟨k4, e4⟩ := channel_cases s 4
  obtain ⟨k6, e6⟩ := channel_cases s 6
  cases h0 : startsNumber (groupAt s 0) with
  | false =>
    obtain ⟨e, he⟩ := e0 h0
    simp [RGBAColor.fromString, he, bind, Except.bind]
  | true =>
    obtain ⟨r, hr, hr256⟩ := k0 h0
    cases h2 : startsNumber (groupAt s 2) with
    | false =>
      obtain ⟨e, he⟩ := e2 h2
      simp [RGBAColor.fromString, hr, he, bind, Except.bind]
    | true =>
      obtain ⟨g, hg, hg256⟩ := k2 h2
      cases h4 : startsNumber (groupAt s 4) with
      | false =>
        obtain ⟨e, he⟩ := e4 h4
        simp [RGBAColor.fromString, hr, hg, he, bind, Except.bind]
      | true =>
        obtain ⟨b, hb, hb256⟩ := k4 h4
        cases h6 : startsNumber (groupAt s 6) with
        | false =>
          obtain ⟨e, he⟩ := e6 h6
          simp [RGBAColor.fromString, hr, hg, hb, he, bind, Except.bind]
        | true =>
          obtain ⟨a, ha, ha256⟩ := k6 h6
          simp only [RGBAColor.fromString, hr, hg, hb, ha, bind, Except.bind, pure,
            Except.pure]
          refine ⟨by simp, by simp, ?_⟩
          intro c hc
          cases hc
          exact ⟨hr256, hg256, hb256, ha256⟩

/-! ### Clipping -/

/-- The function `applyClipRect` clips the two axes independently. -/
theorem applyClipRect_axes (st : Renderer) (rect : SDL_Rect) :
    Surface.applyClipRect st rect =
      ⟨(clipAxis rect.x rect.w (SDL_RenderGetClipRect st).x (SDL_RenderGetClipRect st).w).1,
       (clipAxis rect.y rect.h (SDL_RenderGetClipRect st).y (SDL_RenderGetClipRect st).h).1,
       (clipAxis rect.x rect.w (SDL_RenderGetClipRect st).x (SDL_RenderGetClipRect st).w).2,
       (clipAxis rect.y rect.h (SDL_RenderGetClipRect st).y (SDL_RenderGetClipRect st).h).2⟩ := by
  simp only [Surface.applyClipRect, clipAxis]
  split_ifs <;> rfl

/-- One axis, whatever the values: the extent stays non-negative and the start
is not before either start. -/
theorem clipAxis_start (rx rw cx cw : Int) (hrw : 0 ≤ rw) :
    0 ≤ (clipAxis rx rw cx cw).2 ∧ rx ≤ (clipAxis rx rw cx cw).1 ∧
    cx ≤ (clipAxis rx rw cx cw).1 := by
  simp only [clipAxis]
  split_ifs <;> omega

/-- One axis, for coordinates that do not overflow: the extent does not grow,
the points of the result are points of both intervals, and the end is not
beyond either end when the result is non-empty or the intervals meet. -/
theorem clipAxis_end (rx rw cx cw : Int) (hrw : 0 ≤ rw) (hcw : 0 ≤ cw)
    (hrx : -1073741824 ≤ rx ∧ rx < 1073741824) (hcx : -1073741824 ≤ cx ∧ cx < 1073741824)
    (hrw2 : rw < 1073741824) (hcw2 : cw < 1073741824) :
    (clipAxis rx rw cx cw).2 ≤ rw ∧
    (clipAxis rx rw cx cw).1 = max rx cx ∧
    (0 < (clipAxis rx rw cx cw).2 ∨ (rx ≤ cx + cw ∧ cx ≤ rx + rw) →
      (clipAxis rx rw cx cw).1 + (clipAxis rx rw cx cw).2 = min (rx + rw) (cx + cw)) := by
  simp only [clipAxis, wrapInt]
  split_ifs <;> omega

/-- C3, counterexample: a candidate that lies entirely before the clip on both
axes is clipped to an empty rectangle at the corner of the clip, whose right and
bottom edges are beyond those of the candidate; so the result does not always
lie within the candidate. -/
theorem applyClipRect_beyond_candidate :
    Surface.applyClipRect
      ⟨⟨0, 0, 0, 0⟩, BlendMode.SDL_BLENDMODE_NONE, some ⟨20, 20, 5, 5⟩, none, []⟩
      ⟨0, 0, 10, 10⟩ = ⟨20, 20, 0, 0⟩ ∧
    ¬ (∀ (st : Renderer) (R C : SDL_Rect), st.clipRect = some C →
        0 ≤ R.w → 0 ≤ R.h → 0 ≤ C.w → 0 ≤ C.h →
        0 ≤ (Surface.applyClipRect st R).w ∧ 0 ≤ (Surface.applyClipRect st R).h ∧
        (Surface.applyClipRect st R).within R ∧ (Surface.applyClipRect st R).within C) := by
  refine ⟨by decide, ?_⟩
  intro h
  have h1 := h ⟨⟨0, 0, 0, 0⟩, BlendMode.SDL_BLENDMODE_NONE, some ⟨20, 20, 5, 5⟩, none, []⟩
    ⟨0, 0, 10, 10⟩ ⟨20, 20, 5, 5⟩ rfl (by decide) (by decide) (by decide) (by decide)
  revert h1
  decide

/-- What `applyClipRect` yields for rectangles of non-negative extents whose
coordinates do not overflow: the facts shared by the properties of clipping and
of blended fills. -/
theorem applyClipRect_clipped (st : Renderer) (R C : SDL_Rect)
    (hclip : st.clipRect = some C)
    (hR : 0 ≤ R.w ∧ 0 ≤ R.h) (hC : 0 ≤ C.w ∧ 0 ≤ C.h) (hRs : R.small) (hCs : C.small) :
    0 ≤ (Surface.applyClipRect st R).w ∧ 0 ≤ (Surface.applyClipRect st R).h ∧
    (Surface.applyClipRect st R).w ≤ R.w ∧ (Surface.applyClipRect st R).h ≤ R.h ∧
    (Surface.applyClipRect st R).x = max R.x C.x ∧
    (Surface.applyClipRect st R).y = max R.y C.y ∧
    (∀ px py, (Surface.applyClipRect st R).covers px py → R.covers px py ∧ C.covers px py) ∧
    (0 < (Surface.applyClipRect st R).w ∨ (R.x ≤ C.x + C.w ∧ C.x ≤ R.x + R.w) →
      (Surface.applyClipRect st R).x + (Surface.applyClipRect st R).w
        = min (R.x + R.w) (C.x + C.w)) ∧
    (0 < (Surface.applyClipRect st R).h ∨ (R.y ≤ C.y + C.h ∧ C.y ≤ R.y + R.h) →
      (Surface.applyClipRect st R).y + (Surface.applyClipRect st R).h
        = min (R.y + R.h) (C.y + C.h)) := by
  have hget : SDL_RenderGetClipRect st = C := by simp [SDL_RenderGetClipRect, hclip]
  obtain ⟨hRx1, hRx2, hRy1, hRy2, hRw, hRh⟩ := hRs
  obtain ⟨hCx1, hCx2, hCy1, hCy2, hCw, hCh⟩ := hCs
  obtain ⟨sx1, sx2, sx3⟩ := clipAxis_start R.x R.w C.x C.w hR.1
  obtain ⟨sy1, sy2, sy3⟩ := clipAxis_start R.y R.h C.y C.h hR.2
  obtain ⟨ex1, ex2, ex3⟩ :=
    clipAxis_end R.x R.w C.x C.w hR.1 hC.1 ⟨hRx1, hRx2⟩ ⟨hCx1, hCx2⟩ hRw hCw
  obtain ⟨ey1, ey2, ey3⟩ :=
    clipAxis_end R.y R.h C.y C.h hR.2 hC.2 ⟨hRy1, hRy2⟩ ⟨hCy1, hCy2⟩ hRh hCh
  rw [applyClipRect_axes, hget]
  refine ⟨sx1, sy1, ex1, ey1, ex2, ey2, ?_, ex3, ey3⟩
  intro px py hp
  simp only [SDL_Rect.covers] at hp ⊢
  obtain ⟨p1, p2, p3, p4⟩ := hp
  have wpos : 0 < (clipAxis R.x R.w C.x C.w).2 := by omega
  have hpos : 0 < (clipAxis R.y R.h C.y C.h).2 := by omega
  have fx := ex3 (Or.inl wpos)
  have fy := ey3 (Or.inl hpos)
  omega

/-- C3, amended: for rectangles R and C with non-negative width and height (and
coordinates below 2^30 in absolute value, so that no `int` overflows), the
rectangle that `applyClipRect` produces from R against the clip C has
non-negative width and height, no larger than those of R; its left and top edges
are those of R or C, whichever comes later; each of its pixels is a pixel of R
and of C; and along each axis on which it is not empty, or on which R and C
overlap or touch, its far edge is the nearer of the far edges of R and C, so not
beyond either. -/
theorem applyClipRect_sound (st : Renderer) (R C : SDL_Rect)
    (hclip : st.clipRect = some C)
    (hR : 0 ≤ R.w ∧ 0 ≤ R.h) (hC : 0 ≤ C.w ∧ 0 ≤ C.h) (hRs : R.small) (hCs : C.small) :
    0 ≤ (Surface.applyClipRect st R).w ∧ 0 ≤ (Surface.applyClipRect st R).h ∧
    (Surface.applyClipRect st R).w ≤ R.w ∧ (Surface.applyClipRect st R).h ≤ R.h ∧
    (Surface.applyClipRect st R).x = max R.x C.x ∧
    (Surface.applyClipRect st R).y = max R.y C.y ∧
    (∀ px py, (Surface.applyClipRect st R).covers px py → R.covers px py ∧ C.covers px py) ∧
    (0 < (Surface.applyClipRect st R).w ∨ (R.x ≤ C.x + C.w ∧ C.x ≤ R.x + R.w) →
      (Surface.applyClipRect st R).x + (Surface.applyClipRect st R).w
        = min (R.x + R.w) (C.x + C.w)) ∧
    (0 < (Surface.applyClipRect st R).h ∨ (R.y ≤ C.y + C.h ∧ C.y ≤ R.y + R.h) →
      (Surface.applyClipRect st R).y + (Surface.applyClipRect st R).h
        = min (R.y + R.h) (C.y + C.h)) :=
  applyClipRect_clipped st R C hclip hR hC hRs hCs

/-- The clipping of a rectangle that straddles the corner of the clip. -/
theorem applyClipRect_sound_witness :
    (Surface.applyClipRect
      ⟨⟨0, 0, 0, 0⟩, BlendMode.SDL_BLENDMODE_NONE, some ⟨20, 20, 50, 50⟩, none, []⟩
      ⟨10, 30, 30, 100⟩) = ⟨20, 30, 20, 40⟩ ∧
    (0 : Int) ≤ (Surface.applyClipRect
      ⟨⟨0, 0, 0, 0⟩, BlendMode.SDL_BLENDMODE_NONE, some ⟨20, 20, 50, 50⟩, none, []⟩
      ⟨10, 30, 30, 100⟩).w :=
  ⟨by decide,
   (applyClipRect_sound
      ⟨⟨0, 0, 0, 0⟩, BlendMode.SDL_BLENDMODE_NONE, some ⟨20, 20, 50, 50⟩, none, []⟩
      ⟨10, 30, 30, 100⟩ ⟨20, 20, 50, 50⟩ rfl (by decide) (by decide) (by decide)
      (by decide)).1⟩

/-! ### Fills -/

/-- C4, counterexample: a blended fill of a rectangle of negative width that the
clip does not cut is issued with that negative width, so the rectangle drawn is
not always non-empty. -/
theorem box_blended_negative_width :
    (Surface.box
      ⟨⟨0, 0, 0, 0⟩, BlendMode.SDL_BLENDMODE_NONE, some ⟨0, 0, 100, 100⟩, none, []⟩
      ⟨5, 5, -3, 4⟩ ⟨0, 0, 0, 128⟩).commands =
      [DrawCmd.fillRect none ⟨5, 5, -3, 4⟩ ⟨0, 0, 0, 128⟩ BlendMode.SDL_BLENDMODE_BLEND] ∧
    ¬ (⟨5, 5, -3, 4⟩ : SDL_Rect).nonEmpty := by
  decide

/-- C4, amended: for every `box` call with 0 < color.a < 255 on a rectangle of
non-negative width and height, under an active clip rectangle of non-negative
extents (coordinates below 2^30 in absolute value): when the clipped rectangle
has zero width or zero height nothing is drawn and the renderer is unchanged;
otherwise exactly one fill is issued, with blending and the colour, of the
clipped rectangle, which is non-empty and lies entirely inside the clip. -/
theorem box_blended_inside_clip (st : Renderer) (re C : SDL_Rect) (c : RGBAColor)
    (ha : 0 < c.a ∧ c.a < 255) (hclip : st.clipRect = some C)
    (hre : 0 ≤ re.w ∧ 0 ≤ re.h) (hC : 0 ≤ C.w ∧ 0 ≤ C.h) (hres : re.small) (hCs : C.small) :
    (((Surface.applyClipRect st re).w = 0 ∨ (Surface.applyClipRect st re).h = 0) →
      Surface.box st re c = st) ∧
    (¬ ((Surface.applyClipRect st re).w = 0 ∨ (Surface.applyClipRect st re).h = 0) →
      (Surface.box st re c).commands = st.commands ++
        [DrawCmd.fillRect st.target (Surface.applyClipRect st re) c
          BlendMode.SDL_BLENDMODE_BLEND] ∧
      (Surface.applyClipRect st re).nonEmpty ∧
      (Surface.applyClipRect st re).within C ∧
      (Surface.applyClipRect st re).within re) := by
  have h255 : ¬ c.a = 255 := by omega
  have h0 : c.a ≠ 0 := by omega
  obtain ⟨s1, s2, s3, s4, s5, s6, _, s8, s9⟩ :=
    applyClipRect_clipped st re C hclip hre hC hres hCs
  constructor
  · intro hz
    simp only [Surface.box, h255, h0, Surface.fillRectAlpha, hz, if_true, if_false, ne_eq,
      not_false_eq_true]
  · intro hz
    have hw : 0 < (Surface.applyClipRect st re).w := by omega
    have hh : 0 < (Surface.applyClipRect st re).h := by omega
    have ex := s8 (Or.inl hw)
    have ey := s9 (Or.inl hh)
    refine ⟨?_, ⟨hw, hh⟩, ?_, ?_⟩
    · simp only [Surface.box, h255, h0, Surface.fillRectAlpha, hz, if_false, ne_eq,
        not_false_eq_true, if_true, SDL_RenderFillRect, SDL_SetRenderDrawColor,
        SDL_SetRenderDrawBlendMode]
    · simp only [SDL_Rect.within]; omega
    · simp only [SDL_Rect.within]; omega

/-- A blended fill that the clip cuts on the left and at the bottom. -/
theorem box_blended_inside_clip_witness :
    (Surface.box
      ⟨⟨0, 0, 0, 0⟩, BlendMode.SDL_BLENDMODE_NONE, some ⟨20, 20, 50, 50⟩, none, []⟩
      ⟨10, 30, 30, 100⟩ ⟨1, 2, 3, 128⟩).commands =
      [DrawCmd.fillRect none ⟨20, 30, 20, 40⟩ ⟨1, 2, 3, 128⟩ BlendMode.SDL_BLENDMODE_BLEND] ∧
    (Surface.applyClipRect
      ⟨⟨0, 0, 0, 0⟩, BlendMode.SDL_BLENDMODE_NONE, some ⟨20, 20, 50, 50⟩, none, []⟩
      ⟨10, 30, 30, 100⟩).within ⟨20, 20, 50, 50⟩ :=
  ⟨by decide,
   ((box_blended_inside_clip
      ⟨⟨0, 0, 0, 0⟩, BlendMode.SDL_BLENDMODE_NONE, some ⟨20, 20, 50, 50⟩, none, []⟩
      ⟨10, 30, 30, 100⟩ ⟨20, 20, 50, 50⟩ ⟨1, 2, 3, 128⟩ (by decide) rfl (by decide)
      (by decide) (by decide) (by decide)).2 (by decide)).2.2.1⟩

/-- C5: for every rectangle and every colour with a == 0, `box` issues no draw
command and leaves the renderer (draw colour, blend mode, clip rectangle, render
target, and the commands issued) exactly as it was. -/
theorem box_transparent_noop (st : Renderer) (re : SDL_Rect) (c : RGBAColor)
    (ha : c.a = 0) :
    Surface.box st re c = st ∧ (Surface.box st re c).commands = st.commands ∧
    (Surface.box st re c).drawColor = st.drawColor ∧
    (Surface.box st re c).drawBlendMode = st.drawBlendMode ∧
    (Surface.box st re c).clipRect = st.clipRect ∧
    (Surface.box st re c).target = st.target := by
  have h : Surface.box st re c = st := by
    simp [Surface.box, ha]
  rw [h]
  exact ⟨rfl, rfl, rfl, rfl, rfl, rfl⟩

/-- A transparent fill on a renderer that has a clip and a pending command. -/
theorem box_transparent_noop_witness :
    Surface.box
      ⟨⟨9, 8, 7, 6⟩, BlendMode.SDL_BLENDMODE_BLEND, some ⟨0, 0, 320, 240⟩, some 1,
        [DrawCmd.present]⟩
      ⟨10, 10, 50, 50⟩ ⟨255, 255, 255, 0⟩ =
      ⟨⟨9, 8, 7, 6⟩, BlendMode.SDL_BLENDMODE_BLEND, some ⟨0, 0, 320, 240⟩, some 1,
        [DrawCmd.present]⟩ :=
  (box_transparent_noop
      ⟨⟨9, 8, 7, 6⟩, BlendMode.SDL_BLENDMODE_BLEND, some ⟨0, 0, 320, 240⟩, some 1,
        [DrawCmd.present]⟩
      ⟨10, 10, 50, 50⟩ ⟨255, 255, 255, 0⟩ rfl).1

/-! ### The outline of a rectangle -/

/-- The renderer after `rectangle` is the renderer after the calls of `box`
that `rectangleCalls` lists, made in order. -/
theorem rectangle_eq_calls (st : Renderer) (re : SDL_Rect) (c : RGBAColor) :
    Surface.rectangle st re c =
      (Surface.rectangleCalls re c).foldl (fun s rc => Surface.box s rc.1 rc.2) st := by
  simp only [Surface.rectangle, Surface.rectangleCalls, Surface.rectangleWith]
  split_ifs <;> simp

/-- Every call of `box` that `rectangle` makes passes the colour of the call,
and the rectangles do not depend on the colour. -/
theorem rectangleCalls_eq_strips (re : SDL_Rect) (c : RGBAColor) :
    Surface.rectangleCalls re c = (Surface.rectangleStrips re).map (fun r => (r, c)) := by
  simp only [Surface.rectangleStrips, Surface.rectangleCalls, Surface.rectangleWith]
  split_ifs <;> simp

/-- For corners of 16 bits the strips are those of the specification. -/
theorem rectangleStrips_eq_spec (re : SDL_Rect) (h16 : re.fits16) :
    Surface.rectangleStrips re = specOutlineFills re := by
  obtain ⟨hx, hy, hxw, hyh⟩ := h16
  simp only [Surface.rectangleStrips, Surface.rectangleCalls, Surface.rectangleWith,
    specOutlineFills]
  split_ifs <;>
    simp only [List.nil_append, List.append_nil, List.map_cons, List.map_nil,
      List.cons_append, List.cons.injEq, SDL_Rect.mk.injEq, and_true, true_and,
      toSint16, toUint16, wrapInt] <;>
    omega

/-- C6, counterexample: for the rectangle (0, 40000, 5, 2) the bottom row is
not filled at y + h - 1 = 40001: the row is stored in a `Sint16` local and comes
out at -25535, as do the two columns. -/
theorem rectangle_strips_truncated :
    Surface.rectangleStrips ⟨0, 40000, 5, 2⟩ =
      [⟨0, 40000, 5, 1⟩, ⟨0, -25535, 5, 1⟩, ⟨0, -25535, 1, 0⟩, ⟨4, -25535, 1, 0⟩] ∧
    specOutlineFills ⟨0, 40000, 5, 2⟩ =
      [⟨0, 40000, 5, 1⟩, ⟨0, 40001, 5, 1⟩, ⟨0, 40001, 1, 0⟩, ⟨4, 40001, 1, 0⟩] ∧
    ¬ (∀ re : SDL_Rect, Surface.rectangleStrips re = specOutlineFills re) := by
  refine ⟨by decide, by decide, ?_⟩
  intro h
  have h1 := h ⟨0, 40000, 5, 2⟩
  revert h1
  decide

/-- C6, amended: for every rectangle (x, y, w, h) whose corners are 16-bit
coordinates (-32768 <= x, -32768 <= y, x + w <= 32768, y + h <= 32768) and
every colour, `rectangle` makes exactly these calls of `box`, all with that
colour, in this order: the top row (x, y, w, 1) iff h >= 1; the bottom row
(x, y+h-1, w, 1) iff h >= 2; the left column (x, y+1, 1, h-2) iff h >= 2 and
w >= 1; the right column (x+w-1, y+1, 1, h-2) iff h >= 2 and w >= 2; and its
effect on the renderer is that of these calls. For every rectangle at all there
are at most 4 calls, and for h == 1 the only call is the 1-pixel-tall row
(x, y, w, 1). -/
theorem rectangle_calls_exact (st : Renderer) (re : SDL_Rect) (c : RGBAColor) :
    (re.fits16 →
      Surface.rectangleCalls re c = (specOutlineFills re).map (fun r => (r, c)) ∧
      Surface.rectangle st re c =
        (specOutlineFills re).foldl (fun s r => Surface.box s r c) st) ∧
    (Surface.rectangleCalls re c).length ≤ 4 ∧
    (re.h = 1 → Surface.rectangleCalls re c = [(⟨re.x, re.y, re.w, 1⟩, c)]) := by
  refine ⟨?_, ?_, ?_⟩
  · intro h16
    have hs := rectangleStrips_eq_spec re h16
    have hc := rectangleCalls_eq_strips re c
    rw [hs] at hc
    refine ⟨hc, ?_⟩
    rw [rectangle_eq_calls, hc, List.foldl_map]
  · simp only [Surface.rectangleCalls, Surface.rectangleWith]
    split_ifs <;> simp
  · intro h1
    have ha : re.h ≥ 1 := by omega
    have hb : ¬ re.h ≥ 2 := by omega
    simp [Surface.rectangleCalls, Surface.rectangleWith, ha, hb]

/-- The outline of the rectangle (10, 20, 5, 4). -/
theorem rectangle_calls_exact_witness :
    (⟨10, 20, 5, 4⟩ : SDL_Rect).fits16 ∧
    Surface.rectangleCalls ⟨10, 20, 5, 4⟩ ⟨1, 2, 3, 255⟩ =
      [(⟨10, 20, 5, 1⟩, ⟨1, 2, 3, 255⟩), (⟨10, 23, 5, 1⟩, ⟨1, 2, 3, 255⟩),
       (⟨10, 21, 1, 2⟩, ⟨1, 2, 3, 255⟩), (⟨14, 21, 1, 2⟩, ⟨1, 2, 3, 255⟩)] :=
  ⟨by decide,
   ((rectangle_calls_exact
      ⟨⟨0, 0, 0, 0⟩, BlendMode.SDL_BLENDMODE_NONE, none, none, []⟩
      ⟨10, 20, 5, 4⟩ ⟨1, 2, 3, 255⟩).1 (by decide)).1⟩

/-- C7, counterexample: for the rectangle (0, 32767, 5, 3), of non-negative
width and height, the bottom row is filled at y = -32767 and the columns at
y = -32768, outside the rectangle. -/
theorem rectangle_strip_outside :
    Surface.rectangleStrips ⟨0, 32767, 5, 3⟩ =
      [⟨0, 32767, 5, 1⟩, ⟨0, -32767, 5, 1⟩, ⟨0, -32768, 1, 1⟩, ⟨4, -32768, 1, 1⟩] ∧
    ¬ (∀ s ∈ Surface.rectangleStrips ⟨0, 32767, 5, 3⟩, s.within ⟨0, 32767, 5, 3⟩) := by
  decide

/-- C7, amended: for every rectangle with w >= 0 and h >= 0 whose corners are
16-bit coordinates (-32768 <= x, -32768 <= y, x + w <= 32768, y + h <= 32768),
the strips that `rectangle` fills are pairwise disjoint, so no pixel is filled
twice, and every strip lies inside the rectangle. -/
theorem rectangle_strips_disjoint_inside (re : SDL_Rect)
    (_hw : 0 ≤ re.w) (_hh : 0 ≤ re.h) (h16 : re.fits16) :
    (Surface.rectangleStrips re).Pairwise SDL_Rect.disjoint ∧
    (∀ s ∈ Surface.rectangleStrips re, s.within re) := by
  rw [rectangleStrips_eq_spec re h16]
  simp only [specOutlineFills, SDL_Rect.disjoint, SDL_Rect.covers, SDL_Rect.within]
  constructor
  · split_ifs <;>
      simp only [List.nil_append, List.append_nil, List.cons_append, List.pairwise_cons,
        List.Pairwise.nil, List.mem_cons, List.mem_singleton, List.not_mem_nil,
        forall_eq_or_imp, forall_eq, and_true, true_and, false_imp_iff, implies_true] <;>
      simp only [SDL_Rect.disjoint, SDL_Rect.covers] <;>
      (repeat' apply And.intro) <;>
      intro px py <;> omega
  · split_ifs <;>
      simp only [List.nil_append, List.append_nil, List.cons_append, List.mem_cons,
        List.mem_singleton, List.not_mem_nil, forall_eq_or_imp, forall_eq, and_true,
        true_and, false_imp_iff, implies_true] <;>
      omega

/-- The outline of the rectangle (10, 20, 2, 2), the smallest with four strips. -/
theorem rectangle_strips_disjoint_inside_witness :
    Surface.rectangleStrips ⟨10, 20, 2, 2⟩ =
      [⟨10, 20, 2, 1⟩, ⟨10, 21, 2, 1⟩, ⟨10, 21, 1, 0⟩, ⟨11, 21, 1, 0⟩] ∧
    (∀ s ∈ Surface.rectangleStrips ⟨10, 20, 2, 2⟩, s.within ⟨10, 20, 2, 2⟩) :=
  ⟨by decide,
   (rectangle_strips_disjoint_inside ⟨10, 20, 2, 2⟩ (by decide) (by decide) (by decide)).2⟩

/-! ### Blits -/

/-- A call of `blit`, whatever its arguments, leaves the alpha modulation 255
on a source that had it. -/
theorem blit_keeps_alpha255 (self : Surface) (st : Renderer) (destination : Option Texture)
    (x y w h a : Int) (id : Nat) (ht : self.texture = some ⟨id, 255⟩) :
    (Surface.blit self st destination x y w h a).1.texture = some ⟨id, 255⟩ ∧
    (Surface.blit self st destination x y w h a).1.w = self.w ∧
    (Surface.blit self st destination x y w h a).1.h = self.h := by
  have h255 : toUint8 255 = 255 := by decide
  by_cases he : destination = none ∨ a = 0
  · simp only [Surface.blit, he, if_true, ht, and_self]
  · simp only [Surface.blit, if_neg he]
    by_cases ha : a = -1
    · simp [ha, ht]
    · simp [ha, ht, SDL_SetTextureAlphaMod, h255]

theorem blitAll_keeps_alpha255 (calls : List BlitCall) :
    ∀ (self : Surface) (st : Renderer) (id : Nat), self.texture = some ⟨id, 255⟩ →
      (Surface.blitAll self st calls).1.texture = some ⟨id, 255⟩ := by
  induction calls with
  | nil => intro self st id ht; exact ht
  | cons c cs ih =>
    intro self st id ht
    simp only [Surface.blitAll]
    exact ih _ _ id (blit_keeps_alpha255 self st c.destination c.x c.y c.w c.h c.a id ht).1

/-- C8: for every `blit` call with alpha != -1, the alpha modulation of the
source is overridden for that call only and is 255 when the call returns, on
every exit path. The early return for an absent destination or for alpha == 0
is taken before the modulation is written and leaves the surface and the
renderer untouched, so the modulation is the 255 that the texture was created
with and that every earlier `blit` has left; otherwise the one copy is issued
with the alpha of the call and 255 is set afterwards. Hence after any sequence
of `blit` calls on a new texture the modulation is 255. -/
theorem blit_alphaMod_restored (self : Surface) (st : Renderer)
    (destination : Option Texture) (x y w h a : Int) (t : Texture)
    (ht : self.texture = some t) (ha : a ≠ -1) :
    (t.alphaMod = 255 →
      (Surface.blit self st destination x y w h a).1.texture = some ⟨t.id, 255⟩) ∧
    (destination = none ∨ a = 0 →
      Surface.blit self st destination x y w h a = (self, st)) ∧
    (¬ (destination = none ∨ a = 0) →
      (Surface.blit self st destination x y w h a).1.texture = some ⟨t.id, 255⟩ ∧
      (Surface.blit self st destination x y w h a).2.commands = st.commands ++
        [DrawCmd.copy st.target ⟨t.id, toUint8 a⟩
          (some ⟨0, 0, toUint16 (if w ≠ 0 then w else self.w),
            toUint16 (if h ≠ 0 then h else self.h)⟩)
          (some ⟨x, y, toUint16 (if w ≠ 0 then w else self.w),
            toUint16 (if h ≠ 0 then h else self.h)⟩)]) ∧
    (∀ (calls : List BlitCall) (st0 : Renderer),
      (Surface.blitAll ⟨some (newTexture t.id), self.w, self.h⟩ st0
        (calls ++ [⟨destination, x, y, w, h, a⟩])).1.texture = some ⟨t.id, 255⟩) := by
  have h255 : toUint8 255 = 255 := by decide
  have hrun : ∀ (calls : List BlitCall) (st0 : Renderer),
      (Surface.blitAll ⟨some (newTexture t.id), self.w, self.h⟩ st0
        (calls ++ [⟨destination, x, y, w, h, a⟩])).1.texture = some ⟨t.id, 255⟩ :=
    fun calls st0 => blitAll_keeps_alpha255 _ _ st0 t.id rfl
  by_cases he : destination = none ∨ a = 0
  · refine ⟨?_, ?_, ?_, hrun⟩
    · intro hm
      simp only [Surface.blit, he, if_true, ht]
      cases t
      simp_all
    · intro _
      simp only [Surface.blit, he, if_true]
    · intro hn
      exact absurd he hn
  · have hcopy : Surface.blit self st destination x y w h a =
        ({ self with texture := some ⟨t.id, 255⟩ },
         { st with commands := st.commands ++
            [DrawCmd.copy st.target ⟨t.id, toUint8 a⟩
              (some ⟨0, 0, toUint16 (if w ≠ 0 then w else self.w),
                toUint16 (if h ≠ 0 then h else self.h)⟩)
              (some ⟨x, y, toUint16 (if w ≠ 0 then w else self.w),
                toUint16 (if h ≠ 0 then h else self.h)⟩)] }) := by
      simp only [Surface.blit, he, if_false, ha, ne_eq, not_false_eq_true, if_true, ht,
        SDL_SetTextureAlphaMod, SDL_RenderCopy, h255]
    refine ⟨?_, ?_, ?_, hrun⟩
    · intro _
      rw [hcopy]
    · intro hn
      exact absurd hn he
    · intro _
      rw [hcopy]
      exact ⟨rfl, rfl⟩

/-- A half-transparent blit of a 32x16 surface, and the early return without a
destination. -/
theorem blit_alphaMod_restored_witness :
    (Surface.blit ⟨some ⟨7, 255⟩, 32, 16⟩
      ⟨⟨0, 0, 0, 0⟩, BlendMode.SDL_BLENDMODE_NONE, none, some 1, []⟩
      (some ⟨1, 255⟩) 5 6 0 0 128).1.texture = some ⟨7, 255⟩ ∧
    (Surface.blit ⟨some ⟨7, 255⟩, 32, 16⟩
      ⟨⟨0, 0, 0, 0⟩, BlendMode.SDL_BLENDMODE_NONE, none, some 1, []⟩
      none 5 6 0 0 128).1.texture = some ⟨7, 255⟩ :=
  ⟨(blit_alphaMod_restored ⟨some ⟨7, 255⟩, 32, 16⟩
      ⟨⟨0, 0, 0, 0⟩, BlendMode.SDL_BLENDMODE_NONE, none, some 1, []⟩
      (some ⟨1, 255⟩) 5 6 0 0 128 ⟨7, 255⟩ rfl (by decide)).1 rfl,
   (blit_alphaMod_restored ⟨some ⟨7, 255⟩, 32, 16⟩
      ⟨⟨0, 0, 0, 0⟩, BlendMode.SDL_BLENDMODE_NONE, none, some 1, []⟩
      none 5 6 0 0 128 ⟨7, 255⟩ rfl (by decide)).1 rfl⟩

/-! ### The main loop -/

theorem dispatchLoop_none (button : Button) (ls : List Layer)
    (h : ∀ l ∈ ls, l.handleButtonPress button = false) :
    dispatchLoop button ls = ls := by
  induction ls with
  | nil => rfl
  | cons l rest ih =>
    have hl := h l (List.mem_cons_self _ _)
    have hr := ih (fun m hm => h m (List.mem_cons_of_mem _ hm))
    simp [dispatchLoop, hl, hr]

theorem dispatchLoop_first (button : Button) (pre : List Layer) (l : Layer)
    (post : List Layer) (hpre : ∀ m ∈ pre, m.handleButtonPress button = false)
    (hl : l.handleButtonPress button = true) :
    dispatchLoop button (pre ++ l :: post) = pre ++ [l] := by
  induction pre with
  | nil => simp [dispatchLoop, hl]
  | cons m rest ih =>
    have hm := hpre m (List.mem_cons_self _ _)
    have hr := ih (fun k hk => hpre k (List.mem_cons_of_mem _ hk))
    simp [dispatchLoop, hm, hr]

/-- C9: for every layer stack and every non-quit event, the dispatch step calls
the input handlers front to back (the reverse of the paint order) and stops at,
and including, the first handler that returns consumed: with `l` the frontmost
consuming layer, the calls are the layers in front of `l`, front to back, then
`l`, and no layer behind `l`; if no handler consumes, every handler is called
once, front to back. For the stack [A, B, C] where only B consumes, C is
called, then B, and A is not called. -/
theorem dispatch_front_to_back (layers : List Layer) (button : Button)
    (hq : button ≠ Button.QUIT) :
    (dispatch layers button).1 = false ∧
    ((∀ l ∈ layers, l.handleButtonPress button = false) →
      (dispatch layers button).2 = layers.reverse) ∧
    (∀ back l front, layers = back ++ l :: front →
      l.handleButtonPress button = true →
      (∀ m ∈ front, m.handleButtonPress button = false) →
      (dispatch layers button).2 = front.reverse ++ [l]) ∧
    (∀ A B C, layers = [A, B, C] → A.handleButtonPress button = false →
      B.handleButtonPress button = true → C.handleButtonPress button = false →
      (dispatch layers button).2 = [C, B]) := by
  have hfirst : ∀ back l front, layers = back ++ l :: front →
      l.handleButtonPress button = true →
      (∀ m ∈ front, m.handleButtonPress button = false) →
      (dispatch layers button).2 = front.reverse ++ [l] := by
    intro back l front hl hc hf
    have hrev : layers.reverse = front.reverse ++ l :: back.reverse := by
      rw [hl]; simp
    simp only [dispatch, hq, if_false, hrev]
    exact dispatchLoop_first button front.reverse l back.reverse
      (fun m hm => hf m (List.mem_reverse.mp hm)) hc
  refine ⟨by simp [dispatch, hq], ?_, hfirst, ?_⟩
  · intro hn
    simp only [dispatch, hq, if_false]
    exact dispatchLoop_none button layers.reverse
      (fun l hl => hn l (List.mem_reverse.mp hl))
  · intro A B C hl _ hB hC
    have := hfirst [A] B [C] (by simpa using hl) hB (by simpa using hC)
    simpa using this

/-- The stack [A, B, C] in which only B consumes: C is called, then B. -/
theorem dispatch_front_to_back_witness :
    Button.other 0 ≠ Button.QUIT ∧
    (dispatch
      [⟨1, Status.ACTIVE, false, fun _ => false⟩, ⟨2, Status.ACTIVE, false, fun _ => true⟩,
       ⟨3, Status.ACTIVE, false, fun _ => false⟩] (Button.other 0)).2 =
      [⟨3, Status.ACTIVE, false, fun _ => false⟩, ⟨2, Status.ACTIVE, false, fun _ => true⟩] :=
  ⟨by decide,
   (dispatch_front_to_back
      [⟨1, Status.ACTIVE, false, fun _ => false⟩, ⟨2, Status.ACTIVE, false, fun _ => true⟩,
       ⟨3, Status.ACTIVE, false, fun _ => false⟩] (Button.other 0) (by decide)).2.2.2
      ⟨1, Status.ACTIVE, false, fun _ => false⟩ ⟨2, Status.ACTIVE, false, fun _ => true⟩
      ⟨3, Status.ACTIVE, false, fun _ => false⟩ rfl rfl rfl rfl⟩

theorem pruneLoop_spec (fuel : Nat) :
    ∀ (pre rest : List Layer), rest.length < fuel →
      pruneLoop fuel (pre ++ rest) pre.length =
        some (pre ++ rest.filter (fun l => decide (l.getStatus ≠ Status.DISMISSED))) := by
  induction fuel with
  | zero => intro pre rest h; omega
  | succ fuel ih =>
    intro pre rest h
    cases rest with
    | nil => simp [pruneLoop]
    | cons l rest =>
      have hget : (pre ++ l :: rest).get? pre.length = some l := by
        rw [List.get?_eq_getElem?, List.getElem?_append_right (le_refl _)]
        simp
      have hlen : rest.length < fuel := by simp only [List.length_cons] at h; omega
      simp only [pruneLoop, hget]
      by_cases hd : l.getStatus = Status.DISMISSED
      · have herase : (pre ++ l :: rest).eraseIdx pre.length = pre ++ rest := by
          rw [List.eraseIdx_append_of_length_le (le_refl _)]
          simp
        simp only [hd, if_true, herase]
        rw [ih pre rest hlen]
        simp [hd]
      · have hsplit : pre ++ l :: rest = (pre ++ [l]) ++ rest := by simp
        have hidx : pre.length + 1 = (pre ++ [l]).length := by simp
        simp only [hd, if_false]
        rw [hsplit, hidx, ih (pre ++ [l]) rest hlen]
        simp [hd]

/-- C10: for every layer stack, the prune step at the start of a frame ends and
leaves exactly the layers whose status is not DISMISSED, in their original
relative order. For [A, B, C] with only B dismissed the result is [A, C]. -/
theorem prune_removes_dismissed (layers : List Layer) :
    prune layers =
      some (layers.filter (fun l => decide (l.getStatus ≠ Status.DISMISSED))) ∧
    (∀ A B C, layers = [A, B, C] → A.getStatus = Status.ACTIVE →
      B.getStatus = Status.DISMISSED → C.getStatus = Status.ACTIVE →
      prune layers = some [A, C]) := by
  have h := pruneLoop_spec (layers.length + 1) [] layers (by omega)
  simp only [List.nil_append, List.length_nil] at h
  refine ⟨h, ?_⟩
  intro A B C hl hA hB hC
  unfold prune
  rw [h, hl]
  simp [hA, hB, hC]

/-- The stack [A, B, C] with B dismissed is pruned to [A, C]. -/
theorem prune_removes_dismissed_witness :
    prune
      [⟨1, Status.ACTIVE, false, fun _ => false⟩, ⟨2, Status.DISMISSED, false, fun _ => true⟩,
       ⟨3, Status.ACTIVE, true, fun _ => false⟩] =
      some [⟨1, Status.ACTIVE, false, fun _ => false⟩, ⟨3, Status.ACTIVE, true, fun _ => false⟩] :=
  (prune_removes_dismissed
      [⟨1, Status.ACTIVE, false, fun _ => false⟩, ⟨2, Status.DISMISSED, false, fun _ => true⟩,
       ⟨3, Status.ACTIVE, true, fun _ => false⟩]).2
      ⟨1, Status.ACTIVE, false, fun _ => false⟩ ⟨2, Status.DISMISSED, false, fun _ => true⟩
      ⟨3, Status.ACTIVE, true, fun _ => false⟩ rfl rfl rfl rfl

/-- The prune step returns the layers that are not dismissed. -/
theorem prune_eq_filter (layers : List Layer) :
    prune layers =
      some (layers.filter (fun l => decide (l.getStatus ≠ Status.DISMISSED))) := by
  have h := pruneLoop_spec (layers.length + 1) [] layers (by omega)
  simpa using h

/-- C11: when the event received in a frame is the button `QUIT`, the main loop
ends in that frame, whatever inputs would follow, and no layer's input handler
is called for the event, whatever the layer stack contains. -/
theorem quit_leaves_main_loop (layers : List Layer) :
    dispatch layers Button.QUIT = (true, []) ∧
    (∀ toLaunch answers f, mainLoopFrame layers toLaunch answers = some f →
      f.event = some Button.QUIT → f.leaves = true ∧ f.handled = []) ∧
    (∀ answers rest, ∃ f, mainLoopFrame layers false (some Button.QUIT :: answers) = some f ∧
      f.event = some Button.QUIT ∧ f.leaves = true ∧ f.handled = [] ∧
      mainLoop layers ((false, some Button.QUIT :: answers) :: rest) = some [f]) := by
  refine ⟨rfl, ?_, ?_⟩
  · intro toLaunch answers f hf hev
    simp only [mainLoopFrame, prune_eq_filter] at hf
    split at hf
    · cases hf
      simp at hev
    · split at hf
      · cases hf
      · cases hf
        simp at hev
      · cases hf
        simp only [Option.some.injEq] at hev
        subst hev
        exact ⟨rfl, rfl⟩
  · intro answers rest
    have hf : mainLoopFrame layers false (some Button.QUIT :: answers) =
        some ⟨layers.filter (fun l => decide (l.getStatus ≠ Status.DISMISSED)),
          (runAnimationsLoop
            (layers.filter (fun l => decide (l.getStatus ≠ Status.DISMISSED))) false []).2,
          (runAnimationsLoop
            (layers.filter (fun l => decide (l.getStatus ≠ Status.DISMISSED))) false []).1,
          layers.filter (fun l => decide (l.getStatus ≠ Status.DISMISSED)), 1,
          !(runAnimationsLoop
            (layers.filter (fun l => decide (l.getStatus ≠ Status.DISMISSED))) false []).1,
          some Button.QUIT, [], true⟩ := by
      simp only [mainLoopFrame, prune_eq_filter, awaitInput, Bool.false_eq_true, if_false,
        dispatch, if_true]
    refine ⟨_, hf, rfl, rfl, rfl, ?_⟩
    simp only [mainLoop, hf, if_true]

/-- The stack [A, B] in which B would consume: on `QUIT` the loop is left and
neither handler is called. -/
theorem quit_leaves_main_loop_witness :
    dispatch
      [⟨1, Status.ACTIVE, false, fun _ => false⟩, ⟨2, Status.ACTIVE, false, fun _ => true⟩]
      Button.QUIT = (true, []) :=
  (quit_leaves_main_loop
    [⟨1, Status.ACTIVE, false, fun _ => false⟩, ⟨2, Status.ACTIVE, false, fun _ => true⟩]).1

/-! ### Render targets -/

/-- C12: after `OutputSurface::flip` returns, the current render target is the
back-buffer texture of the surface, whatever the target was before, so a draw
issued after the flip is issued against the back buffer and not against the
window; and after a successful `OutputSurface::open` the surface has a texture
and that texture is the current render target. `open` succeeds when the window,
one of the two renderers and the texture are created for a positive size. -/
theorem flip_binds_back_buffer (self : Surface) (st : Renderer) :
    (OutputSurface.flip self st).target = self.texture.map Texture.id ∧
    (∀ t, self.texture = some t → (OutputSurface.flip self st).target = some t.id) ∧
    (∀ rect,
      (SDL_RenderFillRect (OutputSurface.flip self st) rect).commands =
        (OutputSurface.flip self st).commands ++
          [DrawCmd.fillRect (self.texture.map Texture.id) rect st.drawColor
            st.drawBlendMode]) ∧
    (∀ t src dst,
      (SDL_RenderCopy (OutputSurface.flip self st) (some t) src dst).commands =
        (OutputSurface.flip self st).commands ++
          [DrawCmd.copy (self.texture.map Texture.id) t src dst]) ∧
    (∀ env width height s st1, OutputSurface.open env width height = some (s, st1) →
      ∃ t, s.texture = some t ∧ st1.target = some t.id) ∧
    (∀ (env : OpenEnv) (width height : Int) (r : Renderer) (t : Texture),
      env.window = true → (env.accelerated = some r ∨
        (env.accelerated = none ∧ env.software = some r)) →
      env.texture = some t → 0 < width → 0 < height →
      OutputSurface.open env width height =
        some (⟨some t, width, height⟩, { r with target := some t.id })) := by
  have htarget : (OutputSurface.flip self st).target = self.texture.map Texture.id := rfl
  refine ⟨htarget, ?_, ?_, ?_, ?_, ?_⟩
  · intro t ht
    rw [htarget, ht]
    rfl
  · intro rect
    have hcol : (OutputSurface.flip self st).drawColor = st.drawColor ∧
        (OutputSurface.flip self st).drawBlendMode = st.drawBlendMode := by
      cases ht : self.texture <;>
        simp [OutputSurface.flip, SDL_RenderCopy, ht, SDL_SetRenderTarget, SDL_RenderClear,
          SDL_RenderPresent]
    simp only [SDL_RenderFillRect, htarget, hcol.1, hcol.2]
  · intro t src dst
    simp only [SDL_RenderCopy, htarget]
  · intro env width height s st1 hopen
    simp only [OutputSurface.open] at hopen
    split at hopen
    · cases hopen
    · split at hopen
      · cases hopen
      · split at hopen
        · cases hopen
        · rename_i texture _
          simp only [Option.some.injEq, Prod.mk.injEq] at hopen
          obtain ⟨hs, hst⟩ := hopen
          subst hs hst
          exact ⟨texture, rfl, rfl⟩
  · intro env width height r t hw hr ht hwidth hheight
    have hdim : ¬ (width ≤ 0 ∨ height ≤ 0) := by omega
    rcases hr with hacc | ⟨hacc, hsoft⟩
    · simp [OutputSurface.open, hw, hacc, ht, SDL_CreateTexture, hdim, SDL_SetRenderTarget]
    · simp [OutputSurface.open, hw, hacc, hsoft, ht, SDL_CreateTexture, hdim,
        SDL_SetRenderTarget]

/-- A flip while an off-screen texture is bound, and an `open` that falls back
to the software renderer. -/
theorem flip_binds_back_buffer_witness :
    (OutputSurface.flip ⟨some ⟨1, 255⟩, 320, 240⟩
      ⟨⟨0, 0, 0, 0⟩, BlendMode.SDL_BLENDMODE_NONE, none, some 9, []⟩).target = some 1 ∧
    OutputSurface.open
      ⟨true, none, some ⟨⟨0, 0, 0, 0⟩, BlendMode.SDL_BLENDMODE_NONE, none, none, []⟩,
        some ⟨1, 255⟩⟩ 320 240 =
      some (⟨some ⟨1, 255⟩, 320, 240⟩,
        ⟨⟨0, 0, 0, 0⟩, BlendMode.SDL_BLENDMODE_NONE, none, some 1, []⟩) :=
  ⟨(flip_binds_back_buffer ⟨some ⟨1, 255⟩, 320, 240⟩
      ⟨⟨0, 0, 0, 0⟩, BlendMode.SDL_BLENDMODE_NONE, none, some 9, []⟩).1,
   (flip_binds_back_buffer ⟨some ⟨1, 255⟩, 320, 240⟩
      ⟨⟨0, 0, 0, 0⟩, BlendMode.SDL_BLENDMODE_NONE, none, some 9, []⟩).2.2.2.2.2
      ⟨true, none, some ⟨⟨0, 0, 0, 0⟩, BlendMode.SDL_BLENDMODE_NONE, none, none, []⟩,
        some ⟨1, 255⟩⟩ 320 240
      ⟨⟨0, 0, 0, 0⟩, BlendMode.SDL_BLENDMODE_NONE, none, none, []⟩ ⟨1, 255⟩
      rfl (Or.inr ⟨rfl, rfl⟩) rfl (by decide) (by decide)⟩

/-- C13: `Font::writeLine`, `OffscreenSurface::emptySurface` and
`OffscreenSurface::loadImage` each leave the current render target of the
renderer equal to what it was on entry, on every exit path, the early failure
returns included. -/
theorem render_target_restored (st : Renderer) :
    (∀ font env surface text x y halign valign,
      (Font.writeLine font env surface st text x y halign valign).st.target = st.target) ∧
    (∀ created width height,
      (OffscreenSurface.emptySurface created st width height).2.target = st.target) ∧
    (∀ env width height,
      (OffscreenSurface.loadImage env st width height).2.target = st.target) := by
  refine ⟨?_, ?_, ?_⟩
  · intro font env surface text x y halign valign
    simp only [Font.writeLine]
    split
    · rfl
    · split
      · rfl
      · split
        · rfl
        · split
          · rfl
          · split
            · rfl
            · rfl
  · intro created width height
    simp only [OffscreenSurface.emptySurface]
    split <;> rfl
  · intro env width height
    simp only [OffscreenSurface.loadImage]
    split
    · rfl
    · split
      · rfl
      · split
        · split <;> rfl
        · rfl

/-! ### Text -/

/-- C14: for every drawable, position and alignment, `writeLine` called with the
empty text returns width 0, makes no rasterization call and issues no draw
command: the renderer, its render target included, is as it was. -/
theorem writeLine_empty (font : Font) (env : TextEnv) (surface : Surface) (st : Renderer)
    (x y : Int) (halign : HAlign) (valign : VAlign) :
    Font.writeLine font env surface st [] x y halign valign = ⟨0, st, []⟩ ∧
    (Font.writeLine font env surface st [] x y halign valign).ret = 0 ∧
    (Font.writeLine font env surface st [] x y halign valign).st.commands = st.commands ∧
    (Font.writeLine font env surface st [] x y halign valign).st.target = st.target ∧
    (Font.writeLine font env surface st [] x y halign valign).rendered = [] :=
  ⟨rfl, rfl, rfl, rfl, rfl⟩

/-- The draws of `writeLine` once the black texture exists: the four black
copies, then the white copy if the second rasterization and upload succeed. -/
theorem writeLine_commands (font : Font) (env : TextEnv) (surface : Surface)
    (st : Renderer) (text : List Nat) (x y : Int) (halign : HAlign) (valign : VAlign)
    (W H : Int) (t : Texture) (htext : text ≠ []) (hblack : env.black = some (W, H))
    (hup : env.blackTexture = some t) :
    (Font.writeLine font env surface st text x y halign valign).st.commands =
      st.commands ++
        Font.blackCopies (surface.texture.map Texture.id) t (Font.lineX W x halign)
          (Font.lineY font y valign) W H ++
        (match env.white, env.whiteTexture with
         | some _, some t2 =>
           [Font.whiteCopy (surface.texture.map Texture.id) t2 (Font.lineX W x halign)
             (Font.lineY font y valign) W H]
         | _, _ => []) := by
  cases hs : env.white <;> cases hw : env.whiteTexture <;>
    cases halign <;> cases valign <;>
    simp [Font.writeLine, htext, hblack, hup, hs, hw, SDL_RenderCopy,
      SDL_SetRenderTarget, SDL_GetRenderTarget, Font.blackCopies, Font.whiteCopy,
      Font.lineX, Font.lineY]

/-- C15: whenever the first (black) rasterization of a non-empty text succeeds
and measures width W, `writeLine` returns W whatever fails afterwards. When the
first texture upload fails nothing is drawn; when the second rasterization or
the second upload fails, the four black copies are the only draws and the white
copy is not issued; when nothing fails the white copy follows the four black
ones. The function ends in every case. -/
theorem writeLine_returns_width (font : Font) (env : TextEnv) (surface : Surface)
    (st : Renderer) (text : List Nat) (x y : Int) (halign : HAlign) (valign : VAlign)
    (W H : Int) (htext : text ≠ []) (hblack : env.black = some (W, H)) :
    (Font.writeLine font env surface st text x y halign valign).ret = W ∧
    (env.blackTexture = none →
      (Font.writeLine font env surface st text x y halign valign).st = st) ∧
    (∀ t, env.blackTexture = some t → (env.white = none ∨ env.whiteTexture = none) →
      (Font.writeLine font env surface st text x y halign valign).st.commands =
        st.commands ++
          Font.blackCopies (surface.texture.map Texture.id) t (Font.lineX W x halign)
            (Font.lineY font y valign) W H) ∧
    (∀ t s2 t2, env.blackTexture = some t → env.white = some s2 →
      env.whiteTexture = some t2 →
      (Font.writeLine font env surface st text x y halign valign).st.commands =
        st.commands ++
          Font.blackCopies (surface.texture.map Texture.id) t (Font.lineX W x halign)
            (Font.lineY font y valign) W H ++
          [Font.whiteCopy (surface.texture.map Texture.id) t2 (Font.lineX W x halign)
            (Font.lineY font y valign) W H]) := by
  refine ⟨?_, ?_, ?_, ?_⟩
  · simp only [Font.writeLine, htext, if_false, hblack]
    split
    · rfl
    · split
      · rfl
      · split <;> rfl
  · intro hup
    simp only [Font.writeLine, htext, if_false, hblack, hup]
  · intro t hup hfail
    rw [writeLine_commands font env surface st text x y halign valign W H t htext hblack hup]
    rcases hfail with hw | hw
    · simp [hw]
    · cases hs : env.white <;> simp [hw]
  · intro t s2 t2 hup hs hw
    rw [writeLine_commands font env surface st text x y halign valign W H t htext hblack hup]
    simp [hs, hw]

/-- The text "ab" measured 17 wide, with the second rasterization failing: the
width is returned and the four black copies are the only draws. -/
theorem writeLine_returns_width_witness :
    (Font.writeLine ⟨12⟩ ⟨some (17, 12), some ⟨5, 255⟩, none, none⟩
      ⟨some ⟨1, 255⟩, 320, 240⟩
      ⟨⟨0, 0, 0, 0⟩, BlendMode.SDL_BLENDMODE_NONE, none, some 1, []⟩
      [97, 98] 100 50 HAlign.HAlignLeft VAlign.VAlignTop).ret = 17 ∧
    (Font.writeLine ⟨12⟩ ⟨some (17, 12), some ⟨5, 255⟩, none, none⟩
      ⟨some ⟨1, 255⟩, 320, 240⟩
      ⟨⟨0, 0, 0, 0⟩, BlendMode.SDL_BLENDMODE_NONE, none, some 1, []⟩
      [97, 98] 100 50 HAlign.HAlignLeft VAlign.VAlignTop).st.commands.length = 4 :=
  ⟨(writeLine_returns_width ⟨12⟩ ⟨some (17, 12), some ⟨5, 255⟩, none, none⟩
      ⟨some ⟨1, 255⟩, 320, 240⟩
      ⟨⟨0, 0, 0, 0⟩, BlendMode.SDL_BLENDMODE_NONE, none, some 1, []⟩
      [97, 98] 100 50 HAlign.HAlignLeft VAlign.VAlignTop 17 12 (by decide) rfl).1,
   by decide⟩

/-! ### Centred and right-aligned blits -/

theorem tdiv_two (a : Int) (h : 0 ≤ a) : Int.tdiv a 2 = a / 2 :=
  Int.tdiv_eq_ediv h (by decide)

/-- C16, counterexample: a 10 x 10 source blitted centred on (100, 100) with the
bound w = 20 is drawn 20 wide with its left edge at 95, not at 100 - 20/2 = 90:
the offset is half of the smaller of source and bound, while `blit` draws the
width of the bound. And a source 70000 wide is drawn 4464 wide, the width as a
`Uint16`, with its left edge at 100 - 35000, not at 100 - 4464/2. -/
theorem blitCenter_wide_bound :
    (Surface.blitCenter ⟨some ⟨7, 255⟩, 10, 10⟩
      ⟨⟨0, 0, 0, 0⟩, BlendMode.SDL_BLENDMODE_NONE, none, none, []⟩
      (some ⟨1, 255⟩) 100 100 20 0 (-1)).2.commands =
      [DrawCmd.copy none ⟨7, 255⟩ (some ⟨0, 0, 20, 10⟩) (some ⟨95, 95, 20, 10⟩)] ∧
    (95 : Int) ≠ 100 - 20 / 2 ∧
    (Surface.blitCenter ⟨some ⟨7, 255⟩, 70000, 10⟩
      ⟨⟨0, 0, 0, 0⟩, BlendMode.SDL_BLENDMODE_NONE, none, none, []⟩
      (some ⟨1, 255⟩) 100 100 0 0 (-1)).2.commands =
      [DrawCmd.copy none ⟨7, 255⟩ (some ⟨0, 0, 4464, 10⟩) (some ⟨-34900, 95, 4464, 10⟩)] ∧
    (-34900 : Int) ≠ 100 - 4464 / 2 := by
  decide

/-- What `blitCenter` draws, for a source of size W x H and a bound (w, h) of
non-negative `int`s and a point below 2^30 in absolute value: the offset is half
of W for w == 0 and half of min(W, w) otherwise, and the width drawn is w (W
for w == 0) reduced to 16 bits; likewise for the height. -/
theorem blitCenter_commands (self : Surface) (st : Renderer) (d t : Texture)
    (x y w h a : Int) (ht : self.texture = some t) (ha : a ≠ 0)
    (hW : 0 ≤ self.w ∧ self.w < 2147483648) (hH : 0 ≤ self.h ∧ self.h < 2147483648)
    (hw : 0 ≤ w ∧ w < 2147483648) (hh : 0 ≤ h ∧ h < 2147483648)
    (hx : -1073741824 ≤ x ∧ x < 1073741824) (hy : -1073741824 ≤ y ∧ y < 1073741824) :
    (Surface.blitCenter self st (some d) x y w h a).2.commands = st.commands ++
      [DrawCmd.copy st.target (if a ≠ -1 then ⟨t.id, toUint8 a⟩ else t)
        (some ⟨0, 0, toUint16 (if w ≠ 0 then w else self.w),
          toUint16 (if h ≠ 0 then h else self.h)⟩)
        (some ⟨x - (if w ≠ 0 then min self.w w else self.w) / 2,
          y - (if h ≠ 0 then min self.h h else self.h) / 2,
          toUint16 (if w ≠ 0 then w else self.w),
          toUint16 (if h ≠ 0 then h else self.h)⟩)] ∧
    (w ≤ self.w → self.w < 65536 →
      (if w ≠ 0 then min self.w w else self.w) = toUint16 (if w ≠ 0 then w else self.w)) ∧
    (h ≤ self.h → self.h < 65536 →
      (if h ≠ 0 then min self.h h else self.h) = toUint16 (if h ≠ 0 then h else self.h)) := by
  have he : ¬ ((some d : Option Texture) = none ∨ a = 0) := by simp [ha]
  have hox : wrapInt (x - (if w ≠ 0 then min (Int.tdiv self.w 2) (Int.tdiv w 2)
      else Int.tdiv self.w 2)) = x - (if w ≠ 0 then min self.w w else self.w) / 2 := by
    rw [tdiv_two _ hW.1, tdiv_two _ hw.1]
    unfold wrapInt
    split_ifs <;> omega
  have hoy : wrapInt (y - (if h ≠ 0 then min (Int.tdiv self.h 2) (Int.tdiv h 2)
      else Int.tdiv self.h 2)) = y - (if h ≠ 0 then min self.h h else self.h) / 2 := by
    rw [tdiv_two _ hH.1, tdiv_two _ hh.1]
    unfold wrapInt
    split_ifs <;> omega
  refine ⟨?_, ?_, ?_⟩
  · simp only [Surface.blitCenter, Surface.blit, if_neg he, hox, hoy, ht]
    by_cases h1 : a = -1
    · simp [h1, SDL_RenderCopy]
    · simp [h1, SDL_RenderCopy, SDL_SetTextureAlphaMod]
  · intro hle h16
    unfold toUint16
    split_ifs <;> omega
  · intro hle h16
    unfold toUint16
    split_ifs <;> omega

/-- C16, amended: for every source of size W x H with 0 <= W, H < 65536, every
point (x, y) with coordinates below 2^30 in absolute value and every optional
bound (w, h) that does not exceed the source (0 <= w <= W, 0 <= h <= H),
`blitCenter` makes `blit` draw the rectangle of width dw = w (W for w == 0) and
height dh = h (H for h == 0) with its left edge at x - floor(dw/2) and its top
edge at y - floor(dh/2): the source clamped to the bound, centred on (x, y). -/
theorem blitCenter_centred (self : Surface) (st : Renderer) (d t : Texture)
    (x y w h a : Int) (ht : self.texture = some t) (ha : a ≠ 0)
    (hW : 0 ≤ self.w ∧ self.w < 65536) (hH : 0 ≤ self.h ∧ self.h < 65536)
    (hw : 0 ≤ w ∧ w ≤ self.w) (hh : 0 ≤ h ∧ h ≤ self.h)
    (hx : -1073741824 ≤ x ∧ x < 1073741824) (hy : -1073741824 ≤ y ∧ y < 1073741824) :
    (Surface.blitCenter self st (some d) x y w h a).2.commands = st.commands ++
      [DrawCmd.copy st.target (if a ≠ -1 then ⟨t.id, toUint8 a⟩ else t)
        (some ⟨0, 0, if w ≠ 0 then w else self.w, if h ≠ 0 then h else self.h⟩)
        (some ⟨x - (if w ≠ 0 then w else self.w) / 2, y - (if h ≠ 0 then h else self.h) / 2,
          if w ≠ 0 then w else self.w, if h ≠ 0 then h else self.h⟩)] := by
  obtain ⟨hc, hmw, hmh⟩ := blitCenter_commands self st d t x y w h a ht ha
    ⟨hW.1, by omega⟩ ⟨hH.1, by omega⟩ ⟨hw.1, by omega⟩ ⟨hh.1, by omega⟩ hx hy
  have hmw1 := hmw hw.2 hW.2
  have hmh1 := hmh hh.2 hH.2
  have hdw : toUint16 (if w ≠ 0 then w else self.w) = if w ≠ 0 then w else self.w := by
    unfold toUint16
    split_ifs <;> omega
  have hdh : toUint16 (if h ≠ 0 then h else self.h) = if h ≠ 0 then h else self.h := by
    unfold toUint16
    split_ifs <;> omega
  rw [hc, hmw1, hmh1, hdw, hdh]

/-- A 10 x 10 source centred on (100, 100) within the bound 6 x 0. -/
theorem blitCenter_centred_witness :
    (Surface.blitCenter ⟨some ⟨7, 255⟩, 10, 10⟩
      ⟨⟨0, 0, 0, 0⟩, BlendMode.SDL_BLENDMODE_NONE, none, none, []⟩
      (some ⟨1, 255⟩) 100 100 6 0 (-1)).2.commands =
      [DrawCmd.copy none ⟨7, 255⟩ (some ⟨0, 0, 6, 10⟩) (some ⟨97, 95, 6, 10⟩)] :=
  blitCenter_centred ⟨some ⟨7, 255⟩, 10, 10⟩
      ⟨⟨0, 0, 0, 0⟩, BlendMode.SDL_BLENDMODE_NONE, none, none, []⟩
      ⟨1, 255⟩ ⟨7, 255⟩ 100 100 6 0 (-1) rfl (by decide) (by decide) (by decide)
      (by decide) (by decide) (by decide) (by decide)

/-- C17, counterexample: a source 10 wide blitted right-aligned at x = 100 with
the bound w = 20 is drawn from 90, 20 wide, so its right edge is at 110. And a
source 70000 wide is drawn from 100 - 70000, 4464 wide (the width as a
`Uint16`), so its right edge is at -65436. -/
theorem blitRight_wide_bound :
    (Surface.blitRight ⟨some ⟨7, 255⟩, 10, 10⟩
      ⟨⟨0, 0, 0, 0⟩, BlendMode.SDL_BLENDMODE_NONE, none, none, []⟩
      (some ⟨1, 255⟩) 100 50 20 0 (-1)).2.commands =
      [DrawCmd.copy none ⟨7, 255⟩ (some ⟨0, 0, 20, 10⟩) (some ⟨90, 50, 20, 10⟩)] ∧
    (90 : Int) + 20 ≠ 100 ∧
    (Surface.blitRight ⟨some ⟨7, 255⟩, 70000, 10⟩
      ⟨⟨0, 0, 0, 0⟩, BlendMode.SDL_BLENDMODE_NONE, none, none, []⟩
      (some ⟨1, 255⟩) 100 50 0 0 (-1)).2.commands =
      [DrawCmd.copy none ⟨7, 255⟩ (some ⟨0, 0, 4464, 10⟩) (some ⟨-69900, 50, 4464, 10⟩)] ∧
    (-69900 : Int) + 4464 ≠ 100 := by
  decide

/-- What `blitRight` draws, for a source of width W below 2^30, a bound w that
is a non-negative `int` and an x below 2^30 in absolute value: the left edge is
x - W for w == 0 and x - min(W, w) otherwise, and the width drawn is w (W for
w == 0) reduced to 16 bits. -/
theorem blitRight_commands (self : Surface) (st : Renderer) (d t : Texture)
    (x y w h a : Int) (ht : self.texture = some t) (ha : a ≠ 0)
    (hW : 0 ≤ self.w ∧ self.w < 1073741824) (hw : 0 ≤ w ∧ w < 2147483648)
    (hx : -1073741824 ≤ x ∧ x < 1073741824) :
    (Surface.blitRight self st (some d) x y w h a).2.commands = st.commands ++
      [DrawCmd.copy st.target (if a ≠ -1 then ⟨t.id, toUint8 a⟩ else t)
        (some ⟨0, 0, toUint16 (if w ≠ 0 then w else self.w),
          toUint16 (if h ≠ 0 then h else self.h)⟩)
        (some ⟨x - (if w ≠ 0 then min self.w w else self.w), y,
          toUint16 (if w ≠ 0 then w else self.w),
          toUint16 (if h ≠ 0 then h else self.h)⟩)] ∧
    (w ≤ self.w → self.w < 65536 →
      (x - (if w ≠ 0 then min self.w w else self.w)) +
        toUint16 (if w ≠ 0 then w else self.w) = x) := by
  have he : ¬ ((some d : Option Texture) = none ∨ a = 0) := by simp [ha]
  have hox : wrapInt (x - min self.w (if w = 0 then self.w else w)) =
      x - (if w ≠ 0 then min self.w w else self.w) := by
    by_cases h0 : w = 0
    · simp only [h0, if_true, ne_eq, not_true_eq_false, if_false, min_self]
      unfold wrapInt
      omega
    · simp only [h0, if_false, ne_eq, not_false_eq_true, if_true]
      unfold wrapInt
      omega
  have hdw : toUint16 (if (if w = 0 then self.w else w) ≠ 0 then (if w = 0 then self.w else w)
      else self.w) = toUint16 (if w ≠ 0 then w else self.w) := by
    by_cases h0 : w = 0
    · simp [h0]
    · simp [h0]
  refine ⟨?_, ?_⟩
  · simp only [Surface.blitRight, Surface.blit, if_neg he, hox, hdw, ht]
    by_cases h1 : a = -1
    · simp [h1, SDL_RenderCopy]
    · simp [h1, SDL_RenderCopy, SDL_SetTextureAlphaMod]
  · intro hle h16
    unfold toUint16
    split_ifs <;> omega

/-- C17, amended: for every source width W with 0 <= W < 65536, every x below
2^30 in absolute value and every optional bound w that does not exceed the
source (0 <= w <= W), `blitRight` right-aligns the rectangle drawn at x: `blit`
issues one copy whose destination rectangle has the width dw = w (W for
w == 0) and the left edge x - dw, so dest.x + dest.w == x. -/
theorem blitRight_aligned (self : Surface) (st : Renderer) (d t : Texture)
    (x y w h a : Int) (ht : self.texture = some t) (ha : a ≠ 0)
    (hW : 0 ≤ self.w ∧ self.w < 65536) (hw : 0 ≤ w ∧ w ≤ self.w)
    (hx : -1073741824 ≤ x ∧ x < 1073741824) :
    (Surface.blitRight self st (some d) x y w h a).2.commands = st.commands ++
      [DrawCmd.copy st.target (if a ≠ -1 then ⟨t.id, toUint8 a⟩ else t)
        (some ⟨0, 0, if w ≠ 0 then w else self.w, toUint16 (if h ≠ 0 then h else self.h)⟩)
        (some ⟨x - (if w ≠ 0 then w else self.w), y, if w ≠ 0 then w else self.w,
          toUint16 (if h ≠ 0 then h else self.h)⟩)] ∧
    (x - (if w ≠ 0 then w else self.w)) + (if w ≠ 0 then w else self.w) = x := by
  obtain ⟨hc, _⟩ := blitRight_commands self st d t x y w h a ht ha
    ⟨hW.1, by omega⟩ ⟨hw.1, by omega⟩ hx
  have hdw : toUint16 (if w ≠ 0 then w else self.w) = if w ≠ 0 then w else self.w := by
    unfold toUint16
    split_ifs <;> omega
  have hmin : (if w ≠ 0 then min self.w w else self.w) = if w ≠ 0 then w else self.w := by
    split_ifs <;> omega
  rw [hc, hdw, hmin]
  exact ⟨rfl, by omega⟩

/-- A source 10 wide right-aligned at x = 100 within the bound 6. -/
theorem blitRight_aligned_witness :
    (Surface.blitRight ⟨some ⟨7, 255⟩, 10, 10⟩
      ⟨⟨0, 0, 0, 0⟩, BlendMode.SDL_BLENDMODE_NONE, none, none, []⟩
      (some ⟨1, 255⟩) 100 50 6 0 (-1)).2.commands =
      [DrawCmd.copy none ⟨7, 255⟩ (some ⟨0, 0, 6, 10⟩) (some ⟨94, 50, 6, 10⟩)] :=
  (blitRight_aligned ⟨some ⟨7, 255⟩, 10, 10⟩
      ⟨⟨0, 0, 0, 0⟩, BlendMode.SDL_BLENDMODE_NONE, none, none, []⟩
      ⟨1, 255⟩ ⟨7, 255⟩ 100 50 6 0 (-1) rfl (by decide) (by decide) (by decide)
      (by decide)).1

/-! ### Display modes -/

/-- C18: `OutputSurface::resolutionSupported(w, h)` returns true iff a closest
display mode exists, has width >= w and height >= h, and is not strictly greater
in both dimensions; equivalently, iff the mode matches the request exactly in
one dimension and is not smaller in the other. -/
theorem resolutionSupported_iff (closest : Option SDL_DisplayMode) (width height : Int) :
    (OutputSurface.resolutionSupported closest width height = true ↔
      ∃ mode, closest = some mode ∧ mode.w ≥ width ∧ mode.h ≥ height ∧
        ¬ (mode.w > width ∧ mode.h > height)) ∧
    (OutputSurface.resolutionSupported closest width height = true ↔
      ∃ mode, closest = some mode ∧
        ((mode.w = width ∧ mode.h ≥ height) ∨ (mode.h = height ∧ mode.w ≥ width))) := by
  cases closest with
  | none => simp [OutputSurface.resolutionSupported]
  | some mode =>
    simp only [OutputSurface.resolutionSupported, Option.some.injEq, exists_eq_left']
    constructor
    · split_ifs <;> simp <;> omega
    · split_ifs <;> simp <;> omega

/-! ### Loading images -/

/-- C19, counterexample: a 64 x 64 image requested at 32 x 32, when the texture
for the stretched copy cannot be created, is returned as a 64 x 64 surface. -/
theorem loadImage_keeps_decoded_size :
    (OffscreenSurface.loadImage ⟨some (64, 64), some ⟨3, 255⟩, none⟩
      ⟨⟨0, 0, 0, 0⟩, BlendMode.SDL_BLENDMODE_NONE, none, none, []⟩ 32 32).1 =
      some ⟨some ⟨3, 255⟩, 64, 64⟩ ∧
    (64 : Int) ≠ 32 := by
  decide

/-- The surface that `loadImage` returns once the image is decoded and
uploaded. -/
theorem loadImage_present (env : ImageEnv) (st : Renderer) (width height : Nat)
    (texW texH : Int) (t : Texture) (hraw : env.raw = some (texW, texH))
    (htex : env.texture = some t) :
    (OffscreenSurface.loadImage env st width height).1 =
      if (width ≠ 0 ∧ toUint32 texW ≠ width) ∨ (height ≠ 0 ∧ toUint32 texH ≠ height) then
        match SDL_CreateTexture env.stretched
            (wrapInt (if width ≠ 0 then (width : Int) else toUint32 texW))
            (wrapInt (if height ≠ 0 then (height : Int) else toUint32 texH)) with
        | some stretched =>
          some ⟨some stretched, wrapInt (if width ≠ 0 then (width : Int) else toUint32 texW),
            wrapInt (if height ≠ 0 then (height : Int) else toUint32 texH)⟩
        | none => some ⟨some t, texW, texH⟩
      else some ⟨some t, texW, texH⟩ := by
  simp only [OffscreenSurface.loadImage, hraw, htex]
  split
  · split <;> rfl
  · rfl

/-- C19, amended: a decode failure or a failure of the texture upload yields an
absent result. Otherwise `loadImage` returns a surface; a requested dimension
of 0 keeps the decoded dimension; and a non-zero requested width (height) is
the width (height) of the surface when the decoded size already matches the
request or the texture of the stretched copy is created (which takes a
requested size below 2^31). When a stretched copy is needed and its texture is
not created, the surface returned is the decoded image at its decoded size. -/
theorem loadImage_size (env : ImageEnv) (st : Renderer) (width height : Nat)
    (hwidth : width < 4294967296) (hheight : height < 4294967296) :
    ((env.raw = none ∨ env.texture = none) →
      (OffscreenSurface.loadImage env st width height).1 = none) ∧
    (∀ texW texH t, env.raw = some (texW, texH) → env.texture = some t →
      0 < texW → texW < 2147483648 → 0 < texH → texH < 2147483648 →
      ∃ s, (OffscreenSurface.loadImage env st width height).1 = some s ∧
        (width = 0 → s.w = texW) ∧ (height = 0 → s.h = texH) ∧
        (¬ ((width ≠ 0 ∧ texW ≠ width) ∨ (height ≠ 0 ∧ texH ≠ height)) →
          s = ⟨some t, texW, texH⟩ ∧
          (width ≠ 0 → s.w = width) ∧ (height ≠ 0 → s.h = height)) ∧
        (∀ t2, env.stretched = some t2 → width < 2147483648 → height < 2147483648 →
          (width ≠ 0 → s.w = width) ∧ (height ≠ 0 → s.h = height)) ∧
        (((width ≠ 0 ∧ texW ≠ width) ∨ (height ≠ 0 ∧ texH ≠ height)) →
          env.stretched = none → s = ⟨some t, texW, texH⟩)) := by
  constructor
  · intro h
    rcases h with h | h
    · simp [OffscreenSurface.loadImage, h]
    · cases hr : env.raw with
      | none => simp [OffscreenSurface.loadImage, hr]
      | some p => simp [OffscreenSurface.loadImage, hr, h]
  · intro texW texH t hraw htex hw0 hw1 hh0 hh1
    have huW : toUint32 texW = texW := by unfold toUint32; omega
    have huH : toUint32 texH = texH := by unfold toUint32; omega
    have hload := loadImage_present env st width height texW texH t hraw htex
    rw [huW, huH] at hload
    by_cases hneed : (width ≠ 0 ∧ texW ≠ width) ∨ (height ≠ 0 ∧ texH ≠ height)
    · rw [if_pos hneed] at hload
      by_cases hdim : wrapInt (if width ≠ 0 then (width : Int) else texW) ≤ 0 ∨
          wrapInt (if height ≠ 0 then (height : Int) else texH) ≤ 0
      · have hst : SDL_CreateTexture env.stretched
            (wrapInt (if width ≠ 0 then (width : Int) else texW))
            (wrapInt (if height ≠ 0 then (height : Int) else texH)) = none := by
          simp only [SDL_CreateTexture, hdim, if_true]
        rw [hst] at hload
        refine ⟨⟨some t, texW, texH⟩, hload, ?_, ?_, ?_, ?_, ?_⟩
        · intro _; rfl
        · intro _; rfl
        · intro hn; exact absurd hneed hn
        · intro t2 _ hwlt hhlt
          exfalso
          unfold wrapInt at hdim
          split_ifs at hdim <;> omega
        · intro _ _; rfl
      · have hst : SDL_CreateTexture env.stretched
            (wrapInt (if width ≠ 0 then (width : Int) else texW))
            (wrapInt (if height ≠ 0 then (height : Int) else texH)) = env.stretched := by
          simp only [SDL_CreateTexture, hdim, if_false]
        rw [hst] at hload
        cases hs : env.stretched with
        | none =>
          rw [hs] at hload
          refine ⟨⟨some t, texW, texH⟩, hload, ?_, ?_, ?_, ?_, ?_⟩
          · intro _; rfl
          · intro _; rfl
          · intro hn; exact absurd hneed hn
          · intro t2 ht2; cases ht2
          · intro _ _; rfl
        | some t2 =>
          rw [hs] at hload
          refine ⟨_, hload, ?_, ?_, ?_, ?_, ?_⟩
          · intro h0
            simp only [h0, ne_eq, not_true_eq_false, if_false]
            unfold wrapInt; omega
          · intro h0
            simp only [h0, ne_eq, not_true_eq_false, if_false]
            unfold wrapInt; omega
          · intro hn; exact absurd hneed hn
          · intro _ _ hwlt hhlt
            constructor
            · intro h0
              simp only [h0, ne_eq, not_false_eq_true, if_true]
              unfold wrapInt; omega
            · intro h0
              simp only [h0, ne_eq, not_false_eq_true, if_true]
              unfold wrapInt; omega
          · intro _ hnone; cases hnone
    · rw [if_neg hneed] at hload
      have hsz : (width ≠ 0 → texW = width) ∧ (height ≠ 0 → texH = height) := by
        constructor
        · intro h0
          by_contra hne
          exact hneed (Or.inl ⟨h0, hne⟩)
        · intro h0
          by_contra hne
          exact hneed (Or.inr ⟨h0, hne⟩)
      refine ⟨⟨some t, texW, texH⟩, hload, ?_, ?_, ?_, ?_, ?_⟩
      · intro _; rfl
      · intro _; rfl
      · intro _; exact ⟨rfl, hsz.1, hsz.2⟩
      · intro _ _ _ _; exact ⟨hsz.1, hsz.2⟩
      · intro hn; exact absurd hn hneed

/-- A 64 x 64 image requested at 32 x 0 with the stretched texture created: the
surface is 32 x 64; and an image that cannot be decoded gives no surface. -/
theorem loadImage_size_witness :
    (OffscreenSurface.loadImage ⟨some (64, 64), some ⟨3, 255⟩, some ⟨4, 255⟩⟩
      ⟨⟨0, 0, 0, 0⟩, BlendMode.SDL_BLENDMODE_NONE, none, none, []⟩ 32 0).1 =
      some ⟨some ⟨4, 255⟩, 32, 64⟩ ∧
    (OffscreenSurface.loadImage ⟨none, some ⟨3, 255⟩, some ⟨4, 255⟩⟩
      ⟨⟨0, 0, 0, 0⟩, BlendMode.SDL_BLENDMODE_NONE, none, none, []⟩ 32 0).1 = none :=
  ⟨by decide,
   (loadImage_size ⟨none, some ⟨3, 255⟩, some ⟨4, 255⟩⟩
      ⟨⟨0, 0, 0, 0⟩, BlendMode.SDL_BLENDMODE_NONE, none, none, []⟩ 32 0
      (by decide) (by decide)).1 (Or.inl rfl)⟩

/-! ### Battery level -/

/-- C20, the code at the failing inputs: without a `capacity` file, equal
`voltage_max_design` and `voltage_min_design` make `getBatteryLevel` divide by
zero, and a `voltage_now` above `voltage_max_design` makes it return a number
above 6 (here 10); both for an `unsigned long` of 32 and of 64 bits. With no
file at all the defaults give 6. -/
theorem getBatteryLevel_out_of_contract :
    Battery.getBatteryLevel 64
      ⟨none, none, none, some 3700000, some 3700000, some 3800000⟩ =
      .error Fault.divisionByZero ∧
    Battery.getBatteryLevel 32
      ⟨none, none, none, some 3700000, some 3700000, some 3800000⟩ =
      .error Fault.divisionByZero ∧
    Battery.getBatteryLevel 64
      ⟨none, none, none, some 4200000, some 3000000, some 5000000⟩ = .ok 10 ∧
    Battery.getBatteryLevel 32
      ⟨none, none, none, some 4200000, some 3000000, some 5000000⟩ = .ok 10 ∧
    Battery.getBatteryLevel 64 ⟨none, none, none, none, none, none⟩ = .ok 6 := by
  decide

/-! ### The five copies of a line of text -/

/-- C21, counterexample: for x = 40000 (Left, Top, width 17) the first black
copy is issued at x = -25536, the `Sint16` of 40000, while the other four copies
are issued at 40000, 39999 and 40001. -/
theorem writeLine_first_copy_truncated :
    (Font.writeLine ⟨12⟩ ⟨some (17, 12), some ⟨5, 255⟩, some (17, 12), some ⟨6, 255⟩⟩
      ⟨some ⟨1, 255⟩, 320, 240⟩
      ⟨⟨0, 0, 0, 0⟩, BlendMode.SDL_BLENDMODE_NONE, none, none, []⟩
      [97] 40000 50 HAlign.HAlignLeft VAlign.VAlignTop).st.commands =
      [DrawCmd.copy (some 1) ⟨5, 255⟩ none (some ⟨-25536, 49, 17, 12⟩),
       DrawCmd.copy (some 1) ⟨5, 255⟩ none (some ⟨40000, 51, 17, 12⟩),
       DrawCmd.copy (some 1) ⟨5, 255⟩ none (some ⟨39999, 50, 17, 12⟩),
       DrawCmd.copy (some 1) ⟨5, 255⟩ none (some ⟨40001, 50, 17, 12⟩),
       DrawCmd.copy (some 1) ⟨6, 255⟩ none (some ⟨40000, 50, 17, 12⟩)] ∧
    specLineX 17 40000 HAlign.HAlignLeft = 40000 ∧ (-25536 : Int) ≠ 40000 := by
  decide

/-- C21, amended: for every non-empty text, every alignment and every x and y
for which the aligned position (x', y') has x' and y' - 1 within -32768..32767,
a fully successful `writeLine` issues exactly five copies onto the drawable, in
this order: the black rasterization at (x', y'-1), (x', y'+1), (x'-1, y') and
(x'+1, y'), then the white rasterization at (x', y'); where y' is y for Top,
y - lineSpacing/2 for Middle, y - lineSpacing for Bottom, and x' is x for Left,
x - W/2 for Center, x - W for Right, W being the measured width. -/
theorem writeLine_five_copies (font : Font) (env : TextEnv) (surface : Surface)
    (st : Renderer) (text : List Nat) (x y : Int) (halign : HAlign) (valign : VAlign)
    (W H : Int) (t t2 : Texture) (s2 : Int × Int)
    (htext : text ≠ []) (hblack : env.black = some (W, H))
    (hup : env.blackTexture = some t) (hwhite : env.white = some s2)
    (hup2 : env.whiteTexture = some t2)
    (hx : -32768 ≤ specLineX W x halign ∧ specLineX W x halign ≤ 32767)
    (hy : -32768 ≤ specLineY font.lineSpacing y valign - 1 ∧
      specLineY font.lineSpacing y valign - 1 ≤ 32767) :
    (Font.writeLine font env surface st text x y halign valign).ret = W ∧
    (Font.writeLine font env surface st text x y halign valign).st.commands =
      st.commands ++
        [DrawCmd.copy (surface.texture.map Texture.id) t none
           (some ⟨specLineX W x halign, specLineY font.lineSpacing y valign - 1,
             toUint16 W, toUint16 H⟩),
         DrawCmd.copy (surface.texture.map Texture.id) t none
           (some ⟨specLineX W x halign, specLineY font.lineSpacing y valign + 1,
             toUint16 W, toUint16 H⟩),
         DrawCmd.copy (surface.texture.map Texture.id) t none
           (some ⟨specLineX W x halign - 1, specLineY font.lineSpacing y valign,
             toUint16 W, toUint16 H⟩),
         DrawCmd.copy (surface.texture.map Texture.id) t none
           (some ⟨specLineX W x halign + 1, specLineY font.lineSpacing y valign,
             toUint16 W, toUint16 H⟩),
         DrawCmd.copy (surface.texture.map Texture.id) t2 none
           (some ⟨specLineX W x halign, specLineY font.lineSpacing y valign,
             toUint16 W, toUint16 H⟩)] := by
  have hX : Font.lineX W x halign = specLineX W x halign := by
    cases halign <;> simp only [Font.lineX, specLineX] at hx ⊢ <;> unfold wrapInt <;> omega
  have hY : Font.lineY font y valign = specLineY font.lineSpacing y valign := by
    cases valign <;> simp only [Font.lineY, specLineY] at hy ⊢ <;> unfold wrapInt <;> omega
  constructor
  · simp only [Font.writeLine, htext, if_false, hblack, hup, hwhite, hup2]
  · rw [writeLine_commands font env surface st text x y halign valign W H t htext hblack hup,
      hX, hY]
    simp only [hwhite, hup2, Font.blackCopies, Font.whiteCopy, List.append_assoc,
      List.cons_append, List.nil_append, List.append_cancel_left_eq, List.cons.injEq,
      DrawCmd.copy.injEq, Option.some.injEq, SDL_Rect.mk.injEq, and_true, true_and]
    generalize specLineX W x halign = X at hx
    generalize specLineY font.lineSpacing y valign = Y at hy
    unfold toSint16 wrapInt
    refine ⟨⟨?_, ?_⟩, ?_, ?_, ?_⟩ <;> omega

/-- The text "a", 17 wide, centred on x = 100 and bottom-aligned at y = 50 with
line spacing 12: the copies are at (92, 37), (92, 39), (91, 38), (93, 38) and
(92, 38). -/
theorem writeLine_five_copies_witness :
    (Font.writeLine ⟨12⟩ ⟨some (17, 12), some ⟨5, 255⟩, some (17, 12), some ⟨6, 255⟩⟩
      ⟨some ⟨1, 255⟩, 320, 240⟩
      ⟨⟨0, 0, 0, 0⟩, BlendMode.SDL_BLENDMODE_NONE, none, none, []⟩
      [97] 100 50 HAlign.HAlignCenter VAlign.VAlignBottom).st.commands =
      [DrawCmd.copy (some 1) ⟨5, 255⟩ none (some ⟨92, 37, 17, 12⟩),
       DrawCmd.copy (some 1) ⟨5, 255⟩ none (some ⟨92, 39, 17, 12⟩),
       DrawCmd.copy (some 1) ⟨5, 255⟩ none (some ⟨91, 38, 17, 12⟩),
       DrawCmd.copy (some 1) ⟨5, 255⟩ none (some ⟨93, 38, 17, 12⟩),
       DrawCmd.copy (some 1) ⟨6, 255⟩ none (some ⟨92, 38, 17, 12⟩)] :=
  (writeLine_five_copies ⟨12⟩
      ⟨some (17, 12), some ⟨5, 255⟩, some (17, 12), some ⟨6, 255⟩⟩
      ⟨some ⟨1, 255⟩, 320, 240⟩
      ⟨⟨0, 0, 0, 0⟩, BlendMode.SDL_BLENDMODE_NONE, none, none, []⟩
      [97] 100 50 HAlign.HAlignCenter VAlign.VAlignBottom 17 12 ⟨5, 255⟩ ⟨6, 255⟩ (17, 12)
      (by decide) rfl rfl rfl rfl (by decide) (by decide)).2

/-! ### Animation and the wait for input -/

theorem runAnimationsLoop_spec (ls : List Layer) :
    ∀ (animating : Bool) (called : List Layer),
      runAnimationsLoop ls animating called =
        (animating || ls.any (fun l => l.runAnimations), called ++ ls) := by
  induction ls with
  | nil => intro animating called; simp [runAnimationsLoop]
  | cons l rest ih =>
    intro animating called
    simp only [runAnimationsLoop, ih, List.any_cons, List.append_assoc, List.singleton_append,
      Bool.or_assoc]

/-- A blocking wait ends only with an event, after as many calls as there are
answers up to and including it. -/
theorem awaitInput_blocking (answers : List (Option Button)) :
    ∀ (ev : Option Button) (n : Nat), awaitInput true answers = some (ev, n) →
      ∃ b tail, ev = some b ∧ answers = List.replicate (n - 1) none ++ some b :: tail ∧
        1 ≤ n := by
  induction answers with
  | nil => intro ev n h; simp [awaitInput] at h
  | cons r rest ih =>
    intro ev n h
    cases r with
    | some b =>
      simp only [awaitInput, Option.some.injEq, Prod.mk.injEq] at h
      obtain ⟨h1, h2⟩ := h
      subst h1 h2
      exact ⟨b, rest, rfl, by simp, le_refl _⟩
    | none =>
      simp only [awaitInput, if_true] at h
      cases hr : awaitInput true rest with
      | none => simp [hr] at h
      | some p =>
        obtain ⟨e1, n1⟩ := p
        simp only [hr, Option.some.injEq, Prod.mk.injEq] at h
        obtain ⟨h1, h2⟩ := h
        subst h1 h2
        obtain ⟨b, tail, hb, hrest, hn⟩ := ih e1 n1 hr
        refine ⟨b, tail, hb, ?_, by omega⟩
        have hk : n1 + 1 - 1 = (n1 - 1) + 1 := by omega
        rw [hk, List.replicate_succ, List.cons_append, ← hrest]

theorem awaitInput_none_step (wait : Bool) (rest : List (Option Button)) :
    awaitInput wait (none :: rest) =
      if wait then
        match awaitInput wait rest with
        | some r => some (r.1, r.2 + 1)
        | none => none
      else some (none, 1) := by
  simp only [awaitInput]

/-- A blocking wait ends when an event arrives. -/
theorem awaitInput_blocking_ends (k : Nat) (b : Button) (tail : List (Option Button)) :
    awaitInput true (List.replicate k none ++ some b :: tail) = some (some b, k + 1) := by
  induction k with
  | zero => simp [awaitInput]
  | succ k ih =>
    rw [List.replicate_succ, List.cons_append, awaitInput_none_step, if_pos rfl, ih]

/-- The frame that reaches the input step, in terms of the outcome of the wait. -/
theorem mainLoopFrame_input (layers : List Layer) (answers : List (Option Button)) :
    mainLoopFrame layers false answers =
      (awaitInput
        (!(layers.filter (fun l => decide (l.getStatus ≠ Status.DISMISSED))).any
          (fun l => l.runAnimations)) answers).map
        (fun p =>
          Frame.mk (layers.filter (fun l => decide (l.getStatus ≠ Status.DISMISSED)))
            (layers.filter (fun l => decide (l.getStatus ≠ Status.DISMISSED)))
            ((layers.filter (fun l => decide (l.getStatus ≠ Status.DISMISSED))).any
              (fun l => l.runAnimations))
            (layers.filter (fun l => decide (l.getStatus ≠ Status.DISMISSED)))
            p.2
            (!(layers.filter (fun l => decide (l.getStatus ≠ Status.DISMISSED))).any
              (fun l => l.runAnimations))
            p.1
            (match p.1 with
             | none => []
             | some button =>
               (dispatch (layers.filter (fun l => decide (l.getStatus ≠ Status.DISMISSED)))
                 button).2)
            (match p.1 with
             | none => false
             | some button =>
               (dispatch (layers.filter (fun l => decide (l.getStatus ≠ Status.DISMISSED)))
                 button).1)) := by
  simp only [mainLoopFrame, prune_eq_filter, runAnimationsLoop_spec, Bool.false_or,
    List.nil_append, Bool.false_eq_true, if_false]
  cases awaitInput
      (!(layers.filter (fun l => decide (l.getStatus ≠ Status.DISMISSED))).any
        (fun l => l.runAnimations)) answers with
  | none => rfl
  | some p =>
    obtain ⟨ev, n⟩ := p
    cases ev <;> rfl

/-- C22: in every frame, also one that ends because something is to be
launched, the animation tick of every surviving layer is called exactly once,
in stack order, whatever the earlier ticks returned; in a frame that reaches
the input step `animating` is the disjunction of the results. The
input is waited for with blocking iff all ticks returned false, and then the
calls of `getButton` go on until one yields an event, which is the event of the
frame. If a tick returned true, `getButton` is called exactly once without
blocking, and when that call yields no event no input handler is called and the
loop goes on. -/
theorem frame_animation_and_wait (layers : List Layer) (answers : List (Option Button)) :
    (∀ f, mainLoopFrame layers false answers = some f →
      f.layers = layers.filter (fun l => decide (l.getStatus ≠ Status.DISMISSED)) ∧
      f.animated = f.layers ∧
      f.animating = f.layers.any (fun l => l.runAnimations) ∧
      (f.wait = true ↔ ∀ l ∈ f.layers, l.runAnimations = false) ∧
      (f.wait = true → ∃ b tail, f.event = some b ∧
        answers = List.replicate (f.getButtonCalls - 1) none ++ some b :: tail ∧
        1 ≤ f.getButtonCalls) ∧
      (f.wait = false → f.getButtonCalls = 1 ∧ f.event = answers.head?.join ∧
        (f.event = none → f.handled = [] ∧ f.leaves = false))) ∧
    (∀ k b tail, answers = List.replicate k none ++ some b :: tail →
      ∃ f, mainLoopFrame layers false answers = some f) ∧
    (∀ r tail, answers = r :: tail →
      (∃ l ∈ layers, l.getStatus ≠ Status.DISMISSED ∧ l.runAnimations = true) →
      ∃ f, mainLoopFrame layers false answers = some f ∧ f.wait = false ∧
        f.getButtonCalls = 1 ∧ f.event = r) ∧
    (∃ f, mainLoopFrame layers true answers = some f ∧
      f.layers = layers.filter (fun l => decide (l.getStatus ≠ Status.DISMISSED)) ∧
      f.animated = f.layers ∧ f.getButtonCalls = 0 ∧ f.handled = [] ∧ f.leaves = true) := by
  have hlaunch : ∃ f, mainLoopFrame layers true answers = some f ∧
      f.layers = layers.filter (fun l => decide (l.getStatus ≠ Status.DISMISSED)) ∧
      f.animated = f.layers ∧ f.getButtonCalls = 0 ∧ f.handled = [] ∧ f.leaves = true := by
    simp only [mainLoopFrame, prune_eq_filter, runAnimationsLoop_spec, List.nil_append,
      if_true]
    exact ⟨_, rfl, rfl, rfl, rfl, rfl, rfl⟩
  rw [mainLoopFrame_input]
  refine ⟨?_, ?_, ?_, hlaunch⟩
  · generalize layers.filter (fun l => decide (l.getStatus ≠ Status.DISMISSED)) = L
    intro f hf
    cases hw : awaitInput (!L.any (fun l => l.runAnimations)) answers with
    | none => rw [hw] at hf; cases hf
    | some p =>
      obtain ⟨ev, n⟩ := p
      rw [hw] at hf
      simp only [Option.map_some', Option.some.injEq] at hf
      subst hf
      refine ⟨rfl, rfl, rfl, by simp, ?_, ?_⟩
      · intro hwait
        simp only at hwait
        rw [hwait] at hw
        exact awaitInput_blocking answers ev n hw
      · intro hwait
        simp only at hwait
        rw [hwait] at hw
        cases answers with
        | nil => simp [awaitInput] at hw
        | cons r tail =>
          cases r with
          | none =>
            rw [awaitInput_none_step] at hw
            simp only [Bool.false_eq_true, if_false, Option.some.injEq, Prod.mk.injEq] at hw
            obtain ⟨h1, h2⟩ := hw
            subst h1 h2
            exact ⟨rfl, rfl, fun _ => ⟨rfl, rfl⟩⟩
          | some b =>
            simp only [awaitInput, Option.some.injEq, Prod.mk.injEq] at hw
            obtain ⟨h1, h2⟩ := hw
            subst h1 h2
            exact ⟨rfl, rfl, fun h => by cases h⟩
  · generalize layers.filter (fun l => decide (l.getStatus ≠ Status.DISMISSED)) = L
    intro k b tail hans
    cases hany2 : L.any (fun l => l.runAnimations) with
    | false =>
      rw [hans]
      simp only [Bool.not_false, awaitInput_blocking_ends, Option.map_some']
      exact ⟨_, rfl⟩
    | true =>
      cases k with
      | zero =>
        rw [hans]
        simp only [Bool.not_true, List.replicate_zero, List.nil_append, awaitInput,
          Option.map_some']
        exact ⟨_, rfl⟩
      | succ k =>
        rw [hans, List.replicate_succ, List.cons_append, awaitInput_none_step]
        simp only [Bool.not_true, Bool.false_eq_true, if_false, Option.map_some']
        exact ⟨_, rfl⟩
  · intro r tail hans hex
    obtain ⟨l, hl, hs, ha⟩ := hex
    have hany2 : (layers.filter (fun l => decide (l.getStatus ≠ Status.DISMISSED))).any
        (fun l => l.runAnimations) = true := by
      rw [List.any_eq_true]
      exact ⟨l, List.mem_filter.mpr ⟨hl, by simpa using hs⟩, ha⟩
    rw [hany2, hans]
    cases r with
    | none =>
      rw [awaitInput_none_step]
      simp only [Bool.not_true, Bool.false_eq_true, if_false, Option.map_some']
      exact ⟨_, rfl, rfl, rfl, rfl⟩
    | some b =>
      simp only [Bool.not_true, awaitInput, Option.map_some']
      exact ⟨_, rfl, rfl, rfl, rfl⟩

/-! ### The choice of the resolution -/

/-- C23, counterexample: when every resolution of the list is supported but
`open` fails for 1280x720 (its texture cannot be created), the display is
opened at 800x480, a later entry than the first for which `resolutionSupported`
holds. -/
theorem selectResolution_passes_failed_open :
    OutputSurface.resolutionSupported
      ((fun w h => some ⟨w, h⟩ : Int → Int → Option SDL_DisplayMode) 1280 720) 1280 720
      = true ∧
    selectResolution (fun w h => some ⟨w, h⟩)
      (fun w _ => ⟨true, some ⟨⟨0, 0, 0, 0⟩, BlendMode.SDL_BLENDMODE_NONE, none, none, []⟩,
        none, if w = 1280 then none else some ⟨1, 255⟩⟩)
      supported_resolutions =
      ⟨some (⟨some ⟨1, 255⟩, 800, 480⟩,
          ⟨⟨0, 0, 0, 0⟩, BlendMode.SDL_BLENDMODE_NONE, none, some 1, []⟩),
        [(1280, 720), (800, 480)], [(1280, 720), (800, 480)]⟩ := by
  decide

/-- The loop passes over the entries that are not supported or cannot be opened
and stops at the first that is supported and opened. -/
theorem selectResolution_first (closest : Int → Int → Option SDL_DisplayMode)
    (env : Int → Int → OpenEnv) (pre : List (Nat × Nat)) (res : Nat × Nat)
    (post : List (Nat × Nat)) (s : Surface × Renderer)
    (hpre : ∀ r ∈ pre,
      OutputSurface.resolutionSupported (closest r.1 r.2) r.1 r.2 = false ∨
      OutputSurface.open (env r.1 r.2) r.1 r.2 = none)
    (hsup : OutputSurface.resolutionSupported (closest res.1 res.2) res.1 res.2 = true)
    (hopen : OutputSurface.open (env res.1 res.2) res.1 res.2 = some s) :
    selectResolution closest env (pre ++ res :: post) =
      ⟨some s, pre ++ [res],
        pre.filter (fun r => OutputSurface.resolutionSupported (closest r.1 r.2) r.1 r.2)
          ++ [res]⟩ := by
  induction pre with
  | nil => simp [selectResolution, hsup, hopen]
  | cons r rest ih =>
    have hr := hpre r (List.mem_cons_self _ _)
    have ih1 := ih (fun k hk => hpre k (List.mem_cons_of_mem _ hk))
    by_cases hs : OutputSurface.resolutionSupported (closest r.1 r.2) r.1 r.2 = true
    · have ho : OutputSurface.open (env r.1 r.2) r.1 r.2 = none := by
        rcases hr with hr | hr
        · rw [hr] at hs; cases hs
        · exact hr
      simp [selectResolution, hs, ho, ih1]
    · simp [selectResolution, hs, ih1]

/-- The loop opens nothing when no entry is both supported and opened. -/
theorem selectResolution_none (closest : Int → Int → Option SDL_DisplayMode)
    (env : Int → Int → OpenEnv) (l : List (Nat × Nat))
    (hl : ∀ r ∈ l,
      OutputSurface.resolutionSupported (closest r.1 r.2) r.1 r.2 = false ∨
      OutputSurface.open (env r.1 r.2) r.1 r.2 = none) :
    (selectResolution closest env l).s = none ∧
    (selectResolution closest env l).queried = l := by
  induction l with
  | nil => simp [selectResolution]
  | cons r rest ih =>
    have hr := hl r (List.mem_cons_self _ _)
    have ih1 := ih (fun k hk => hl k (List.mem_cons_of_mem _ hk))
    by_cases hs : OutputSurface.resolutionSupported (closest r.1 r.2) r.1 r.2 = true
    · have ho : OutputSurface.open (env r.1 r.2) r.1 r.2 = none := by
        rcases hr with hr | hr
        · rw [hr] at hs; cases hs
        · exact hr
      simp [selectResolution, hs, ho, ih1]
    · simp [selectResolution, hs, ih1]

/-- C23, amended: at startup the candidate resolutions are tried in the fixed
list order 1280x720, 800x480, 640x480, 480x272, 320x240, 240x160, and the
display is the one opened at the first entry for which `resolutionSupported`
holds and `OutputSurface::open` succeeds: the entries before it, each not
supported or not opened, are passed over in order, `open` being tried only on
the supported ones, and no later entry is used. When no entry is both supported
and opened, every entry is tried and no display is opened. -/
theorem selectResolution_first_opened (closest : Int → Int → Option SDL_DisplayMode)
    (env : Int → Int → OpenEnv) :
    supported_resolutions =
      [(1280, 720), (800, 480), (640, 480), (480, 272), (320, 240), (240, 160)] ∧
    (∀ pre res post s, supported_resolutions = pre ++ res :: post →
      (∀ r ∈ pre,
        OutputSurface.resolutionSupported (closest r.1 r.2) r.1 r.2 = false ∨
        OutputSurface.open (env r.1 r.2) r.1 r.2 = none) →
      OutputSurface.resolutionSupported (closest res.1 res.2) res.1 res.2 = true →
      OutputSurface.open (env res.1 res.2) res.1 res.2 = some s →
      selectResolution closest env supported_resolutions =
        ⟨some s, pre ++ [res],
          pre.filter (fun r => OutputSurface.resolutionSupported (closest r.1 r.2) r.1 r.2)
            ++ [res]⟩) ∧
    ((∀ r ∈ supported_resolutions,
        OutputSurface.resolutionSupported (closest r.1 r.2) r.1 r.2 = false ∨
        OutputSurface.open (env r.1 r.2) r.1 r.2 = none) →
      (selectResolution closest env supported_resolutions).s = none ∧
      (selectResolution closest env supported_resolutions).queried =
        supported_resolutions) := by
  refine ⟨rfl, ?_, ?_⟩
  · intro pre res post s hsplit hpre hsup hopen
    rw [hsplit]
    exact selectResolution_first closest env pre res post s hpre hsup hopen
  · intro hl
    exact selectResolution_none closest env supported_resolutions hl

/-- A display on which only 640x480 and smaller are supported: after 1280x720
and 800x480 are refused, 640x480 is opened and no later entry is tried. -/
theorem selectResolution_first_opened_witness :
    selectResolution
      (fun w h => if w ≤ 640 then some ⟨w, h⟩ else some ⟨640, 480⟩)
      (fun _ _ => ⟨true, some ⟨⟨0, 0, 0, 0⟩, BlendMode.SDL_BLENDMODE_NONE, none, none, []⟩,
        none, some ⟨1, 255⟩⟩)
      supported_resolutions =
      ⟨some (⟨some ⟨1, 255⟩, 640, 480⟩,
          ⟨⟨0, 0, 0, 0⟩, BlendMode.SDL_BLENDMODE_NONE, none, some 1, []⟩),
        [(1280, 720), (800, 480), (640, 480)], [(640, 480)]⟩ :=
  (selectResolution_first_opened
      (fun w h => if w ≤ 640 then some ⟨w, h⟩ else some ⟨640, 480⟩)
      (fun _ _ => ⟨true, some ⟨⟨0, 0, 0, 0⟩, BlendMode.SDL_BLENDMODE_NONE, none, none, []⟩,
        none, some ⟨1, 255⟩⟩)).2.1
    [(1280, 720), (800, 480)] (640, 480) [(480, 272), (320, 240), (240, 160)]
    (⟨some ⟨1, 255⟩, 640, 480⟩,
      ⟨⟨0, 0, 0, 0⟩, BlendMode.SDL_BLENDMODE_NONE, none, some 1, []⟩)
    rfl (by decide) (by decide) (by decide)

/-! ### Clipping as intersection -/

/-- One axis, when the far edges are values of `int` and the intervals overlap:
the result starts at the later start and ends at the nearer end. -/
theorem clipAxis_overlap (rx rw cx cw : Int) (hrw : 0 ≤ rw) (hcw : 0 ≤ cw)
    (hrx : -2147483648 ≤ rx) (hcx : -2147483648 ≤ cx)
    (hrw2 : rw ≤ 2147483647) (hcw2 : cw ≤ 2147483647)
    (hre : rx + rw ≤ 2147483647) (hce : cx + cw ≤ 2147483647)
    (ho : max rx cx < min (rx + rw) (cx + cw)) :
    clipAxis rx rw cx cw = (max rx cx, min (rx + rw) (cx + cw) - max rx cx) := by
  simp only [clipAxis, wrapInt]
  split_ifs <;> refine Prod.ext ?_ ?_ <;> simp only [] <;> omega

/-- One axis: an interval inside the clip is left as it is. -/
theorem clipAxis_fixed (rx rw cx cw : Int) (h1 : cx ≤ rx) (h2 : rx + rw ≤ cx + cw)
    (hcx : -2147483648 ≤ cx) (hrw : 0 ≤ rw) (hce : cx + cw ≤ 2147483647) :
    clipAxis rx rw cx cw = (rx, rw) := by
  have hlt : ¬ rx < cx := by omega
  have hgt : ¬ wrapInt (rx + rw) > wrapInt (cx + cw) := by
    unfold wrapInt
    omega
  simp only [clipAxis, hlt, if_false, hgt]

/-- C24, counterexample: the candidate R = (10, 10, 2147483647, 50) and the clip
C = (0, 0, 2147483647, 100) have non-negative extents and overlap in both axes,
but the sum `rect.x + rect.w` of the code is beyond the largest `int` and wraps
to a negative number, so the test against the clip's right edge fails and R is
left as it is: the right edge of the result is not min(R.x + R.w, C.x + C.w). -/
theorem applyClipRect_edge_overflow :
    (0 : Int) ≤ (⟨10, 10, 2147483647, 50⟩ : SDL_Rect).w ∧
    (0 : Int) ≤ (⟨0, 0, 2147483647, 100⟩ : SDL_Rect).w ∧
    max (10 : Int) 0 < min (10 + 2147483647) (0 + 2147483647) ∧
    max (10 : Int) 0 < min (10 + 50) (0 + 100) ∧
    Surface.applyClipRect
      ⟨⟨0, 0, 0, 0⟩, BlendMode.SDL_BLENDMODE_NONE, some ⟨0, 0, 2147483647, 100⟩, none, []⟩
      ⟨10, 10, 2147483647, 50⟩ = ⟨10, 10, 2147483647, 50⟩ ∧
    ¬ ((Surface.applyClipRect
        ⟨⟨0, 0, 0, 0⟩, BlendMode.SDL_BLENDMODE_NONE, some ⟨0, 0, 2147483647, 100⟩, none, []⟩
        ⟨10, 10, 2147483647, 50⟩).x +
      (Surface.applyClipRect
        ⟨⟨0, 0, 0, 0⟩, BlendMode.SDL_BLENDMODE_NONE, some ⟨0, 0, 2147483647, 100⟩, none, []⟩
        ⟨10, 10, 2147483647, 50⟩).w = min (10 + 2147483647) (0 + 2147483647)) := by
  decide

/-- C24, amended: for rectangles R and C with non-negative extents whose far
edges x + w and y + h are values of `int` (so that the sums the code forms do
not overflow) and whose overlap is non-empty in both axes, `applyClipRect`
yields exactly the geometric intersection: x = max(R.x, C.x),
y = max(R.y, C.y), x + w = min(R.x + R.w, C.x + C.w),
y + h = min(R.y + R.h, C.y + C.h); and clipping the result against C again
changes nothing. -/
theorem applyClipRect_intersection (st : Renderer) (R C : SDL_Rect)
    (hclip : st.clipRect = some C)
    (hR : 0 ≤ R.w ∧ 0 ≤ R.h) (hC : 0 ≤ C.w ∧ 0 ≤ C.h)
    (hRf : R.edgesFit) (hCf : C.edgesFit)
    (hox : max R.x C.x < min (R.x + R.w) (C.x + C.w))
    (hoy : max R.y C.y < min (R.y + R.h) (C.y + C.h)) :
    (Surface.applyClipRect st R).x = max R.x C.x ∧
    (Surface.applyClipRect st R).y = max R.y C.y ∧
    (Surface.applyClipRect st R).x + (Surface.applyClipRect st R).w
      = min (R.x + R.w) (C.x + C.w) ∧
    (Surface.applyClipRect st R).y + (Surface.applyClipRect st R).h
      = min (R.y + R.h) (C.y + C.h) ∧
    Surface.applyClipRect st (Surface.applyClipRect st R) = Surface.applyClipRect st R := by
  have hget : SDL_RenderGetClipRect st = C := by simp [SDL_RenderGetClipRect, hclip]
  obtain ⟨hRx, hRy, hRw, hRh, hRe, hRb⟩ := hRf
  obtain ⟨hCx, hCy, hCw, hCh, hCe, hCb⟩ := hCf
  have ax := clipAxis_overlap R.x R.w C.x C.w hR.1 hC.1 hRx hCx hRw hCw hRe hCe hox
  have ay := clipAxis_overlap R.y R.h C.y C.h hR.2 hC.2 hRy hCy hRh hCh hRb hCb hoy
  have hfx := clipAxis_fixed (max R.x C.x) (min (R.x + R.w) (C.x + C.w) - max R.x C.x)
    C.x C.w (by omega) (by omega) hCx (by omega) hCe
  have hfy := clipAxis_fixed (max R.y C.y) (min (R.y + R.h) (C.y + C.h) - max R.y C.y)
    C.y C.h (by omega) (by omega) hCy (by omega) hCb
  have hidem : Surface.applyClipRect st (Surface.applyClipRect st R) =
      Surface.applyClipRect st R := by
    rw [applyClipRect_axes st R, applyClipRect_axes st, hget]
    simp only [ax, ay, hfx, hfy]
  rw [applyClipRect_axes st R, hget] at hidem ⊢
  simp only [ax, ay] at hidem ⊢
  exact ⟨trivial, trivial, by omega, by omega, hidem⟩

/-- The candidate (1073741824, 30, 1073741800, 100) against the clip
(1073741900, 20, 50, 50), whose coordinates reach 2^30 and more: the
intersection is (1073741900, 30, 50, 40), and clipping it again leaves it. -/
theorem applyClipRect_intersection_witness :
    Surface.applyClipRect
      ⟨⟨0, 0, 0, 0⟩, BlendMode.SDL_BLENDMODE_NONE, some ⟨1073741900, 20, 50, 50⟩, none, []⟩
      ⟨1073741824, 30, 1073741800, 100⟩ = ⟨1073741900, 30, 50, 40⟩ ∧
    Surface.applyClipRect
      ⟨⟨0, 0, 0, 0⟩, BlendMode.SDL_BLENDMODE_NONE, some ⟨1073741900, 20, 50, 50⟩, none, []⟩
      (Surface.applyClipRect
        ⟨⟨0, 0, 0, 0⟩, BlendMode.SDL_BLENDMODE_NONE, some ⟨1073741900, 20, 50, 50⟩, none, []⟩
        ⟨1073741824, 30, 1073741800, 100⟩) =
      Surface.applyClipRect
        ⟨⟨0, 0, 0, 0⟩, BlendMode.SDL_BLENDMODE_NONE, some ⟨1073741900, 20, 50, 50⟩, none, []⟩
        ⟨1073741824, 30, 1073741800, 100⟩ :=
  ⟨by decide,
   (applyClipRect_intersection
      ⟨⟨0, 0, 0, 0⟩, BlendMode.SDL_BLENDMODE_NONE, some ⟨1073741900, 20, 50, 50⟩, none, []⟩
      ⟨1073741824, 30, 1073741800, 100⟩ ⟨1073741900, 20, 50, 50⟩ rfl (by decide) (by decide)
      (by decide) (by decide) (by decide) (by decide)).2.2.2.2⟩

/-! ### The border of a rectangle -/

/-- C25, counterexample: for the rectangle (0, 32767, 5, 3) the pixel
(0, 32769), in the last row, is on the border and no strip covers it, and the
pixel (0, -32767), outside the rectangle, is covered by the strip of the bottom
row. -/
theorem rectangle_border_missed :
    (1 : Int) ≤ 5 ∧ (1 : Int) ≤ 3 ∧
    (⟨0, 32767, 5, 3⟩ : SDL_Rect).onBorder 0 32769 ∧
    ¬ (∃ s ∈ Surface.rectangleStrips ⟨0, 32767, 5, 3⟩, s.covers 0 32769) ∧
    (∃ s ∈ Surface.rectangleStrips ⟨0, 32767, 5, 3⟩, s.covers 0 (-32767)) ∧
    ¬ (⟨0, 32767, 5, 3⟩ : SDL_Rect).onBorder 0 (-32767) := by
  decide

/-- C25, amended: for every rectangle with w >= 1 and h >= 1 whose corners are
16-bit coordinates (-32768 <= x, -32768 <= y, x + w <= 32768, y + h <= 32768),
the pixels covered by the strips that `rectangle` fills are exactly the border
of the rectangle: the pixels of the rectangle in its first row, last row, first
column or last column, and no interior pixel. -/
theorem rectangle_covers_border (re : SDL_Rect) (hw : 1 ≤ re.w) (hh : 1 ≤ re.h)
    (h16 : re.fits16) (px py : Int) :
    (∃ s ∈ Surface.rectangleStrips re, s.covers px py) ↔ re.onBorder px py := by
  rw [rectangleStrips_eq_spec re h16]
  simp only [specOutlineFills, SDL_Rect.onBorder, SDL_Rect.covers]
  split_ifs <;>
    simp only [List.nil_append, List.append_nil, List.cons_append, List.mem_cons,
      List.mem_singleton, List.not_mem_nil, exists_eq_or_imp, exists_eq_left, or_false,
      false_and, exists_false] <;>
    omega

/-- The rectangle (10, 20, 5, 4): the corner (14, 23) is covered, the interior
pixel (12, 21) is not. -/
theorem rectangle_covers_border_witness :
    ((∃ s ∈ Surface.rectangleStrips ⟨10, 20, 5, 4⟩, s.covers 14 23) ↔
      (⟨10, 20, 5, 4⟩ : SDL_Rect).onBorder 14 23) ∧
    (⟨10, 20, 5, 4⟩ : SDL_Rect).onBorder 14 23 ∧
    ¬ (∃ s ∈ Surface.rectangleStrips ⟨10, 20, 5, 4⟩, s.covers 12 21) :=
  ⟨rectangle_covers_border ⟨10, 20, 5, 4⟩ (by decide) (by decide) (by decide) 14 23,
   by decide, by decide⟩

/-! ### Blits aligned in a container -/

/-- C26, counterexample: a source 70000 wide, right-aligned in a container as
wide, is drawn 4464 wide (the width as a `Uint16`) from the left edge of the
container, so its right edge is at 4464 and not at the right edge 70000 of the
container. -/
theorem blitAligned_wide_source :
    (Surface.blitAligned ⟨some ⟨7, 255⟩, 70000, 10⟩
      ⟨⟨0, 0, 0, 0⟩, BlendMode.SDL_BLENDMODE_NONE, none, none, []⟩
      (some ⟨1, 255⟩) ⟨0, 0, 70000, 10⟩ HAlign.HAlignRight VAlign.VAlignTop).2.commands =
      [DrawCmd.copy none ⟨7, 255⟩ (some ⟨0, 0, 4464, 10⟩) (some ⟨0, 0, 4464, 10⟩)] ∧
    (0 : Int) + 4464 ≠ 0 + 70000 := by
  decide

/-- C26, amended: for every container rectangle with coordinates below 2^30 in
absolute value and every pair of alignments, when the source is no wider and no
taller than the container and its size is of 16 bits (0 <= W <= container.w,
0 <= H <= container.h, W, H < 65536), the alignment-aware `blit` draws the
source, W x H, in a rectangle that lies entirely inside the container; Left and
Top put it at the origin of the container, Right and Bottom make its right and
bottom edges those of the container, and Center and Middle put it at the offset
w/2 - W/2 and h/2 - H/2. -/
theorem blitAligned_inside (self : Surface) (st : Renderer) (d t : Texture)
    (container : SDL_Rect) (halign : HAlign) (valign : VAlign)
    (ht : self.texture = some t)
    (hW : 0 ≤ self.w ∧ self.w ≤ container.w ∧ self.w < 65536)
    (hH : 0 ≤ self.h ∧ self.h ≤ container.h ∧ self.h < 65536)
    (hc : container.small) :
    (Surface.blitAligned self st (some d) container halign valign).2.commands =
      st.commands ++
        [DrawCmd.copy st.target t (some ⟨0, 0, self.w, self.h⟩)
          (some ⟨specAlignX container self.w halign, specAlignY container self.h valign,
            self.w, self.h⟩)] ∧
    (⟨specAlignX container self.w halign, specAlignY container self.h valign,
        self.w, self.h⟩ : SDL_Rect).within container ∧
    (halign = HAlign.HAlignLeft → specAlignX container self.w halign = container.x) ∧
    (halign = HAlign.HAlignRight →
      specAlignX container self.w halign + self.w = container.x + container.w) ∧
    (valign = VAlign.VAlignTop → specAlignY container self.h valign = container.y) ∧
    (valign = VAlign.VAlignBottom →
      specAlignY container self.h valign + self.h = container.y + container.h) := by
  obtain ⟨hx1, hx2, hy1, hy2, hw2, hh2⟩ := hc
  have he : ¬ ((some d : Option Texture) = none ∨ (-1 : Int) = 0) := by simp
  have hcw : 0 ≤ container.w := by omega
  have hch : 0 ≤ container.h := by omega
  have hX : (match halign with
      | HAlign.HAlignLeft => container
      | HAlign.HAlignCenter =>
        { container with
          x := wrapInt (container.x +
            wrapInt (Int.tdiv container.w 2 - Int.tdiv self.w 2)) }
      | HAlign.HAlignRight =>
        { container with x := wrapInt (container.x + wrapInt (container.w - self.w)) }) =
      { container with x := specAlignX container self.w halign } := by
    cases halign
    · rfl
    · simp only [specAlignX, tdiv_two _ hcw, tdiv_two _ hW.1, SDL_Rect.mk.injEq, and_true]
      unfold wrapInt
      omega
    · simp only [specAlignX, SDL_Rect.mk.injEq, and_true]
      unfold wrapInt
      omega
  have hY : ∀ c : SDL_Rect, c.y = container.y → c.h = container.h →
      (match valign with
      | VAlign.VAlignTop => c
      | VAlign.VAlignMiddle =>
        { c with y := wrapInt (c.y + wrapInt (Int.tdiv c.h 2 - Int.tdiv self.h 2)) }
      | VAlign.VAlignBottom =>
        { c with y := wrapInt (c.y + wrapInt (c.h - self.h)) }) =
      { c with y := specAlignY container self.h valign } := by
    intro c hcy hchh
    cases valign
    · simp only [specAlignY, ← hcy]
    · simp only [specAlignY, hcy, hchh, tdiv_two _ hch, tdiv_two _ hH.1, SDL_Rect.mk.injEq,
        true_and, and_true]
      unfold wrapInt
      omega
    · simp only [specAlignY, hcy, hchh, SDL_Rect.mk.injEq, true_and, and_true]
      unfold wrapInt
      omega
  have h16w : toUint16 self.w = self.w := by unfold toUint16; omega
  have h16h : toUint16 self.h = self.h := by unfold toUint16; omega
  refine ⟨?_, ?_, ?_, ?_, ?_, ?_⟩
  · have hy := hY ⟨specAlignX container self.w halign, container.y, container.w,
      container.h⟩ rfl rfl
    simp only at hy
    simp only [Surface.blitAligned, hX, Surface.blit, if_neg he, ht,
      SDL_RenderCopy, ne_eq, not_true_eq_false, if_false, h16w, h16h, hy]
  · simp only [SDL_Rect.within]
    cases halign <;> cases valign <;> simp only [specAlignX, specAlignY] <;> omega
  · intro h; subst h; rfl
  · intro h; subst h; simp only [specAlignX]; omega
  · intro h; subst h; rfl
  · intro h; subst h; simp only [specAlignY]; omega

/-- A 10 x 6 source centred horizontally and bottom-aligned in the container
(100, 50, 31, 20): drawn at (110, 64). -/
theorem blitAligned_inside_witness :
    (Surface.blitAligned ⟨some ⟨7, 255⟩, 10, 6⟩
      ⟨⟨0, 0, 0, 0⟩, BlendMode.SDL_BLENDMODE_NONE, none, none, []⟩
      (some ⟨1, 255⟩) ⟨100, 50, 31, 20⟩ HAlign.HAlignCenter VAlign.VAlignBottom).2.commands =
      [DrawCmd.copy none ⟨7, 255⟩ (some ⟨0, 0, 10, 6⟩) (some ⟨110, 64, 10, 6⟩)] :=
  (blitAligned_inside ⟨some ⟨7, 255⟩, 10, 6⟩
      ⟨⟨0, 0, 0, 0⟩, BlendMode.SDL_BLENDMODE_NONE, none, none, []⟩
      ⟨1, 255⟩ ⟨7, 255⟩ ⟨100, 50, 31, 20⟩ HAlign.HAlignCenter VAlign.VAlignBottom rfl
      (by decide) (by decide) (by decide)).1

/-! ### Fills without a clip rectangle -/

/-- C27, the code at the failing input: after `clearClipRect` the clip rectangle
that the renderer reports is (0, 0, 0, 0); `applyClipRect` cuts the rectangle
(10, 10, 50, 50) down to width and height 0, so `box` with alpha 128 issues no
fill and leaves the renderer as it is, while `box` with alpha 255 fills the
rectangle. -/
theorem box_blended_without_clip :
    SDL_RenderGetClipRect (Surface.clearClipRect
      ⟨⟨0, 0, 0, 0⟩, BlendMode.SDL_BLENDMODE_NONE, some ⟨0, 0, 320, 240⟩, none, []⟩) =
      ⟨0, 0, 0, 0⟩ ∧
    Surface.applyClipRect (Surface.clearClipRect
      ⟨⟨0, 0, 0, 0⟩, BlendMode.SDL_BLENDMODE_NONE, some ⟨0, 0, 320, 240⟩, none, []⟩)
      ⟨10, 10, 50, 50⟩ = ⟨10, 10, 0, 0⟩ ∧
    (Surface.box (Surface.clearClipRect
      ⟨⟨0, 0, 0, 0⟩, BlendMode.SDL_BLENDMODE_NONE, some ⟨0, 0, 320, 240⟩, none, []⟩)
      ⟨10, 10, 50, 50⟩ ⟨255, 255, 255, 128⟩).commands = [] ∧
    (Surface.box (Surface.clearClipRect
      ⟨⟨0, 0, 0, 0⟩, BlendMode.SDL_BLENDMODE_NONE, some ⟨0, 0, 320, 240⟩, none, []⟩)
      ⟨10, 10, 50, 50⟩ ⟨255, 255, 255, 255⟩).commands =
      [DrawCmd.fillRect none ⟨10, 10, 50, 50⟩ ⟨255, 255, 255, 255⟩
        BlendMode.SDL_BLENDMODE_NONE] := by
  decide

/-- Without a clip rectangle no blended fill of a rectangle at non-negative
coordinates is issued, whatever its size. -/
theorem box_blended_without_clip_all (st : Renderer) (re : SDL_Rect) (c : RGBAColor)
    (ha : 0 < c.a ∧ c.a < 255) (hx : 0 ≤ re.x) (_hy : 0 ≤ re.y) (hw : 0 < re.w)
    (_hh : 0 < re.h) (hs : re.small) :
    Surface.box (Surface.clearClipRect st) re c = Surface.clearClipRect st := by
  have h255 : ¬ c.a = 255 := by omega
  have h0 : c.a ≠ 0 := by omega
  obtain ⟨hx1, hx2, hy1, hy2, hw2, hh2⟩ := hs
  have hget : SDL_RenderGetClipRect (Surface.clearClipRect st) = ⟨0, 0, 0, 0⟩ := rfl
  have hwz : (Surface.applyClipRect (Surface.clearClipRect st) re).w = 0 := by
    rw [applyClipRect_axes, hget]
    simp only [clipAxis, wrapInt]
    split_ifs <;> omega
  simp only [Surface.box, h255, h0, Surface.fillRectAlpha, hwz, if_true, if_false, ne_eq,
    not_false_eq_true, true_or]

/-! ### Skin colours -/

/-- C28, the code at the failing input: for the line `foo=#ff0000ff` of a skin
configuration `stringToColor("foo")` is -1, the index under which
`readSkinConfig` stores the colour, which is outside the 6-entry array
`skinConfColors`; for a recognised name the index is that of the name. For each
of the six colours `stringToColor(colorToString(c)) == c`. -/
theorem readSkinConfig_unknown_color :
    stringToColor "foo".toList = -1 ∧
    readSkinConfigLine "foo".toList "#ff0000ff".toList =
      .ok (SkinEntry.color (-1) ⟨255, 0, 0, 255⟩) ∧
    storeColor (List.replicate NUM_COLORS ⟨255, 255, 255, 130⟩) (-1) ⟨255, 0, 0, 255⟩ = none ∧
    readSkinConfigLine "selectionBg".toList "#ff0000ff".toList =
      .ok (SkinEntry.color 2 ⟨255, 0, 0, 255⟩) ∧
    (∀ c, c < NUM_COLORS → ∃ name, colorToString c = some name ∧
      stringToColor name = (c : Int)) := by
  decide

/-! ### The destination of a blit -/

/-- C29: the draw issued by `blit`, `blitCenter` and `blitRight` does not depend
on which destination is passed. For two present destinations and otherwise
equal arguments and renderer state the outcome is the same. When the surface has
a texture and `a` is not 0, each of the three adds to the renderer exactly one
copy of that texture (with alpha modulation `a` unless `a` is -1), issued
against the current render target of the renderer and not against the
destination: source rectangle (0, 0, W, H) with W = Uint16(w ? w : this->w) and
H = Uint16(h ? h : this->h), destination rectangle of the same size at (x, y)
for `blit`, at (x - ow, y - oh) for `blitCenter` and at (x - min(this->w, w), y)
for `blitRight`; nothing else of the renderer changes. Without a texture or with
`a` equal to 0 the renderer is left as it is, and with an absent destination
nothing is drawn and nothing changes. -/
theorem blit_destination_irrelevant (self : Surface) (st : Renderer) (d1 d2 : Texture)
    (x y w h a : Int) :
    Surface.blit self st (some d1) x y w h a = Surface.blit self st (some d2) x y w h a ∧
    Surface.blitCenter self st (some d1) x y w h a =
      Surface.blitCenter self st (some d2) x y w h a ∧
    Surface.blitRight self st (some d1) x y w h a =
      Surface.blitRight self st (some d2) x y w h a ∧
    (∀ t, self.texture = some t → a ≠ 0 →
      (Surface.blit self st (some d1) x y w h a).2 =
        { st with commands := st.commands ++ [DrawCmd.copy st.target
            (if a = -1 then t else ⟨t.id, toUint8 a⟩)
            (some ⟨0, 0, toUint16 (if w = 0 then self.w else w),
              toUint16 (if h = 0 then self.h else h)⟩)
            (some ⟨x, y, toUint16 (if w = 0 then self.w else w),
              toUint16 (if h = 0 then self.h else h)⟩)] } ∧
      (Surface.blitCenter self st (some d1) x y w h a).2 =
        { st with commands := st.commands ++ [DrawCmd.copy st.target
            (if a = -1 then t else ⟨t.id, toUint8 a⟩)
            (some ⟨0, 0, toUint16 (if w = 0 then self.w else w),
              toUint16 (if h = 0 then self.h else h)⟩)
            (some ⟨wrapInt (x - (if w = 0 then Int.tdiv self.w 2
                else min (Int.tdiv self.w 2) (Int.tdiv w 2))),
              wrapInt (y - (if h = 0 then Int.tdiv self.h 2
                else min (Int.tdiv self.h 2) (Int.tdiv h 2))),
              toUint16 (if w = 0 then self.w else w),
              toUint16 (if h = 0 then self.h else h)⟩)] } ∧
      (Surface.blitRight self st (some d1) x y w h a).2 =
        { st with commands := st.commands ++ [DrawCmd.copy st.target
            (if a = -1 then t else ⟨t.id, toUint8 a⟩)
            (some ⟨0, 0, toUint16 (if w = 0 then self.w else w),
              toUint16 (if h = 0 then self.h else h)⟩)
            (some ⟨wrapInt (x - min self.w (if w = 0 then self.w else w)), y,
              toUint16 (if w = 0 then self.w else w),
              toUint16 (if h = 0 then self.h else h)⟩)] }) ∧
    ((self.texture = none ∨ a = 0) →
      (Surface.blit self st (some d1) x y w h a).2 = st ∧
      (Surface.blitCenter self st (some d1) x y w h a).2 = st ∧
      (Surface.blitRight self st (some d1) x y w h a).2 = st) ∧
    Surface.blit self st none x y w h a = (self, st) ∧
    Surface.blitCenter self st none x y w h a = (self, st) ∧
    Surface.blitRight self st none x y w h a = (self, st) := by
  refine ⟨?_, ?_, ?_, ?_, ?_, ?_, ?_, ?_⟩
  · simp [Surface.blit]
  · simp [Surface.blitCenter, Surface.blit]
  · simp [Surface.blitRight, Surface.blit]
  · intro t ht ha
    have hr : (if (if w = 0 then self.w else w) = 0 then self.w
        else (if w = 0 then self.w else w)) = (if w = 0 then self.w else w) := by
      by_cases hw : w = 0
      · by_cases hs : self.w = 0 <;> simp [hw, hs]
      · simp [hw]
    by_cases h1 : a = -1
    · refine ⟨?_, ?_, ?_⟩
      · simp [Surface.blit, ha, h1, ht, SDL_RenderCopy]
      · by_cases hw : w = 0 <;> by_cases hh : h = 0 <;>
          simp [Surface.blitCenter, Surface.blit, ha, h1, ht, SDL_RenderCopy, hw, hh]
      · simp [Surface.blitRight, Surface.blit, ha, h1, ht, SDL_RenderCopy, hr]
    · refine ⟨?_, ?_, ?_⟩
      · simp [Surface.blit, ha, h1, ht, SDL_RenderCopy, SDL_SetTextureAlphaMod]
      · by_cases hw : w = 0 <;> by_cases hh : h = 0 <;>
          simp [Surface.blitCenter, Surface.blit, ha, h1, ht, SDL_RenderCopy,
            SDL_SetTextureAlphaMod, hw, hh]
      · simp [Surface.blitRight, Surface.blit, ha, h1, ht, SDL_RenderCopy,
          SDL_SetTextureAlphaMod, hr]
  · intro hn
    rcases hn with hn | hn
    · by_cases ha : a = 0
      · simp [Surface.blitCenter, Surface.blitRight, Surface.blit, ha]
      · by_cases h1 : a = -1 <;>
          simp [Surface.blitCenter, Surface.blitRight, Surface.blit, ha, h1, hn,
            SDL_RenderCopy, SDL_SetTextureAlphaMod]
    · simp [Surface.blitCenter, Surface.blitRight, Surface.blit, hn]
  · simp [Surface.blit]
  · simp [Surface.blitCenter, Surface.blit]
  · simp [Surface.blitRight, Surface.blit]

/-- A 100 x 60 surface with texture 7, blitted centred at (200, 120) with alpha
128 while the render target is texture 3: whether the destination passed is
texture 1 or texture 2, the one command is the copy of texture 7 with alpha 128
from (0, 0, 100, 60) to (150, 90, 100, 60) against target 3. -/
theorem blit_destination_irrelevant_witness :
    (Surface.blitCenter ⟨some ⟨7, 255⟩, 100, 60⟩
        ⟨⟨0, 0, 0, 0⟩, BlendMode.SDL_BLENDMODE_NONE, none, some 3, []⟩
        (some ⟨1, 255⟩) 200 120 0 0 128).2 =
      ⟨⟨0, 0, 0, 0⟩, BlendMode.SDL_BLENDMODE_NONE, none, some 3,
        [DrawCmd.copy (some 3) ⟨7, 128⟩ (some ⟨0, 0, 100, 60⟩)
          (some ⟨150, 90, 100, 60⟩)]⟩ ∧
    Surface.blitCenter ⟨some ⟨7, 255⟩, 100, 60⟩
        ⟨⟨0, 0, 0, 0⟩, BlendMode.SDL_BLENDMODE_NONE, none, some 3, []⟩
        (some ⟨1, 255⟩) 200 120 0 0 128 =
      Surface.blitCenter ⟨some ⟨7, 255⟩, 100, 60⟩
        ⟨⟨0, 0, 0, 0⟩, BlendMode.SDL_BLENDMODE_NONE, none, some 3, []⟩
        (some ⟨2, 255⟩) 200 120 0 0 128 :=
  ⟨((blit_destination_irrelevant ⟨some ⟨7, 255⟩, 100, 60⟩
        ⟨⟨0, 0, 0, 0⟩, BlendMode.SDL_BLENDMODE_NONE, none, some 3, []⟩
        ⟨1, 255⟩ ⟨2, 255⟩ 200 120 0 0 128).2.2.2.1 ⟨7, 255⟩ rfl (by decide)).2.1,
   (blit_destination_irrelevant ⟨some ⟨7, 255⟩, 100, 60⟩
        ⟨⟨0, 0, 0, 0⟩, BlendMode.SDL_BLENDMODE_NONE, none, some 3, []⟩
        ⟨1, 255⟩ ⟨2, 255⟩ 200 120 0 0 128).2.1⟩

/-! ### The scroll bar -/

/-- C30: in `drawScrollBar` nothing is drawn when totalSize <= pageSize.
Otherwise, for every pagePos <= totalSize - pageSize and every inner track
height H >= 4 (the content height minus 6) with H * pageSize and H * pagePos
below 2^32, the division by totalSize - pageSize is by a non-zero number and
the bar stays inside the track: barSize >= 4 and barPos + barSize <= H, with
barPos == 0 at pagePos == 0 and barPos + barSize == H at
pagePos == totalSize - pageSize. -/
theorem drawScrollBar_inside_track (width : Int) (contentTop contentHeight : Nat)
    (pageSize totalSize pagePos : Nat)
    (hT : totalSize < 4294967296) (hlt : pageSize < totalSize)
    (hpos : pagePos ≤ totalSize - pageSize)
    (hH : 10 ≤ contentHeight ∧ contentHeight < 4294967296)
    (hm1 : (contentHeight - 6) * pageSize < 4294967296)
    (hm2 : (contentHeight - 6) * pagePos < 4294967296) :
    (∀ w ct ch P T pos, T ≤ P → drawScrollBar w ct ch P T pos = .ok none) ∧
    totalSize - pageSize ≠ 0 ∧
    ∃ d, drawScrollBar width contentTop contentHeight pageSize totalSize pagePos =
        .ok (some d) ∧
      d.height = contentHeight - 6 ∧
      d.barSize = max ((contentHeight - 6) * pageSize / totalSize) 4 ∧
      d.barPos = (contentHeight - 6 - d.barSize) * pagePos / (totalSize - pageSize) ∧
      4 ≤ d.barSize ∧ d.barPos + d.barSize ≤ d.height ∧
      (pagePos = 0 → d.barPos = 0) ∧
      (pagePos = totalSize - pageSize → d.barPos + d.barSize = d.height) := by
  refine ⟨?_, by omega, ?_⟩
  · intro w ct ch P T pos hle
    simp only [drawScrollBar, hle, if_true]
  · have hh1 : u32 (contentHeight + 4294967296 - 2) = contentHeight - 2 := by
      unfold u32; omega
    have hh2 : u32 (contentHeight - 2 + 4294967296 - 4) = contentHeight - 6 := by
      unfold u32; omega
    have hH4 : 4 ≤ contentHeight - 6 := by omega
    have hH32 : contentHeight - 6 < 4294967296 := by omega
    generalize contentHeight - 6 = H at hh2 hm1 hm2 hH4 hH32 ⊢
    have hb1 : u32 (H * pageSize) = H * pageSize := Nat.mod_eq_of_lt hm1
    have hBle : H * pageSize / totalSize ≤ H := by
      apply Nat.div_le_of_le_mul
      rw [Nat.mul_comm totalSize H]
      exact Nat.mul_le_mul_left H (le_of_lt hlt)
    have hB4 : 4 ≤ max (H * pageSize / totalSize) 4 := le_max_right _ _
    have hBH : max (H * pageSize / totalSize) 4 ≤ H := max_le hBle hH4
    have hd : u32 (totalSize + 4294967296 - pageSize) = totalSize - pageSize := by
      unfold u32; omega
    have hd0 : ¬ totalSize - pageSize = 0 := by omega
    have hs : u32 (H + 4294967296 - max (H * pageSize / totalSize) 4) =
        H - max (H * pageSize / totalSize) 4 := by
      generalize max (H * pageSize / totalSize) 4 = B at hB4 hBH ⊢
      unfold u32; omega
    have hq : u32 ((H - max (H * pageSize / totalSize) 4) * pagePos) =
        (H - max (H * pageSize / totalSize) 4) * pagePos :=
      Nat.mod_eq_of_lt (lt_of_le_of_lt (Nat.mul_le_mul_right pagePos (Nat.sub_le H _)) hm2)
    have hQle : (H - max (H * pageSize / totalSize) 4) * pagePos / (totalSize - pageSize) ≤
        H - max (H * pageSize / totalSize) 4 := by
      apply Nat.div_le_of_le_mul
      rw [Nat.mul_comm (totalSize - pageSize) _]
      exact Nat.mul_le_mul_left _ hpos
    have hnle : ¬ totalSize ≤ pageSize := by omega
    obtain ⟨d, hdraw, hdh, hdb, hdp⟩ : ∃ d,
        drawScrollBar width contentTop contentHeight pageSize totalSize pagePos =
          .ok (some d) ∧ d.height = H ∧ d.barSize = max (H * pageSize / totalSize) 4 ∧
        d.barPos = (H - max (H * pageSize / totalSize) 4) * pagePos /
          (totalSize - pageSize) := by
      simp only [drawScrollBar, hnle, if_false, hh1, hh2, hb1, hd, hd0, hs, hq]
      exact ⟨_, rfl, rfl, rfl, rfl⟩
    refine ⟨d, hdraw, hdh, hdb, ?_, ?_, ?_, ?_, ?_⟩
    · rw [hdp, hdb]
    · rw [hdb]; exact hB4
    · rw [hdp, hdb, hdh]
      generalize max (H * pageSize / totalSize) 4 = B at hB4 hBH hQle ⊢
      omega
    · intro h0
      rw [hdp, h0, Nat.mul_zero, Nat.zero_div]
    · intro hend
      rw [hdp, hdb, hdh, hend, Nat.mul_div_cancel _ (by omega : 0 < totalSize - pageSize)]
      generalize max (H * pageSize / totalSize) 4 = B at hB4 hBH ⊢
      omega

/-- A content area 206 high (track 200), 5 of 20 entries per page: the bar is
50 high, at 0 for the first page position, at 70 for position 7 and at 150,
the end of the track, for the last position 15. -/
theorem drawScrollBar_inside_track_witness :
    ((drawScrollBar 320 20 206 5 20 0).map
      (Option.map (fun d => (d.height, d.barSize, d.barPos)))) = .ok (some (200, 50, 0)) ∧
    ((drawScrollBar 320 20 206 5 20 7).map
      (Option.map (fun d => (d.height, d.barSize, d.barPos)))) = .ok (some (200, 50, 70)) ∧
    ((drawScrollBar 320 20 206 5 20 15).map
      (Option.map (fun d => (d.height, d.barSize, d.barPos)))) = .ok (some (200, 50, 150)) ∧
    (20 : Nat) - 5 ≠ 0 :=
  ⟨by decide, by decide, by decide,
   (drawScrollBar_inside_track 320 20 206 5 20 7 (by decide) (by decide) (by decide)
      (by decide) (by decide) (by decide)).2.1⟩

end GMenu2X
